import Mathlib

/-! # imgx: a shallow embedding of `src/imgx.go`

Go strings are modelled as lists of characters (`Str`); the inputs are taken
to be valid UTF-8, so that splitting on an ASCII byte, testing an ASCII
prefix and trimming Unicode white space agree with the byte-level Go
functions.  A Go slice that the program compares with `nil` is an
`Option (List _)` (`none` is `nil`); every other slice is a `List`.
`float64` values are those of IEEE 754 binary64 (`Float64`): products are
rounded to the nearest value and the conversion to `int` truncates.  Go's
`int` is `Int`; the program does no arithmetic on it.  Console output
(`fmt.Printf`) is not modelled.
-/

namespace Imgx

/-- A Go string. -/
abbrev Str := List Char

/-! ## The parts of the Go standard library the program uses -/

/-- Go `strings.HasPrefix`. -/
def stringsHasPrefix (s p : Str) : Bool := p.isPrefixOf s

/-- Go `strings.HasSuffix`. -/
def stringsHasSuffix (s p : Str) : Bool := p.isSuffixOf s

/-- Go `strings.Split(s, sep)` for a one-character separator: the fields
between the separators, always at least one field. -/
def stringsSplit (sep : Char) : Str → List Str
  | [] => [[]]
  | c :: cs =>
    if c = sep then [] :: stringsSplit sep cs
    else
      match stringsSplit sep cs with
      | [] => [[c]]
      | f :: fs => (c :: f) :: fs

/-- Go `unicode.IsSpace`. -/
def unicodeIsSpace (c : Char) : Bool :=
  let n := c.toNat
  n = 0x09 || n = 0x0A || n = 0x0B || n = 0x0C || n = 0x0D || n = 0x20 ||
  n = 0x85 || n = 0xA0 || n = 0x1680 || (0x2000 ≤ n && n ≤ 0x200A) ||
  n = 0x2028 || n = 0x2029 || n = 0x202F || n = 0x205F || n = 0x3000

/-- Go `strings.TrimSpace`: leading and trailing white space removed. -/
def stringsTrimSpace (s : Str) : Str :=
  ((s.dropWhile unicodeIsSpace).reverse.dropWhile unicodeIsSpace).reverse

/-- The loop of Go `filepath.Ext`, run over the reversed path: `acc` holds the
characters already passed, in path order. -/
def filepathExtLoop : Str → Str → Str
  | [], _ => []
  | c :: rest, acc =>
    if c = '/' then []
    else if c = '.' then c :: acc
    else filepathExtLoop rest (c :: acc)

/-- Go `filepath.Ext` (Unix separator): the suffix beginning at the final dot
of the final path element, empty when that element has no dot. -/
def filepathExt (path : Str) : Str := filepathExtLoop path.reverse []

/-- One step of Go `filepath.Clean` over the path elements: `stack` holds the
elements kept so far, last one first. -/
def cleanStep (rooted : Bool) (stack : List Str) (elem : Str) : List Str :=
  if elem = [] then stack
  else if elem = ['.'] then stack
  else if elem = ['.', '.'] then
    match stack with
    | [] => if rooted then [] else [elem]
    | top :: below => if top = ['.', '.'] then elem :: stack else below
  else elem :: stack

/-- Go `filepath.Clean` (Unix): the shortest equivalent path. -/
def filepathClean (path : Str) : Str :=
  if path = [] then ['.']
  else
    let rooted := path.head? = some '/'
    let kept := ((stringsSplit '/' path).foldl (cleanStep rooted) []).reverse
    let body := List.intercalate ['/'] kept
    if rooted then '/' :: body
    else if body = [] then ['.'] else body

/-- Go `filepath.Join` of two elements: empty elements are ignored and the
result is cleaned. -/
def filepathJoin (a b : Str) : Str :=
  if a ≠ [] then filepathClean (a ++ '/' :: b)
  else if b ≠ [] then filepathClean b
  else []

/-- The characters after the last separator of `path`, scanning the reversed
path. -/
def lastElemLoop : Str → Str → Str
  | [], acc => acc
  | c :: rest, acc => if c = '/' then acc else lastElemLoop rest (c :: acc)

/-- Go `filepath.Base` (Unix): the last element of the path, trailing
separators removed; `.` for the empty path and `/` for a path of separators. -/
def filepathBase (path : Str) : Str :=
  if path = [] then ['.']
  else
    let stripped := path.reverse.dropWhile (fun c => c = '/')
    if stripped = [] then ['/'] else lastElemLoop stripped []

/-- Go `filepath.Split` (Unix): the path cut right after its final separator
into directory and file. -/
def filepathSplit (path : Str) : Str × Str :=
  let file := lastElemLoop path.reverse []
  (path.take (path.length - file.length), file)

deriving instance DecidableEq for Except

/-- Go `stringutil.StringInSlice`. -/
def stringInSlice (s : Str) (l : List Str) : Bool := l.contains s

/-! ## Data model (`src/imgx.go`, lines 42-119) -/

inductive PackageType
  | packageNone
  | packageStickerPack
  | packageImageSet
  | packageIconSet
  | packageIcns
  | packageCatalog
  deriving DecidableEq, Repr

inductive PresetType
  | presetNone
  | presetSmallSticker
  | presetMediumSticker
  | presetLargeSticker
  | presetThumb256
  | presetImageSet
  | presetImageSetForLargeSticker
  | presetLargeStickerWithImageSet
  deriving DecidableEq, Repr

inductive ImageFormat
  | formatUnchanged
  | formatJPEG
  | formatPNG
  | formatGIF
  | formatTIFF
  deriving DecidableEq, Repr

open PackageType PresetType ImageFormat

/-! ## The type `float64`

The program multiplies `float64` values and converts the product to `int`
(lines 700-701, 794-795, 897-898).  The values are those of IEEE 754 binary64
and every operation rounds to the nearest value, ties to even. -/

/-- A `float64` value.  A finite value is `mant * 2 ^ exp`, kept in the form
of its encoding: `exp` is at least -1074 and at most 971, `mant` is below
`2 ^ 53` in absolute value and, unless `exp` is -1074, at least `2 ^ 52`.
Zero is `finite 0 (-1074)`; the sign of zero is not kept, since the program
neither divides by a float nor prints one that could be zero. -/
inductive Float64
  | finite (mant : Int) (exp : Int)
  | inf (negative : Bool)
  | nan
  deriving DecidableEq

/-- The number of binary digits of `n`, given at least that much fuel. -/
def bitLength : Nat → Nat → Nat
  | 0, _ => 0
  | fuel + 1, n => if n = 0 then 0 else bitLength fuel (n / 2) + 1

/-- The `float64` nearest to the rational `num / den` (`den` positive), ties
going to the even mantissa; a magnitude that rounds beyond the largest finite
value gives an infinity, one that rounds below the smallest gives zero. -/
def Float64.round (num : Int) (den : Nat) : Float64 :=
  let a := num.natAbs
  if a = 0 ∨ den = 0 then .finite 0 (-1074)
  else
    -- `top` is the exponent of the leading binary digit of `a / den`
    let e0 : Int := (bitLength a a : Int) - (bitLength den den : Int)
    let top : Int := if a * 2 ^ (-e0).toNat < den * 2 ^ e0.toNat then e0 - 1 else e0
    let e : Int := max (top - 52) (-1074)
    -- `a / den = (n / d) * 2 ^ e`
    let n := a * 2 ^ (-e).toNat
    let d := den * 2 ^ e.toNat
    let q := n / d
    let r := n % d
    let k := if 2 * r > d ∨ (2 * r = d ∧ q % 2 = 1) then q + 1 else q
    let (k, e) := if k = 2 ^ 53 then (2 ^ 52, e + 1) else (k, e)
    if e > 971 then .inf (decide (num < 0))
    else .finite (if num < 0 then -(k : Int) else (k : Int)) e

/-- Go `float64(n)` for an `int`. -/
def Float64.ofInt (n : Int) : Float64 := Float64.round n 1

instance (n : Nat) : OfNat Float64 n := ⟨Float64.ofInt n⟩

/-- A decimal constant such as `0.666666` denotes the `float64` nearest to
it. -/
instance : OfScientific Float64 :=
  ⟨fun m s e => if s then Float64.round m (10 ^ e) else Float64.round (m * 10 ^ e) 1⟩

/-- Go `x * y` on `float64`: the exact product, rounded. -/
def Float64.mul : Float64 → Float64 → Float64
  | .nan, _ => .nan
  | _, .nan => .nan
  | .inf s, .inf t => .inf (s != t)
  | .inf s, .finite m _ => if m = 0 then .nan else .inf (s != decide (m < 0))
  | .finite m _, .inf s => if m = 0 then .nan else .inf (s != decide (m < 0))
  | .finite m1 e1, .finite m2 e2 =>
    Float64.round (m1 * m2 * 2 ^ (e1 + e2).toNat) (2 ^ (-(e1 + e2)).toNat)

/-- Go `int(x)` for a `float64` value `x`: truncation toward zero.  For a
value that `int` (64 bits) cannot hold, and for an infinity or a NaN, the Go
specification leaves the result to the implementation; the result of the
amd64 compiler, the least `int`, is taken. -/
def truncate : Float64 → Int
  | .finite m e =>
    let t := Int.tdiv (m * 2 ^ e.toNat) (2 ^ (-e).toNat)
    if -2 ^ 63 ≤ t ∧ t < 2 ^ 63 then t else -2 ^ 63
  | _ => -2 ^ 63

structure Configuration where
  valid : Bool := false
  err : Option Str := none
  srcDirPath : Str := []
  dstDirPath : Str := []
  manifestPath : Str := []
  preset : PresetType := presetNone
  validExtensions : Option (List Str) := none
  outManifest : Str := []
  outputFormat : ImageFormat := formatUnchanged
  outputPackage : PackageType := packageNone
  outputPackageReplace : Bool := false
  scale : Float64 := 0
  maxWidth : Int := 0
  maxHeight : Int := 0
  deriving DecidableEq

structure ProcessPlan where
  scale : Float64 := 0
  boxWidth : Int := 0
  boxHeight : Int := 0
  outputFormat : ImageFormat := formatUnchanged
  outputPackage : PackageType := packageNone
  requiredSuffix : Str := []
  removeSuffix : Str := []
  addSuffix : Str := []
  deriving DecidableEq

/-- A setting of a manifest (lines 116-119).  The slice `values` is only ever
built by `append` (line 281), so it is `nil` exactly when it is empty: the
empty list stands for `nil`. -/
structure ManifestSetting where
  key : Str := []
  values : List Str := []
  deriving DecidableEq, Repr

structure Manifest where
  files : List Str := []
  settings : List ManifestSetting := []
  deriving DecidableEq, Repr

/-! ## Extension list, manifest parser, file collector (lines 249-329) -/

/-- The loop of `makeValidExtensionList`: one alias appended per selected
`jpg` or `tif`. -/
def extensionAliases : List Str → List Str
  | [] => []
  | value :: rest =>
    if value = "jpg".toList then "jpeg".toList :: extensionAliases rest
    else if value = "tif".toList then "tiff".toList :: extensionAliases rest
    else extensionAliases rest

/-- `makeValidExtensionList` (lines 249-266). -/
def makeValidExtensionList (selected : Option (List Str)) : List Str :=
  match selected with
  | none => ["jpg".toList, "jpeg".toList, "png".toList, "gif".toList, "tif".toList, "tiff".toList]
  | some [] => ["jpg".toList, "jpeg".toList, "png".toList, "gif".toList, "tif".toList, "tiff".toList]
  | some (v :: vs) => (v :: vs) ++ extensionAliases (v :: vs)

/-- The body of the loop of `readManifest` for one line: `all` are the blocks
closed so far, `cur` is the block being filled. -/
def readManifestLine (st : List Manifest × Manifest) (line : Str) : List Manifest × Manifest :=
  let (all, cur) := st
  if line.length > 0 then
    if stringsHasPrefix line "# ".toList then (all, cur)
    else if stringsHasPrefix line "= ".toList then
      let parts := stringsSplit ',' (line.drop 2)
      if parts.length ≥ 2 then
        let setting : ManifestSetting :=
          { key := stringsTrimSpace (parts.headD []), values := (parts.drop 1).map stringsTrimSpace }
        (all, { cur with settings := cur.settings ++ [setting] })
      else (all, cur)
    else if stringsHasPrefix line "--".toList then (all ++ [cur], {})
    else (all, { cur with files := cur.files ++ [line] })
  else (all, cur)

/-- `readManifest` (lines 268-298); `lines` is what `fileutil.ReadLines(path)`
returned. -/
def readManifest (lines : List Str) : List Manifest :=
  let (all, cur) := lines.foldl readManifestLine ([], {})
  all ++ [cur]

/-- The test of line 310 (and 323): the extension has a character after the
dot and is in the list. -/
def extensionAllowed (value : Str) (extensions : List Str) : Bool :=
  let ext := filepathExt value
  decide (ext.length > 1) && stringInSlice (ext.drop 1) extensions

/-- `collectFileList` (lines 300-329); `baseList` is what
`fileutil.ShallowDirectory(srcDirPath)` returned. -/
def collectFileList (baseList : List Str) (srcDirPath : Str)
    (allowedExtensions : Option (List Str)) (manifestFiles : List Str) :
    Except Str (List Str) :=
  let extensions :=
    match allowedExtensions with
    | none => makeValidExtensionList none
    | some e => e
  if manifestFiles.length ≠ 0 then
    let outList :=
      (manifestFiles.filter
        (fun value => stringInSlice value baseList && extensionAllowed value extensions)).map
        (fun value => filepathJoin srcDirPath value)
    if outList.length = manifestFiles.length then .ok outList
    else .error "Missing files from manifest".toList
  else
    .ok ((baseList.filter (fun value => extensionAllowed value extensions)).map
      (fun value => filepathJoin srcDirPath value))

/-! ## Helpers of the package `droolingcat.com/fileutil` -/

/-- Modelled from the spec: `fileutil.ChangeExtension` is not under src/; the
spec has the destination name "with its extension rewritten to match the
plan's output format", so the extension of `path` (as `filepath.Ext` finds
it) is replaced by `ext`. -/
def changeExtension (path ext : Str) : Str :=
  path.take (path.length - (filepathExt path).length) ++ ext

/-- Modelled from the spec: `fileutil.HasSuffix` is not under src/; the spec
requires "the source name end in `@3x`" for `photo@3x.png`, so the suffix is
looked for at the end of the path with its extension removed. -/
def hasSuffix (path suffix : Str) : Bool :=
  stringsHasSuffix (changeExtension path []) suffix

/-- Modelled from the spec: `fileutil.ChangeSuffix` is not under src/; the
spec has the destination name "rewritten by stripping/adding the plan's
suffix" (`photo@3x.png` to `photo@2x.png`), so with the extension set aside
`oldSuffix` is removed from the end when it is there, `newSuffix` is
appended, and the extension is put back. -/
def changeSuffix (path oldSuffix newSuffix : Str) : Str :=
  let ext := filepathExt path
  let stem := changeExtension path []
  let cut := if stringsHasSuffix stem oldSuffix then stem.take (stem.length - oldSuffix.length) else stem
  cut ++ newSuffix ++ ext

/-! ## String encodings of the enumerations (lines 331-412) -/

/-- `formatForPath` (lines 331-348). -/
def formatForPath (path : Str) : ImageFormat :=
  let ext := filepathExt path
  if ext = ".jpeg".toList then formatJPEG
  else if ext = ".jpg".toList then formatJPEG
  else if ext = ".png".toList then formatPNG
  else if ext = ".gif".toList then formatGIF
  else if ext = ".tiff".toList then formatTIFF
  else if ext = ".tif".toList then formatTIFF
  else formatUnchanged

/-- `formatForString` (lines 350-360). -/
def formatForString (str : Str) : ImageFormat :=
  if str = "jpg".toList then formatJPEG
  else if str = "png".toList then formatPNG
  else if str = "tif".toList then formatTIFF
  else formatUnchanged

/-- `packageForString` (lines 362-376). -/
def packageForString (str : Str) : PackageType :=
  if str = "stickerpack".toList then packageStickerPack
  else if str = "imageset".toList then packageImageSet
  else if str = "iconset".toList then packageIconSet
  else if str = "icns".toList then packageIcns
  else if str = "catalog".toList then packageCatalog
  else packageNone

/-- `presetForString` (lines 378-396). -/
def presetForString (str : Str) : PresetType :=
  if str = "smallSticker".toList then presetSmallSticker
  else if str = "mediumSticker".toList then presetMediumSticker
  else if str = "largeSticker".toList then presetLargeSticker
  else if str = "presetThumb256".toList then presetThumb256
  else if str = "imageSet".toList then presetImageSet
  else if str = "imageSetForLargeSticker".toList then presetImageSetForLargeSticker
  else if str = "largeStickerWithImageSet".toList then presetLargeStickerWithImageSet
  else presetNone

/-- `changeExtensionForFormat` (lines 398-412). -/
def changeExtensionForFormat (path : Str) (format : ImageFormat) : Str :=
  match format with
  | formatJPEG => changeExtension path ".jpg".toList
  | formatPNG => changeExtension path ".png".toList
  | formatTIFF => changeExtension path ".tif".toList
  | formatGIF => changeExtension path ".gif".toList
  | formatUnchanged => path

/-! ## Preset plan compiler (lines 1016-1038) -/

/-- `planPreset` (lines 1016-1038). -/
def planPreset (plan : ProcessPlan) (preset : PresetType) : List ProcessPlan :=
  match preset with
  | presetSmallSticker =>
    [{ boxWidth := 300, boxHeight := 300, outputFormat := formatPNG, outputPackage := plan.outputPackage }]
  | presetMediumSticker =>
    [{ boxWidth := 408, boxHeight := 408, outputFormat := formatPNG, outputPackage := plan.outputPackage }]
  | presetLargeSticker =>
    [{ boxWidth := 618, boxHeight := 618, outputFormat := formatPNG, outputPackage := plan.outputPackage }]
  | presetThumb256 =>
    [{ boxWidth := 256, boxHeight := 256, outputFormat := plan.outputFormat, outputPackage := plan.outputPackage }]
  | presetImageSet =>
    [{ scale := 1.0, requiredSuffix := "@3x".toList,
       outputFormat := plan.outputFormat, outputPackage := plan.outputPackage },
     { scale := 0.666666, requiredSuffix := "@3x".toList, removeSuffix := "@3x".toList,
       addSuffix := "@2x".toList,
       outputFormat := plan.outputFormat, outputPackage := plan.outputPackage },
     { scale := 0.333333, requiredSuffix := "@3x".toList, removeSuffix := "@3x".toList,
       addSuffix := [],
       outputFormat := plan.outputFormat, outputPackage := plan.outputPackage }]
  | presetImageSetForLargeSticker =>
    [{ boxWidth := 618, boxHeight := 618, outputFormat := formatPNG, outputPackage := plan.outputPackage }]
  | presetLargeStickerWithImageSet =>
    [{ boxWidth := 206, boxHeight := 206, addSuffix := "@1x".toList, outputFormat := formatPNG,
       outputPackage := plan.outputPackage },
     { boxWidth := 618, boxHeight := 618, addSuffix := "@3x".toList, outputFormat := formatPNG,
       outputPackage := plan.outputPackage }]
  | presetNone => []

/-! ## Configuration resolver (lines 1040-1128, 1190-1256) -/

/-- The parsing and path functions of the Go library that the resolver calls;
each field is the value the Go function returns, its error being ignored by
the program. -/
structure Lib where
  /-- Value of `fileutil.ExpandTilde`. -/
  expandTilde : Str → Str
  /-- Value of `strconv.ParseBool`. -/
  parseBool : Str → Bool
  /-- Value of `strconv.ParseFloat(_, 64)`. -/
  parseFloat : Str → Float64
  /-- Value of `strconv.Atoi`. -/
  atoi : Str → Int
  /-- Value of `filepath.Abs`. -/
  filepathAbs : Str → Str

/-- The path rewriting that the `src`, `dst` and `out-manifest` cases of
`processManifestSettings` each spell out (lines 1045-1051). -/
def settingPath (lib : Lib) (config : Configuration) (path : Str) : Str :=
  if stringsHasPrefix path "~~".toList then
    filepathJoin (filepathSplit config.manifestPath).1 ('.' :: path.drop 2)
  else lib.expandTilde path

/-- The body of the loop of `processManifestSettings` for one setting; `none`
is the run-time panic of `setting.values[0]` on an empty value list. -/
def processManifestSetting (lib : Lib) (config : Configuration) (setting : ManifestSetting) :
    Option Configuration :=
  if setting.key = "src".toList then do
    let path ← setting.values.head?
    pure { config with srcDirPath := settingPath lib config path }
  else if setting.key = "dst".toList then do
    let path ← setting.values.head?
    pure { config with dstDirPath := settingPath lib config path }
  else if setting.key = "preset".toList then do
    let v ← setting.values.head?
    let newPreset := presetForString v
    pure (if newPreset ≠ presetNone then { config with preset := newPreset } else config)
  else if setting.key = "valid-format".toList then
    pure { config with
      validExtensions := if setting.values = [] then none else some setting.values }
  else if setting.key = "out-manifest".toList then do
    let path ← setting.values.head?
    pure { config with outManifest := settingPath lib config path }
  else if setting.key = "out-format".toList then do
    let v ← setting.values.head?
    let newFormat := formatForString v
    pure (if newFormat ≠ formatUnchanged then { config with outputFormat := newFormat } else config)
  else if setting.key = "out-package".toList then do
    let v ← setting.values.head?
    let newPackage := packageForString v
    pure (if newPackage ≠ packageNone then { config with outputPackage := newPackage } else config)
  else if setting.key = "out-package-replace".toList then do
    let v ← setting.values.head?
    pure { config with outputPackageReplace := lib.parseBool v }
  else if setting.key = "scale".toList then do
    let v ← setting.values.head?
    pure { config with scale := lib.parseFloat v }
  else if setting.key = "max-px".toList then do
    let v ← setting.values.head?
    let value := lib.atoi v
    let config1 := { config with maxHeight := value }
    pure { config1 with maxHeight := value }
  else if setting.key = "max-width-px".toList then do
    let v ← setting.values.head?
    pure { config with maxWidth := lib.atoi v }
  else if setting.key = "max-height-px".toList then do
    let v ← setting.values.head?
    pure { config with maxHeight := lib.atoi v }
  else pure config

/-- `processManifestSettings` (lines 1040-1104): the settings applied in
order. -/
def processManifestSettings (lib : Lib) (config : Configuration) :
    List ManifestSetting → Option Configuration
  | [] => some config
  | setting :: rest =>
    match processManifestSetting lib config setting with
    | none => none
    | some config1 => processManifestSettings lib config1 rest

/-- `validateConfiguration` (lines 1106-1128): the configuration as the call
leaves it, and the error returned (`none` is Go's `nil`). -/
def validateConfiguration (config : Configuration) : Configuration × Option Str :=
  if config.srcDirPath = [] then
    ({ config with valid := false, err := some "Missing src.".toList }, some "Missing src.".toList)
  else if config.dstDirPath = [] then
    ({ config with valid := false, err := some "Missing dst.".toList }, some "Missing dst.".toList)
  else if config.scale ≠ 0 ∧ (config.maxWidth ≠ 0 ∨ config.maxHeight ≠ 0) then
    ({ config with valid := false,
                   err := some "Can not specify scale and max-width / max-height.".toList },
     some "Can not specify scale and max-width / max-height.".toList)
  else (config, none)

/-- The values of the command-line flags after `kingpin` has parsed the
arguments (lines 26-40). -/
structure Flags where
  srcFlag : Str := []
  dstFlag : Str := []
  manifestFlag : Str := []
  presetFlag : Str := []
  validTypesFlag : Option (List Str) := none
  outTypeFlag : Str := []
  scaleFlag : Float64 := 0
  maxPxFlag : Int := 0
  maxWidthPxFlag : Int := 0
  maxHeightPxFlag : Int := 0
  outPackageFlag : Str := []
  outPackageReplaceFlag : Bool := false

/-- `configurationFromArgs` (lines 1190-1256), from the parsed flags. -/
def configurationFromArgs (lib : Lib) (f : Flags) : Configuration :=
  let config : Configuration := {}
  let config := if f.srcFlag ≠ [] then { config with srcDirPath := f.srcFlag } else config
  let config := if f.dstFlag ≠ [] then { config with dstDirPath := f.dstFlag } else config
  let config :=
    if f.manifestFlag ≠ [] then { config with manifestPath := lib.filepathAbs f.manifestFlag }
    else config
  let config :=
    if f.presetFlag ≠ [] then { config with preset := presetForString f.presetFlag } else config
  let config := { config with validExtensions := some (makeValidExtensionList f.validTypesFlag) }
  let config :=
    if f.outTypeFlag ≠ [] then { config with outputFormat := formatForString f.outTypeFlag }
    else config
  let config :=
    if f.outPackageFlag ≠ [] then { config with outputPackage := packageForString f.outPackageFlag }
    else config
  let config := { config with outputPackageReplace := f.outPackageReplaceFlag }
  if f.scaleFlag ≠ 0 ∧ (f.maxPxFlag ≠ 0 ∨ f.maxWidthPxFlag ≠ 0 ∨ f.maxHeightPxFlag ≠ 0) then
    { config with
      err := some "Can not specify scale and any of max-px, max-width-px, max-height-px.".toList }
  else if f.scaleFlag = 0 ∧ f.maxPxFlag ≠ 0 ∧ (f.maxWidthPxFlag ≠ 0 ∨ f.maxHeightPxFlag ≠ 0) then
    { config with
      err := some "Can not specify max-px and any of max-width-px, max-height-px.".toList }
  else
    let config := if f.scaleFlag ≠ 0 then { config with scale := f.scaleFlag } else config
    let config :=
      if f.maxPxFlag ≠ 0 then { config with maxWidth := f.maxPxFlag, maxHeight := f.maxPxFlag }
      else config
    let config :=
      if f.maxWidthPxFlag ≠ 0 then { config with maxWidth := f.maxWidthPxFlag } else config
    let config :=
      if f.maxHeightPxFlag ≠ 0 then { config with maxHeight := f.maxHeightPxFlag } else config
    { config with valid := true }

/-! ## Manifest parser -/

/-- The lines of the manifest cut at every line starting with `--`. -/
def manifestSegments : List Str → List (List Str)
  | [] => [[]]
  | line :: rest =>
    if stringsHasPrefix line "--".toList then [] :: manifestSegments rest
    else
      match manifestSegments rest with
      | [] => [[line]]
      | seg :: segs => (line :: seg) :: segs

/-- The setting a line contributes, as the specification words it: a line
starting with `= ` whose remainder has at least two comma-separated fields
gives the trimmed first field as key and the trimmed other fields as
values; any other line gives none. -/
def settingOfLine (line : Str) : Option ManifestSetting :=
  if stringsHasPrefix line "= ".toList then
    match stringsSplit ',' (line.drop 2) with
    | first :: second :: more =>
      some { key := stringsTrimSpace first, values := (second :: more).map stringsTrimSpace }
    | _ => none
  else none

/-- Whether a line is a literal filename, as the specification words it: not
empty, and starting with none of `# `, `= ` and `--`. -/
def isFileLine (line : Str) : Bool :=
  line ≠ [] && !stringsHasPrefix line "# ".toList && !stringsHasPrefix line "= ".toList &&
    !stringsHasPrefix line "--".toList

/-- The block a run of lines without separator stands for, as the
specification words it. -/
def blockOfSegment (seg : List Str) : Manifest :=
  { files := seg.filter isFileLine, settings := seg.filterMap settingOfLine }

/-- A stand-in for the Go library in examples: it parses the numerals the
examples use and leaves paths as they are. -/
def exampleLib : Lib where
  expandTilde := fun p => p
  parseBool := fun s => decide (s = "true".toList)
  parseFloat := fun s => if s = "2".toList then 2 else 0
  atoi := fun s => if s = "100".toList then 100 else 0
  filepathAbs := fun p => p

/-! ## Sidecar documents (lines 121-179) and results (lines 104-109) -/

structure ProcessResult where
  inPath : Str
  outPath : Str
  failed : Bool
  err : Option Str
  deriving DecidableEq, Repr

structure StickerpackContentsSticker where
  Filename : Str := []
  deriving DecidableEq, Repr

structure ContentsInfo where
  Version : Int := 0
  Author : Str := []
  deriving DecidableEq, Repr

structure StickerpackContentsProperties where
  GridSize : Str := []
  deriving DecidableEq, Repr

structure StickerpackContents where
  Stickers : List StickerpackContentsSticker := []
  Info : ContentsInfo := {}
  Properties : StickerpackContentsProperties := {}
  deriving DecidableEq, Repr

structure StickerContentsProperties where
  Filename : Str := []
  deriving DecidableEq, Repr

structure StickerContents where
  Info : ContentsInfo := {}
  Properties : StickerContentsProperties := {}
  deriving DecidableEq, Repr

structure ImagesetContentsImage where
  Filename : Str := []
  Idiom : Str := []
  Scale : Str := []
  Platform : Str := []
  Size : Str := []
  deriving DecidableEq, Repr

structure ImagesetContents where
  Images : List ImagesetContentsImage := []
  Info : ContentsInfo := {}
  deriving DecidableEq, Repr

structure CatalogContents where
  Info : ContentsInfo := {}
  deriving DecidableEq, Repr

/-! ## The outside world

Every operation the program performs on the file system, on the image
library or on a subprocess is a `Call`.  The program appends each call to a
log, and a `World` gives the answer of each operation as a function of the
log so far and of the arguments, so that the answers may depend in any way on
what was done before. -/

/-- An image value of the imaging library, by the way it was made. -/
inductive Image
  /-- Result of `imaging.Open(path)`, with `Bounds().Dx()` and `Dy()`. -/
  | opened (path : Str) (width height : Int)
  /-- Result of `imaging.New(width, height, color)`, fully transparent. -/
  | blank (width height : Int)
  /-- Result of `imaging.Fit(src, width, height, imaging.Lanczos)`. -/
  | fit (src : Image) (width height : Int)
  /-- Result of `imaging.Fill(src, width, height, imaging.Center, imaging.Lanczos)`. -/
  | fill (src : Image) (width height : Int)
  /-- Result of `imaging.Resize(src, width, height, imaging.Lanczos)`. -/
  | resize (src : Image) (width height : Int)
  deriving DecidableEq, Repr

/-- An operation on the outside world, with its arguments. -/
inductive Call
  /-- Call of `fileutil.ShallowDirectory`. -/
  | shallowDirectory (path : Str)
  /-- Call of `fileutil.IsDir`. -/
  | isDir (path : Str)
  /-- Call of `fileutil.ReadLines`. -/
  | readLines (path : Str)
  /-- Call of `imaging.Open`. -/
  | imagingOpen (path : Str)
  /-- Call of `imaging.Save`. -/
  | imagingSave (img : Image) (path : Str)
  /-- Call of `os.RemoveAll`. -/
  | osRemoveAll (path : Str)
  /-- Call of `os.Remove`. -/
  | osRemove (path : Str)
  /-- Call of `os.Mkdir`. -/
  | osMkdir (path : Str)
  /-- Call of `readStickerpackContents` (lines 198-205): read and decode. -/
  | readStickerpackContents (path : Str)
  /-- Call of `writeStickerpackContents` (lines 207-213): encode and write. -/
  | writeStickerpackContents (path : Str) (contents : StickerpackContents)
  /-- Call of `writeStickerContents` (lines 224-230). -/
  | writeStickerContents (path : Str) (contents : StickerContents)
  /-- Call of `readImagesetContents` (lines 232-239). -/
  | readImagesetContents (path : Str)
  /-- Call of `writeImagesetContents` (lines 241-247). -/
  | writeImagesetContents (path : Str) (contents : ImagesetContents)
  /-- Call of `writeCatalogContents` (lines 190-196). -/
  | writeCatalogContents (path : Str) (contents : CatalogContents)
  /-- Call of `ioutil.WriteFile` with the JSON array of `names` (line 995). -/
  | writeNames (path : Str) (names : List Str)
  /-- The `os.Open` and `Stat` of `validateStickerFileSize` (lines 533-546). -/
  | fileSize (path : Str)
  /-- Call of `shellutil.RunCommandParts`. -/
  | runCommand (parts : List Str)
  deriving DecidableEq, Repr

/-- The calls made so far, oldest first. -/
abbrev Log := List Call

/-- The answers of the outside world; an error is `some message`, Go's `nil`
error is `none`. -/
structure World where
  shallowDirectory : Log → Str → List Str
  isDir : Log → Str → Bool
  readLines : Log → Str → List Str
  /-- Width and height of the opened image, or the error. -/
  imagingOpen : Log → Str → Except Str (Int × Int)
  imagingSave : Log → Image → Str → Option Str
  osRemoveAll : Log → Str → Option Str
  osRemove : Log → Str → Option Str
  osMkdir : Log → Str → Option Str
  readStickerpackContents : Log → Str → StickerpackContents × Option Str
  writeStickerpackContents : Log → Str → StickerpackContents → Option Str
  writeStickerContents : Log → Str → StickerContents → Option Str
  readImagesetContents : Log → Str → ImagesetContents × Option Str
  writeImagesetContents : Log → Str → ImagesetContents → Option Str
  writeCatalogContents : Log → Str → CatalogContents → Option Str
  writeNames : Log → Str → List Str → Option Str
  /-- Size in bytes, or `none` when the file cannot be opened or inspected. -/
  fileSize : Log → Str → Option Int
  runCommand : Log → List Str → Option Str

/-! ## Clearing a destination (lines 414-435) -/

/-- The loop of `clearCatalog` and of `clearFolder`: `os.RemoveAll` on every
listed name. -/
def removeListed (dirPath : Str) : List Str → Log → Log
  | [], log => log
  | file :: rest, log =>
    removeListed dirPath rest (log ++ [Call.osRemoveAll (filepathJoin dirPath file)])

/-- `clearCatalog` (lines 414-426). -/
def clearCatalog (w : World) (dirPath : Str) (log : Log) : Log :=
  let files := w.shallowDirectory log dirPath
  let log := removeListed dirPath files (log ++ [Call.shallowDirectory dirPath])
  let contents : CatalogContents := { Info := { Version := 1, Author := "xcode".toList } }
  log ++ [Call.writeCatalogContents (filepathJoin dirPath "Contents.json".toList) contents]

/-- `clearFolder` (lines 428-435). -/
def clearFolder (w : World) (dirPath : Str) (log : Log) : Log :=
  let files := w.shallowDirectory log dirPath
  removeListed dirPath files (log ++ [Call.shallowDirectory dirPath])

/-! ## Catalog of image sets with stickers (lines 437-550) -/

/-- `validateStickerFileSize` (lines 532-550): the file is inspected and an
oversize is only printed. -/
def validateStickerFileSize (filePath : Str) (log : Log) : Log :=
  log ++ [Call.fileSize filePath]

/-- `processImageSetWithSticker` (lines 437-530). -/
def processImageSetWithSticker (w : World) (srcPath : Str) (config : Configuration)
    (log : Log) : List ProcessResult × Log :=
  let srcFileName := filepathBase srcPath
  let setName := changeExtension srcFileName []
  let setDirPath := filepathJoin config.dstDirPath (changeExtension setName ".imageset".toList)
  let setContentsPath := filepathJoin setDirPath "Contents.json".toList
  let setImagePath := filepathJoin setDirPath srcFileName
  let log := log ++ [Call.osMkdir setDirPath]
  let info : ContentsInfo := { Version := 1, Author := "xcode".toList }
  -- 1x
  let dstPath1 := setImagePath
  let dstImage1 := Image.fit (Image.blank 1 1) 206 206
  let err := w.imagingSave log dstImage1 dstPath1
  let log := log ++ [Call.imagingSave dstImage1 dstPath1]
  match err with
  | some e => ([⟨srcPath, dstPath1, true, some ("Save failed: ".toList ++ e)⟩], log)
  | none =>
    let results := [(⟨srcPath, dstPath1, false, none⟩ : ProcessResult)]
    let images : List ImagesetContentsImage :=
      [{ Idiom := "universal".toList, Scale := "1x".toList, Filename := filepathBase dstPath1 }]
    -- 2x
    let dstPath2 := changeSuffix setImagePath [] "@2x".toList
    let opened := w.imagingOpen log srcPath
    let log := log ++ [Call.imagingOpen srcPath]
    match opened with
    | .error e =>
      (results ++ [⟨srcPath, dstPath2, true, some ("Open failed: ".toList ++ e)⟩], log)
    | .ok (width, height) =>
      let dstImage2 := Image.fit (Image.opened srcPath width height) 412 412
      let err := w.imagingSave log dstImage2 dstPath2
      let log := log ++ [Call.imagingSave dstImage2 dstPath2]
      match err with
      | some e =>
        (results ++ [⟨srcPath, dstPath2, true, some ("Save failed: ".toList ++ e)⟩], log)
      | none =>
        let results := results ++ [⟨srcPath, dstPath2, false, none⟩]
        let images := images ++
          [{ Idiom := "universal".toList, Scale := "2x".toList, Filename := filepathBase dstPath2 }]
        -- 3x
        let dstPath3 := changeSuffix setImagePath [] "@3x".toList
        let dstImage3 := Image.fit (Image.blank 1 1) 412 412
        let err := w.imagingSave log dstImage3 dstPath3
        let log := log ++ [Call.imagingSave dstImage3 dstPath3]
        match err with
        | some e =>
          (results ++ [⟨srcPath, dstPath3, true, some ("Save failed: ".toList ++ e)⟩], log)
        | none =>
          let results := results ++ [⟨srcPath, dstPath3, false, none⟩]
          let images := images ++
            [{ Idiom := "universal".toList, Scale := "3x".toList,
               Filename := filepathBase dstPath3 }]
          let log := log ++
            [Call.writeImagesetContents setContentsPath { Images := images, Info := info }]
          (results, validateStickerFileSize dstPath3 log)

/-! ## Sticker pack (lines 552-602) -/

/-- `clearStickerPack` (lines 552-570). -/
def clearStickerPack (w : World) (dirPath : Str) (log : Log) : Log :=
  let contentPath := filepathJoin dirPath "Contents.json".toList
  let (contents, err) := w.readStickerpackContents log contentPath
  let log := log ++ [Call.readStickerpackContents contentPath]
  match err with
  | some _ => log
  | none =>
    let log := removeListed dirPath (contents.Stickers.map (fun sticker => sticker.Filename)) log
    log ++ [Call.writeStickerpackContents contentPath { contents with Stickers := [] }]

/-- `insertStickerToPack` (lines 572-602). -/
def insertStickerToPack (w : World) (newStickerPath : Str) (log : Log) : Str × Log :=
  let (packDirPath, filename) := filepathSplit newStickerPath
  let contentsPath := filepathJoin packDirPath "Contents.json".toList
  let (contents, err) := w.readStickerpackContents log contentsPath
  let log := log ++ [Call.readStickerpackContents contentsPath]
  match err with
  | some _ => ([], log)
  | none =>
    let stickerDirPath := filepathJoin packDirPath (changeExtension filename ".sticker".toList)
    let stickerContentsPath := filepathJoin stickerDirPath "Contents.json".toList
    let stickerImagePath := filepathJoin stickerDirPath filename
    let log := log ++ [Call.osMkdir stickerDirPath]
    let stickerContents : StickerContents :=
      { Info := { Version := 1, Author := "xcode".toList }, Properties := { Filename := filename } }
    let log := log ++ [Call.writeStickerContents stickerContentsPath stickerContents]
    let contents := { contents with
      Stickers := contents.Stickers ++ [{ Filename := changeExtension filename ".sticker".toList }] }
    let log := log ++ [Call.writeStickerpackContents contentsPath contents]
    (stickerImagePath, log)

/-! ## Image set (lines 604-663) -/

/-- `imageSetPathFromImagePath` (lines 604-611). -/
def imageSetPathFromImagePath (imagePath : Str) : Str :=
  let (dir, file) := filepathSplit imagePath
  let file := changeExtension file ".imageset".toList
  let file := changeSuffix file "@2x".toList []
  let file := changeSuffix file "@3x".toList []
  filepathJoin dir file

/-- `clearImageSet` (lines 613-634). -/
def clearImageSet (newImagePath : Str) (log : Log) : Log :=
  let setPath := imageSetPathFromImagePath newImagePath
  let log := log ++ [Call.osRemoveAll setPath]
  let log := log ++ [Call.osMkdir setPath]
  let contentsPath := filepathJoin setPath "Contents.json".toList
  log ++ [Call.writeImagesetContents contentsPath
    { Images := [], Info := { Version := 1, Author := "xcode".toList } }]

/-- `insertImageToSet` (lines 636-663). -/
def insertImageToSet (w : World) (newImagePath : Str) (log : Log) : Str × Log :=
  let setPath := imageSetPathFromImagePath newImagePath
  let contentsPath := filepathJoin setPath "Contents.json".toList
  let (contents, _) := w.readImagesetContents log contentsPath
  let log := log ++ [Call.readImagesetContents contentsPath]
  let newFileName := (filepathSplit newImagePath).2
  let scale :=
    if hasSuffix newFileName "@2x".toList then "2x".toList
    else if hasSuffix newFileName "@3x".toList then "3x".toList
    else "1x".toList
  let imageRecord : ImagesetContentsImage :=
    { Idiom := "universal".toList, Filename := newFileName, Scale := scale }
  let contents := { contents with Images := contents.Images ++ [imageRecord] }
  let log := log ++ [Call.writeImagesetContents contentsPath contents]
  (filepathJoin setPath newFileName, log)

/-! ## Icon set and icns (lines 665-850) -/

/-- How a loop with early exits ends. -/
inductive LoopExit (α : Type)
  /-- The loop ran to its end with this state. -/
  | finished (state : α)
  /-- A `return results` inside the loop. -/
  | returned (results : List ProcessResult)
  deriving DecidableEq

/-- The loop of `processIconSet` (lines 679-750) over the entries not yet
visited; `idx` is the index of the first of them, `images` the entry list of
the sidecar as updated so far; `none` is the run-time panic of an index out of
range. -/
def processIconSetLoop (w : World) (lib : Lib) (srcPath : Str) (config : Configuration)
    (plan : ProcessPlan) :
    List ImagesetContentsImage → Nat → List ImagesetContentsImage → List ProcessResult → Log →
      Option (LoopExit (List ImagesetContentsImage × List ProcessResult)) × Log
  | [], _, images, results, log => (some (.finished (images, results)), log)
  | element :: rest, idx, images, results, log =>
    let dstFolderPath := config.dstDirPath
    let neededSize := element.Size
    let neededScale := element.Scale
    let currentFilename := element.Filename
    if neededSize.length = 0 then
      (some (.returned (results ++ [⟨srcPath, [], true, some "Missing Size".toList⟩])), log)
    else if neededScale.length = 0 then
      (some (.returned (results ++ [⟨srcPath, [], true, some "Missing Scale".toList⟩])), log)
    else
      let sizeParts := stringsSplit 'x' neededSize
      let scaleParts := stringsSplit 'x' neededScale
      match scaleParts[0]?, sizeParts[0]?, sizeParts[1]? with
      | some scaleStr, some widthStr, some heightStr =>
        let scale := lib.parseFloat scaleStr
        let width := lib.parseFloat widthStr
        let height := lib.parseFloat heightStr
        let neededWidth := truncate (Float64.mul width scale)
        let neededHeight := truncate (Float64.mul height scale)
        let log :=
          if currentFilename.length ≠ 0 then
            log ++ [Call.osRemove (filepathJoin dstFolderPath currentFilename)]
          else log
        if plan.requiredSuffix.length > 0 ∧ hasSuffix srcPath plan.requiredSuffix = false then
          (some (.returned (results ++ [⟨srcPath, [], false,
            some ("Source does not have required suffix: ".toList ++ plan.requiredSuffix)⟩])), log)
        else
          let dstName := filepathBase srcPath
          let useFormat := formatForPath srcPath
          if useFormat = formatUnchanged then
            (some (.returned (results ++
              [⟨srcPath, [], true, some "Unsupported source image format".toList⟩])), log)
          else
            let dstName :=
              if plan.outputFormat ≠ formatUnchanged then
                changeExtensionForFormat dstName plan.outputFormat
              else dstName
            let newSuffix := '-' :: neededSize ++ '-' :: neededScale
            let dstName := changeSuffix dstName [] newSuffix
            let dstPath := filepathJoin dstFolderPath dstName
            let opened := w.imagingOpen log srcPath
            let log := log ++ [Call.imagingOpen srcPath]
            match opened with
            | .error e =>
              (some (.returned (results ++
                [⟨srcPath, dstPath, true, some ("Open failed: ".toList ++ e)⟩])), log)
            | .ok (srcWidth, srcHeight) =>
              let dstImage := Image.fill (Image.opened srcPath srcWidth srcHeight)
                neededWidth neededHeight
              let err := w.imagingSave log dstImage dstPath
              let log := log ++ [Call.imagingSave dstImage dstPath]
              match err with
              | some e =>
                processIconSetLoop w lib srcPath config plan rest (idx + 1) images
                  (results ++ [⟨srcPath, dstPath, true, some ("Save failed: ".toList ++ e)⟩]) log
              | none =>
                processIconSetLoop w lib srcPath config plan rest (idx + 1)
                  (images.set idx { element with Filename := dstName })
                  (results ++ [⟨srcPath, dstPath, false, none⟩]) log
      | _, _, _ => (none, log)

/-- `processIconSet` (lines 665-758); `none` is a run-time panic. -/
def processIconSet (w : World) (lib : Lib) (srcPath : Str) (config : Configuration)
    (plan : ProcessPlan) (log : Log) : Option (List ProcessResult) × Log :=
  let contentsPath := filepathJoin config.dstDirPath "Contents.json".toList
  let (contents, err) := w.readImagesetContents log contentsPath
  let log := log ++ [Call.readImagesetContents contentsPath]
  match err with
  | some e => (some [⟨srcPath, [], false, some e⟩], log)
  | none =>
    match processIconSetLoop w lib srcPath config plan contents.Images 0 contents.Images [] log with
    | (none, log) => (none, log)
    | (some (.returned results), log) => (some results, log)
    | (some (.finished (images, results)), log) =>
      let newContents := { contents with Images := images }
      let err := w.writeImagesetContents log contentsPath newContents
      let log := log ++ [Call.writeImagesetContents contentsPath newContents]
      match err with
      | some e => (some (results ++ [⟨srcPath, [], true, some e⟩]), log)
      | none => (some results, log)

/-- The table `sizes` of `processIcns` (lines 773-787), as (scale, size). -/
def icnsSizes : List (Nat × Nat) :=
  [(1, 16), (2, 16), (1, 32), (2, 32), (1, 128), (2, 128), (1, 256), (2, 256), (1, 512), (2, 512)]

/-- The loop of `processIcns` (lines 789-840) over the table rows not yet
visited. -/
def processIcnsLoop (w : World) (srcPath : Str) (plan : ProcessPlan) (dstFolderPath : Str) :
    List (Nat × Nat) → List ProcessResult → Log → LoopExit (List ProcessResult) × Log
  | [], results, log => (.finished results, log)
  | (scale, size) :: rest, results, log =>
    let neededWidth := truncate (Float64.mul (Float64.ofInt size) (Float64.ofInt scale))
    let neededHeight := truncate (Float64.mul (Float64.ofInt size) (Float64.ofInt scale))
    if plan.requiredSuffix.length > 0 ∧ hasSuffix srcPath plan.requiredSuffix = false then
      (.returned (results ++ [⟨srcPath, [], false,
        some ("Source does not have required suffix: ".toList ++ plan.requiredSuffix)⟩]), log)
    else
      let dstName := "icon_".toList ++ filepathExt srcPath
      let useFormat := formatForPath srcPath
      if useFormat = formatUnchanged then
        (.returned (results ++
          [⟨srcPath, [], true, some "Unsupported source image format".toList⟩]), log)
      else
        let dstName :=
          if plan.outputFormat ≠ formatUnchanged then
            changeExtensionForFormat dstName plan.outputFormat
          else dstName
        let newSuffix := Nat.toDigits 10 size ++ 'x' :: Nat.toDigits 10 size
        let newSuffix := if scale = 2 then newSuffix ++ "@2x".toList else newSuffix
        let dstName := changeSuffix dstName [] newSuffix
        let dstPath := filepathJoin dstFolderPath dstName
        let opened := w.imagingOpen log srcPath
        let log := log ++ [Call.imagingOpen srcPath]
        match opened with
        | .error e =>
          (.returned (results ++
            [⟨srcPath, dstPath, true, some ("Open failed: ".toList ++ e)⟩]), log)
        | .ok (srcWidth, srcHeight) =>
          let dstImage := Image.fill (Image.opened srcPath srcWidth srcHeight)
            neededWidth neededHeight
          let err := w.imagingSave log dstImage dstPath
          let log := log ++ [Call.imagingSave dstImage dstPath]
          match err with
          | some e =>
            processIcnsLoop w srcPath plan dstFolderPath rest
              (results ++ [⟨srcPath, dstPath, true, some ("Save failed: ".toList ++ e)⟩]) log
          | none =>
            processIcnsLoop w srcPath plan dstFolderPath rest
              (results ++ [⟨srcPath, dstPath, false, none⟩]) log

/-- `processIcns` (lines 760-850). -/
def processIcns (w : World) (srcPath : Str) (config : Configuration) (plan : ProcessPlan)
    (log : Log) : List ProcessResult × Log :=
  let dstFilePath := config.dstDirPath
  let dstFolderPath := changeExtension dstFilePath ".iconset".toList
  let log := log ++ [Call.osMkdir dstFolderPath]
  match processIcnsLoop w srcPath plan dstFolderPath icnsSizes [] log with
  | (.returned results, log) => (results, log)
  | (.finished results, log) =>
    let parts := ["iconutil".toList, "--convert".toList, "icns".toList, "--output".toList,
      dstFilePath, dstFolderPath]
    let err := w.runCommand log parts
    let log := log ++ [Call.runCommand parts]
    let results :=
      match err with
      | some e => results ++ [⟨srcPath, [], true, some ("Convert failed: ".toList ++ e)⟩]
      | none => results
    (results, log ++ [Call.osRemoveAll dstFolderPath])

/-! ## Transform executor (lines 852-1014) -/

/-- The geometry step of `processImage` (lines 894-909) on the opened source
image of the given width and height. -/
def planGeometry (plan : ProcessPlan) (srcPath : Str) (width height : Int) : Image :=
  let srcImage := Image.opened srcPath width height
  if plan.scale ≠ 0 then
    if plan.scale ≠ 1 then
      let newWidth := truncate (Float64.mul (Float64.ofInt width) plan.scale)
      let newHeight := truncate (Float64.mul (Float64.ofInt height) plan.scale)
      Image.fit srcImage newWidth newHeight
    else srcImage
  else if plan.boxWidth = 0 ∧ plan.boxHeight = 0 then srcImage
  else if plan.boxWidth = 0 ∨ plan.boxHeight = 0 then
    Image.resize srcImage plan.boxWidth plan.boxHeight
  else Image.fit srcImage plan.boxWidth plan.boxHeight

/-- The destination path of `processImage` for one plan (lines 877-886): the
name `dstName` with its extension changed to the output format of the plan
when the plan has one, joined to the destination folder, then with the
suffixes of the plan removed and added. -/
def planDstPath (plan : ProcessPlan) (dstFolderPath dstName : Str) : Str :=
  let dstName :=
    if plan.outputFormat ≠ formatUnchanged then
      changeExtensionForFormat dstName plan.outputFormat
    else dstName
  let dstPath := filepathJoin dstFolderPath dstName
  if plan.removeSuffix.length > 0 ∨ plan.addSuffix.length > 0 then
    changeSuffix dstPath plan.removeSuffix plan.addSuffix
  else dstPath

/-- The body of the loop of `processImage` (lines 861-928) for one plan; the
state is the result list, the flag `oneTimeDone` and the log. -/
def processImagePlan (w : World) (srcPath : Str) (config : Configuration)
    (st : List ProcessResult × Bool × Log) (plan : ProcessPlan) :
    List ProcessResult × Bool × Log :=
  let (results, oneTimeDone, log) := st
  if plan.requiredSuffix.length > 0 ∧ hasSuffix srcPath plan.requiredSuffix = false then
    (results ++ [⟨srcPath, [], false,
      some ("Source does not have required suffix: ".toList ++ plan.requiredSuffix)⟩],
     oneTimeDone, log)
  else
    let dstName := filepathBase srcPath
    let useFormat := formatForPath srcPath
    if useFormat = formatUnchanged then
      (results ++ [⟨srcPath, [], true, some "Unsupported source image format".toList⟩],
       oneTimeDone, log)
    else
      let dstPath := planDstPath plan config.dstDirPath dstName
      let opened := w.imagingOpen log srcPath
      let log := log ++ [Call.imagingOpen srcPath]
      match opened with
      | .error e =>
        (results ++ [⟨srcPath, dstPath, true, some ("Open failed: ".toList ++ e)⟩],
         oneTimeDone, log)
      | .ok (width, height) =>
        let dstImage := planGeometry plan srcPath width height
        let (dstPath, oneTimeDone, log) :=
          if config.outputPackage = packageStickerPack then
            let (p, log) := insertStickerToPack w dstPath log
            (p, oneTimeDone, log)
          else if config.outputPackage = packageImageSet then
            let log := if oneTimeDone = false then clearImageSet dstPath log else log
            let (p, log) := insertImageToSet w dstPath log
            (p, true, log)
          else (dstPath, oneTimeDone, log)
        let err := w.imagingSave log dstImage dstPath
        let log := log ++ [Call.imagingSave dstImage dstPath]
        match err with
        | some e =>
          (results ++ [⟨srcPath, dstPath, true, some ("Save failed: ".toList ++ e)⟩],
           oneTimeDone, log)
        | none => (results ++ [⟨srcPath, dstPath, false, none⟩], oneTimeDone, log)

/-- `processImage` (lines 852-931). -/
def processImage (w : World) (srcPath : Str) (config : Configuration) (plans : List ProcessPlan)
    (log : Log) : List ProcessResult × Log :=
  let (results, _, log) := plans.foldl (processImagePlan w srcPath config) ([], false, log)
  (results, log)

/-- The loop of lines 1009-1012: `processImage` on every source in turn. -/
def processImagesLoop (w : World) (config : Configuration) (plans : List ProcessPlan) :
    List Str → List ProcessResult → Log → List ProcessResult × Log
  | [], results, log => (results, log)
  | srcPath :: rest, results, log =>
    let (oneResult, log) := processImage w srcPath config plans log
    processImagesLoop w config plans rest (results ++ oneResult) log

/-- The loop of lines 986-991: `processImageSetWithSticker` on every source in
turn, collecting the base names for the output manifest. -/
def processCatalogLoop (w : World) (config : Configuration) :
    List Str → List ProcessResult → List Str → Log → List ProcessResult × List Str × Log
  | [], results, manifestNames, log => (results, manifestNames, log)
  | srcPath :: rest, results, manifestNames, log =>
    let (oneResult, log) := processImageSetWithSticker w srcPath config log
    processCatalogLoop w config rest (results ++ oneResult)
      (manifestNames ++ [changeExtension (filepathBase srcPath) []]) log

/-- `processImages` (lines 933-1014): the results or the error returned;
`none` is the run-time panic of `plans[0]` on an empty plan list. -/
def processImages (w : World) (lib : Lib) (srcPaths : List Str) (config : Configuration)
    (plans : List ProcessPlan) (log : Log) :
    Option (Except Str (List ProcessResult)) × Log :=
  let generic (log : Log) : Option (Except Str (List ProcessResult)) × Log :=
    let log := if config.outputPackageReplace = true then clearFolder w config.dstDirPath log else log
    let (results, log) := processImagesLoop w config plans srcPaths [] log
    (some (.ok results), log)
  if config.outputPackage = packageStickerPack then
    if stringsHasSuffix config.dstDirPath ".stickerpack".toList = false then
      (some (.error ("Destination (".toList ++ config.dstDirPath ++
        ") is not a .stickerpack directory".toList)), log)
    else
      let log :=
        if config.outputPackageReplace = true then clearStickerPack w config.dstDirPath log else log
      generic log
  else if config.outputPackage = packageIconSet then
    if stringsHasSuffix config.dstDirPath ".stickersiconset".toList = false ∧
        stringsHasSuffix config.dstDirPath ".appiconset".toList = false then
      (some (.error ("Destination (".toList ++ config.dstDirPath ++
        ") is not a .stickersiconset or .appiconset directory".toList)), log)
    else
      match srcPaths with
      | [srcPath] =>
        match plans.head? with
        | none => (none, log)
        | some plan =>
          match processIconSet w lib srcPath config plan log with
          | (none, log) => (none, log)
          | (some oneResult, log) => (some (.ok oneResult), log)
      | _ => (some (.error "Only 1 source image allowed when using iconset package".toList), log)
  else if config.outputPackage = packageIcns then
    if stringsHasSuffix config.dstDirPath ".icns".toList = false then
      (some (.error ("Destination (".toList ++ config.dstDirPath ++
        ") is not a .icns directory".toList)), log)
    else
      match srcPaths with
      | [srcPath] =>
        match plans.head? with
        | none => (none, log)
        | some plan =>
          let (oneResult, log) := processIcns w srcPath config plan log
          (some (.ok oneResult), log)
      | _ => (some (.error "Only 1 source image allowed when using icns package".toList), log)
  else if config.outputPackage = packageCatalog ∧ config.preset = presetImageSetForLargeSticker then
    if stringsHasSuffix config.dstDirPath ".xcassets".toList = false then
      (some (.error ("Destination (".toList ++ config.dstDirPath ++
        ") is not a .xcassets directory".toList)), log)
    else
      let log :=
        if config.outputPackageReplace = true then clearCatalog w config.dstDirPath log else log
      if srcPaths ≠ [] ∧ plans = [] then (none, log)
      else
        let (results, manifestNames, log) := processCatalogLoop w config srcPaths [] [] log
        let log :=
          if config.outManifest.length > 0 then
            log ++ [Call.writeNames config.outManifest manifestNames]
          else log
        (some (.ok results), log)
  else generic log

/-! ## One configuration (lines 1130-1188) -/

/-- `processOneConfiguration` (lines 1147-1188); `manifestFiles` is empty for
Go's `nil`; `none` is a run-time panic. -/
def processOneConfiguration (w : World) (lib : Lib) (config : Configuration)
    (manifestFiles : List Str) (log : Log) : Option Unit × Log :=
  match validateConfiguration config with
  | (_, some _) => (some (), log)
  | (config, none) =>
    let haveDir := w.isDir log config.srcDirPath
    let log := log ++ [Call.isDir config.srcDirPath]
    let (config, manifestFiles) :=
      if haveDir = false then
        let (dir, file) := filepathSplit config.srcDirPath
        ({ config with srcDirPath := dir }, manifestFiles ++ [file])
      else (config, manifestFiles)
    let baseList := w.shallowDirectory log config.srcDirPath
    let log := log ++ [Call.shallowDirectory config.srcDirPath]
    let files :=
      match collectFileList baseList config.srcDirPath config.validExtensions manifestFiles with
      | .ok files => files
      | .error _ => []
    let plan : ProcessPlan :=
      { scale := config.scale, boxWidth := config.maxWidth, boxHeight := config.maxHeight,
        outputFormat := config.outputFormat, outputPackage := config.outputPackage }
    let plans := if config.preset ≠ presetNone then planPreset plan config.preset else [plan]
    match processImages w lib files config plans log with
    | (none, log) => (none, log)
    | (some _, log) => (some (), log)

/-- The loop of `processConfiguration` over the manifest blocks. -/
def processManifests (w : World) (lib : Lib) (baseConfig : Configuration) :
    List Manifest → Log → Option Unit × Log
  | [], log => (some (), log)
  | manifest :: rest, log =>
    match processManifestSettings lib baseConfig manifest.settings with
    | none => (none, log)
    | some currentConfig =>
      match processOneConfiguration w lib currentConfig manifest.files log with
      | (none, log) => (none, log)
      | (some _, log) => processManifests w lib baseConfig rest log

/-- `processConfiguration` (lines 1130-1145). -/
def processConfiguration (w : World) (lib : Lib) (config : Configuration) (log : Log) :
    Option Unit × Log :=
  if config.manifestPath.length ≠ 0 then
    let lines := w.readLines log config.manifestPath
    processManifests w lib config (readManifest lines) (log ++ [Call.readLines config.manifestPath])
  else processOneConfiguration w lib config [] log

/-- A world in which every operation succeeds: directories are empty, every
image opens with bounds 300 by 200 and every sidecar read gives an empty
document. -/
def okWorld : World where
  shallowDirectory := fun _ _ => []
  isDir := fun _ _ => true
  readLines := fun _ _ => []
  imagingOpen := fun _ _ => .ok (300, 200)
  imagingSave := fun _ _ _ => none
  osRemoveAll := fun _ _ => none
  osRemove := fun _ _ => none
  osMkdir := fun _ _ => none
  readStickerpackContents := fun _ _ => ({}, none)
  writeStickerpackContents := fun _ _ _ => none
  writeStickerContents := fun _ _ _ => none
  readImagesetContents := fun _ _ => ({}, none)
  writeImagesetContents := fun _ _ _ => none
  writeCatalogContents := fun _ _ _ => none
  writeNames := fun _ _ _ => none
  fileSize := fun _ _ => none
  runCommand := fun _ _ => none

/-- A world like `okWorld` in which no image can be opened. -/
def openFailWorld : World :=
  { okWorld with imagingOpen := fun _ _ => .error "no such file".toList }

/-- A world like `okWorld` in which no image can be saved. -/
def saveFailWorld : World :=
  { okWorld with imagingSave := fun _ _ _ => some "disk full".toList }

/-- A world like `okWorld` whose directory `/out` holds the file `old.png`. -/
def staleWorld : World :=
  { okWorld with
    shallowDirectory := fun _ path => if path = "/out".toList then ["old.png".toList] else [] }

/-! ## Manifest settings -/

/-- The keys that `processManifestSettings` recognises. -/
def settingKeys : List Str :=
  ["src".toList, "dst".toList, "preset".toList, "valid-format".toList, "out-manifest".toList,
   "out-format".toList, "out-package".toList, "out-package-replace".toList, "scale".toList,
   "max-px".toList, "max-width-px".toList, "max-height-px".toList]

/-! ## A file system for sticker packs

The state of the part of the file system a sticker pack lives in, the effect
of every call on it, and the world whose sidecar reads are answered from the
state that the calls made so far have left. -/

/-- Whether `path` is `dir` itself or lies beneath it. -/
def isUnder (dir path : Str) : Bool :=
  decide (path = dir) || (dir ++ ['/']).isPrefixOf path

/-- The sub-containers and sidecar files of a sticker pack, by path. -/
structure PackFiles where
  /-- The `.sticker` sub-containers (directories) that exist. -/
  dirs : List Str := []
  /-- The sticker pack sidecars that can be read, with their content. -/
  packSidecars : List (Str × StickerpackContents) := []
  /-- The sticker sidecars that can be read, with their content. -/
  stickerSidecars : List (Str × StickerContents) := []
  deriving DecidableEq, Repr

/-- The effect of one call: `os.Mkdir` makes a directory unless it exists,
`os.RemoveAll` removes a path with all beneath it, and writing a sidecar
replaces the file at its path; every other call leaves the state as it is. -/
def PackFiles.apply (fs : PackFiles) : Call → PackFiles
  | .osMkdir path => if path ∈ fs.dirs then fs else { fs with dirs := fs.dirs ++ [path] }
  | .osRemoveAll path =>
    { dirs := fs.dirs.filter (fun d => !isUnder path d),
      packSidecars := fs.packSidecars.filter (fun e => !isUnder path e.1),
      stickerSidecars := fs.stickerSidecars.filter (fun e => !isUnder path e.1) }
  | .writeStickerpackContents path contents =>
    { fs with packSidecars := (path, contents) :: fs.packSidecars.filter (fun e => e.1 ≠ path) }
  | .writeStickerContents path contents =>
    { fs with
      stickerSidecars := (path, contents) :: fs.stickerSidecars.filter (fun e => e.1 ≠ path) }
  | _ => fs

/-- The state after the calls of a log, oldest first. -/
def PackFiles.replay (fs : PackFiles) (log : Log) : PackFiles := log.foldl PackFiles.apply fs

/-- The answer to `readStickerpackContents`: the content of the sidecar at the
path, or the zero value and an error when there is none. -/
def PackFiles.readPack (fs : PackFiles) (path : Str) : StickerpackContents × Option Str :=
  match fs.packSidecars.lookup path with
  | some contents => (contents, none)
  | none => ({}, some "open: no such file or directory".toList)

/-- The world over the sticker pack files `fs`: like `okWorld`, with the
sticker pack sidecar read from the state that the calls so far have left. -/
def packWorld (fs : PackFiles) : World :=
  { okWorld with readStickerpackContents := fun log path => (fs.replay log).readPack path }

/-- Catalog consistency of the pack in `packDirPath`: its sidecar can be read,
every sub-container is the one of exactly one record, and every record names
a sub-container that exists. -/
def packConsistent (fs : PackFiles) (packDirPath : Str) : Prop :=
  ∃ contents, fs.packSidecars.lookup (filepathJoin packDirPath "Contents.json".toList) =
      some contents ∧
    (∀ d ∈ fs.dirs,
      (contents.Stickers.filter
        (fun s => decide (filepathJoin packDirPath s.Filename = d))).length = 1) ∧
    (∀ s ∈ contents.Stickers, filepathJoin packDirPath s.Filename ∈ fs.dirs)

/-- A pack `/p.stickerpack` with the one sticker `a`. -/
def examplePack : PackFiles where
  dirs := ["/p.stickerpack/a.sticker".toList]
  packSidecars :=
    [("/p.stickerpack/Contents.json".toList,
      { Stickers := [{ Filename := "a.sticker".toList }],
        Info := { Version := 1, Author := "xcode".toList },
        Properties := { GridSize := "regular".toList } })]
  stickerSidecars :=
    [("/p.stickerpack/a.sticker/Contents.json".toList,
      { Info := { Version := 1, Author := "xcode".toList },
        Properties := { Filename := "a.png".toList } })]

/-- The log of `processIconSet` before the source is opened for an entry: the
file the entry named so far, if any, is removed first. -/
def iconEntryLog (config : Configuration) (element : ImagesetContentsImage) (log : Log) : Log :=
  if element.Filename.length ≠ 0 then
    log ++ [Call.osRemove (filepathJoin config.dstDirPath element.Filename)]
  else log

/-- The output name of `processIconSet` for an entry: the source base name,
with the extension of the output format when the plan has one, and
`-<size>-<scale>` put before the extension. -/
def iconEntryName (plan : ProcessPlan) (srcPath : Str) (element : ImagesetContentsImage) : Str :=
  changeSuffix
    (if plan.outputFormat ≠ formatUnchanged then
      changeExtensionForFormat (filepathBase srcPath) plan.outputFormat
     else filepathBase srcPath)
    [] ('-' :: element.Size ++ '-' :: element.Scale)

/-- An entry of the sidecar with its filename field blanked. -/
def eraseFilename (element : ImagesetContentsImage) : ImagesetContentsImage :=
  { element with Filename := [] }

/-- A stand-in for the Go library in the icon set examples: it parses the
numerals 32 and 2. -/
def iconLib : Lib :=
  { exampleLib with
    parseFloat := fun s => if s = "32".toList then 32 else if s = "2".toList then 2 else 0 }

/-- A world like `okWorld` whose icon set sidecar declares the one entry of
size `32x32` and scale `2x`, named `old.png` so far. -/
def iconWorld : World :=
  { okWorld with
    readImagesetContents := fun _ _ =>
      ({ Images := [{ Filename := "old.png".toList, Idiom := "mac".toList, Scale := "2x".toList,
                      Size := "32x32".toList }],
         Info := { Version := 1, Author := "xcode".toList } }, none) }

/-- A world like `okWorld` whose icon set sidecar declares the one entry of
size `32` (without `x`) and scale `1x`. -/
def plainSizeWorld : World :=
  { okWorld with
    readImagesetContents := fun _ _ =>
      ({ Images := [{ Idiom := "mac".toList, Scale := "1x".toList, Size := "32".toList }],
         Info := { Version := 1, Author := "xcode".toList } }, none) }

/-- A world like `okWorld` whose icon set sidecar declares the one entry of
scale `1x` without a size. -/
def noSizeWorld : World :=
  { okWorld with
    readImagesetContents := fun _ _ =>
      ({ Images := [{ Idiom := "mac".toList, Scale := "1x".toList }],
         Info := { Version := 1, Author := "xcode".toList } }, none) }

/-- The file name of `processIcns` for one row (scale, size) of its table
(lines 804-820): `icon_` with the extension of the source, or of the output
format when the plan has one, and `<size>x<size>`, followed by `@2x` at
scale 2, put before the extension. -/
def icnsVariantName (plan : ProcessPlan) (srcPath : Str) (row : Nat × Nat) : Str :=
  changeSuffix
    (if plan.outputFormat ≠ formatUnchanged then
      changeExtensionForFormat ("icon_".toList ++ filepathExt srcPath) plan.outputFormat
     else "icon_".toList ++ filepathExt srcPath)
    []
    (if row.1 = 2 then (Nat.toDigits 10 row.2 ++ 'x' :: Nat.toDigits 10 row.2) ++ "@2x".toList
     else Nat.toDigits 10 row.2 ++ 'x' :: Nat.toDigits 10 row.2)

/-- The path and pixel dimensions of a call that saves a fill-cropped image;
none for every other call. -/
def savedVariant : Call → Option (Str × Int × Int)
  | .imagingSave (.fill _ width height) path => some (path, width, height)
  | _ => none

/-- The command line of the conversion step of `processIcns` (line 842). -/
def icnsCommand (dstFilePath dstFolderPath : Str) : List Str :=
  ["iconutil".toList, "--convert".toList, "icns".toList, "--output".toList, dstFilePath,
   dstFolderPath]

/-- The pixel size that `processIcns` computes for one row (scale, size) of
its table (lines 794-795): the `float64` product of size and scale, converted
to `int`. -/
def icnsPixels (row : Nat × Nat) : Int :=
  truncate (Float64.mul (Float64.ofInt row.2) (Float64.ofInt row.1))

/-- The packaging step of the loop body of `processImage` (lines 911-919),
as a function of its own: the path the image is then saved at, the flag
`oneTimeDone` and the log after it. -/
def planPackaging (w : World) (config : Configuration) (dstPath : Str) (oneTimeDone : Bool)
    (log : Log) : Str × Bool × Log :=
  if config.outputPackage = packageStickerPack then
    let (p, log) := insertStickerToPack w dstPath log
    (p, oneTimeDone, log)
  else if config.outputPackage = packageImageSet then
    let log := if oneTimeDone = false then clearImageSet dstPath log else log
    let (p, log) := insertImageToSet w dstPath log
    (p, true, log)
  else (dstPath, oneTimeDone, log)

/-! # Verified properties -/

/-! ## Whole numbers in `float64` -/

/-- The bit length of zero is zero. -/
theorem bitLength_zero (fuel : Nat) : bitLength fuel 0 = 0 := by
  cases fuel <;> simp [bitLength]

/-- With enough fuel, `bitLength` is the position of the leading binary
digit. -/
theorem bitLength_bounds (fuel : Nat) : ∀ n : Nat, n ≤ fuel → 0 < n →
    0 < bitLength fuel n ∧ 2 ^ (bitLength fuel n - 1) ≤ n ∧ n < 2 ^ bitLength fuel n := by
  induction fuel with
  | zero => intro n h hn; omega
  | succ fuel ih =>
    intro n h hn
    have hn0 : n ≠ 0 := by omega
    simp only [bitLength, if_neg hn0]
    by_cases h2 : n / 2 = 0
    · have h1 : n = 1 := by omega
      subst h1
      simp [bitLength_zero]
    · obtain ⟨hpos, hlo, hhi⟩ := ih (n / 2) (by omega) (by omega)
      refine ⟨by omega, ?_, ?_⟩
      · have e : bitLength fuel (n / 2) + 1 - 1 = (bitLength fuel (n / 2) - 1) + 1 := by omega
        rw [e, pow_succ]
        omega
      · rw [pow_succ]
        omega

/-- The number of binary digits is determined by the powers of two around the
number. -/
theorem bitLength_eq (n l : Nat) (hl : 0 < l) (hlo : 2 ^ (l - 1) ≤ n) (hhi : n < 2 ^ l) :
    bitLength n n = l := by
  have hn : 0 < n := lt_of_lt_of_le (by positivity) hlo
  obtain ⟨hpos, hlo1, hhi1⟩ := bitLength_bounds n n (le_refl n) hn
  have h1 : l - 1 < bitLength n n :=
    (Nat.pow_lt_pow_iff_right (by norm_num : 1 < 2)).1 (lt_of_le_of_lt hlo hhi1)
  have h2 : bitLength n n - 1 < l :=
    (Nat.pow_lt_pow_iff_right (by norm_num : 1 < 2)).1 (lt_of_le_of_lt hlo1 hhi)
  omega

/-- Rounding is exact on a whole number below `2 ^ 53`: the quotient of
`N * 2 ^ j` by `2 ^ j` rounds to `N`, in the form of its encoding. -/
theorem Float64.round_whole (N j : Nat) (hN : 0 < N) (hlt : N < 2 ^ 53) :
    Float64.round ((N * 2 ^ j : Nat) : Int) (2 ^ j) =
      .finite ((N * 2 ^ (53 - bitLength N N) : Nat) : Int) ((bitLength N N : Int) - 53) := by
  obtain ⟨hpos, hlo, hhi⟩ := bitLength_bounds N N (le_refl N) hN
  generalize bitLength N N = L at hpos hlo hhi ⊢
  have hL53 : L ≤ 53 := by
    have : L - 1 < 53 := (Nat.pow_lt_pow_iff_right (by norm_num : 1 < 2)).1 (lt_of_le_of_lt hlo hlt)
    omega
  have hj : 0 < 2 ^ j := by positivity
  have ha : bitLength (N * 2 ^ j) (N * 2 ^ j) = L + j := by
    apply bitLength_eq _ _ (by omega)
    · have e : L + j - 1 = (L - 1) + j := by omega
      rw [e, pow_add]
      exact Nat.mul_le_mul_right _ hlo
    · rw [pow_add]
      exact Nat.mul_lt_mul_of_pos_right hhi hj
  have hd : bitLength (2 ^ j) (2 ^ j) = j + 1 := by
    apply bitLength_eq _ _ (by omega)
    · simp
    · exact Nat.pow_lt_pow_right (by norm_num) (by omega)
  have he0 : ((L + j : ℕ) : ℤ) - ((j + 1 : ℕ) : ℤ) = (L : ℤ) - 1 := by push_cast; ring
  have h1 : (-((L : ℤ) - 1)).toNat = 0 := by omega
  have h2 : ((L : ℤ) - 1).toNat = L - 1 := by omega
  have hc : ¬ (N * 2 ^ j * 2 ^ 0 < 2 ^ j * 2 ^ (L - 1)) := by
    rw [pow_zero, Nat.mul_one, Nat.mul_comm (2 ^ j)]
    exact Nat.not_lt.2 (Nat.mul_le_mul_right _ hlo)
  have he : max ((L : ℤ) - 1 - 52) (-1074) = (L : ℤ) - 53 := by
    rw [max_eq_left (by omega)]
    ring
  have h3 : (-((L : ℤ) - 53)).toNat = 53 - L := by omega
  have h4 : ((L : ℤ) - 53).toNat = 0 := by omega
  have hn0 : ¬ (N * 2 ^ j = 0 ∨ 2 ^ j = 0) := by
    have : 0 < N * 2 ^ j := Nat.mul_pos hN hj
    omega
  have hmod : N * 2 ^ j * 2 ^ (53 - L) % (2 ^ j * 2 ^ 0) = 0 := by
    rw [pow_zero, Nat.mul_one, Nat.mul_right_comm]
    exact Nat.mul_mod_left _ _
  have hdiv : N * 2 ^ j * 2 ^ (53 - L) / (2 ^ j * 2 ^ 0) = N * 2 ^ (53 - L) := by
    rw [pow_zero, Nat.mul_one, Nat.mul_right_comm]
    exact Nat.mul_div_cancel _ hj
  have hk : N * 2 ^ (53 - L) < 2 ^ 53 := by
    have e : (2 : ℕ) ^ 53 = 2 ^ L * 2 ^ (53 - L) := by rw [← pow_add]; congr 1; omega
    rw [e]
    exact Nat.mul_lt_mul_of_pos_right hhi (by positivity)
  have hd0 : ¬ (2 * 0 > 2 ^ j * 2 ^ 0 ∨ (2 * 0 = 2 ^ j * 2 ^ 0 ∧ N * 2 ^ (53 - L) % 2 = 1)) := by
    rw [pow_zero, Nat.mul_one]
    omega
  unfold Float64.round
  simp only [Int.natAbs_ofNat, ha, hd, he0, h1, h2, if_neg hc, he, h3, h4, if_neg hn0, hmod, hdiv,
    if_neg hd0, if_neg (Nat.ne_of_lt hk)]
  have h5 : ¬ ((L : ℤ) - 53 > 971) := by omega
  have h6 : ¬ (((N * 2 ^ j : ℕ) : ℤ) < 0) := Int.not_lt.2 (Int.ofNat_nonneg _)
  simp only [if_neg h5, if_neg h6]

/-- The `float64` of a positive whole number below `2 ^ 53` is that number. -/
theorem Float64.ofInt_whole (a : Nat) (ha : 0 < a) (hlt : a < 2 ^ 53) :
    Float64.ofInt (a : Int) =
      .finite ((a * 2 ^ (53 - bitLength a a) : Nat) : Int) ((bitLength a a : Int) - 53) := by
  have h := Float64.round_whole a 0 ha hlt
  rw [pow_zero, Nat.mul_one] at h
  exact h

/-- The `float64` product of two whole numbers, converted to `int`, is their
product when that is below `2 ^ 53`: no rounding takes place. -/
theorem truncate_mul_ofInt (a b : Nat) (ha : a < 2 ^ 53) (hb : b < 2 ^ 53)
    (hab : a * b < 2 ^ 53) :
    truncate (Float64.mul (Float64.ofInt (a : Int)) (Float64.ofInt (b : Int))) =
      ((a * b : Nat) : Int) := by
  have hzero : Float64.ofInt ((0 : Nat) : Int) = .finite 0 (-1074) := by decide
  have hround : ∀ d : Nat, Float64.round 0 d = .finite 0 (-1074) := by
    intro d
    simp [Float64.round]
  rcases Nat.eq_zero_or_pos a with h0 | hapos
  · subst h0
    rcases Nat.eq_zero_or_pos b with h0 | hbpos
    · subst h0
      decide!
    · rw [hzero, Float64.ofInt_whole b hbpos hb]
      simp only [Float64.mul, Int.zero_mul, hround, Nat.zero_mul]
      decide!
  · rcases Nat.eq_zero_or_pos b with h0 | hbpos
    · subst h0
      rw [hzero, Float64.ofInt_whole a hapos ha]
      simp only [Float64.mul, Int.mul_zero, Int.zero_mul, hround, Nat.mul_zero]
      decide!
    · obtain ⟨hpa, hloa, hhia⟩ := bitLength_bounds a a (le_refl a) hapos
      obtain ⟨hpb, hlob, hhib⟩ := bitLength_bounds b b (le_refl b) hbpos
      have hab0 : 0 < a * b := Nat.mul_pos hapos hbpos
      obtain ⟨hpc, hloc, hhic⟩ := bitLength_bounds (a * b) (a * b) (le_refl _) hab0
      have hwhole := Float64.round_whole (a * b)
        ((53 - bitLength a a) + (53 - bitLength b b)) hab0 hab
      rw [Float64.ofInt_whole a hapos ha, Float64.ofInt_whole b hbpos hb]
      generalize bitLength a a = La at *
      generalize bitLength b b = Lb at *
      generalize bitLength (a * b) (a * b) = Lc at *
      have hLa : La ≤ 53 := by
        have : La - 1 < 53 :=
          (Nat.pow_lt_pow_iff_right (by norm_num : 1 < 2)).1 (lt_of_le_of_lt hloa ha)
        omega
      have hLb : Lb ≤ 53 := by
        have : Lb - 1 < 53 :=
          (Nat.pow_lt_pow_iff_right (by norm_num : 1 < 2)).1 (lt_of_le_of_lt hlob hb)
        omega
      have hLc : Lc ≤ 53 := by
        have : Lc - 1 < 53 :=
          (Nat.pow_lt_pow_iff_right (by norm_num : 1 < 2)).1 (lt_of_le_of_lt hloc hab)
        omega
      have e1 : ((La : ℤ) - 53 + ((Lb : ℤ) - 53)).toNat = 0 := by omega
      have e2 : (-((La : ℤ) - 53 + ((Lb : ℤ) - 53))).toNat = (53 - La) + (53 - Lb) := by omega
      have e3 : ((a * 2 ^ (53 - La) : ℕ) : ℤ) * ((b * 2 ^ (53 - Lb) : ℕ) : ℤ) * 2 ^ 0 =
          ((a * b * 2 ^ ((53 - La) + (53 - Lb)) : ℕ) : ℤ) := by
        push_cast
        ring
      simp only [Float64.mul, e1, e2, e3, hwhole, truncate]
      have e4 : ((Lc : ℤ) - 53).toNat = 0 := by omega
      have e5 : (-((Lc : ℤ) - 53)).toNat = 53 - Lc := by omega
      have e6 : Int.tdiv (((a * b * 2 ^ (53 - Lc) : ℕ) : ℤ) * 2 ^ 0) (2 ^ (53 - Lc)) =
          ((a * b : ℕ) : ℤ) := by
        rw [pow_zero, Int.mul_one]
        push_cast
        exact Int.mul_tdiv_cancel _ (by positivity)
      have hrange : -2 ^ 63 ≤ ((a * b : ℕ) : ℤ) ∧ ((a * b : ℕ) : ℤ) < 2 ^ 63 := by
        constructor
        · have : (0 : ℤ) ≤ ((a * b : ℕ) : ℤ) := Int.ofNat_nonneg _
          omega
        · have : ((a * b : ℕ) : ℤ) < 2 ^ 53 := by exact_mod_cast hab
          omega
      rw [e4, e5, e6, if_pos hrange]

/-! ## Lemmas on the extension list -/

theorem mem_extensionAliases (e : Str) (s : List Str) :
    e ∈ extensionAliases s ↔
      (e = "jpeg".toList ∧ "jpg".toList ∈ s) ∨ (e = "tiff".toList ∧ "tif".toList ∈ s) := by
  induction s with
  | nil => simp [extensionAliases]
  | cons v rest ih =>
    unfold extensionAliases
    by_cases h1 : v = "jpg".toList
    · subst h1
      simp only [if_true, List.mem_cons, ih]
      have : "tif".toList ≠ "jpg".toList := by decide
      constructor
      · rintro (h | h | h)
        · exact Or.inl ⟨h, Or.inl trivial⟩
        · exact Or.inl ⟨h.1, Or.inr h.2⟩
        · exact Or.inr ⟨h.1, Or.inr h.2⟩
      · rintro (⟨h, _ | h'⟩ | ⟨h, h' | h'⟩)
        · exact Or.inl h
        · exact Or.inl h
        · exact absurd h' this
        · exact Or.inr (Or.inr ⟨h, h'⟩)
    · by_cases h2 : v = "tif".toList
      · subst h2
        simp only [if_neg h1, if_true, List.mem_cons, ih]
        have : "jpg".toList ≠ "tif".toList := by decide
        constructor
        · rintro (h | h | h)
          · exact Or.inr ⟨h, Or.inl trivial⟩
          · exact Or.inl ⟨h.1, Or.inr h.2⟩
          · exact Or.inr ⟨h.1, Or.inr h.2⟩
        · rintro (⟨h, h' | h'⟩ | ⟨h, _ | h'⟩)
          · exact absurd h' this
          · exact Or.inr (Or.inl ⟨h, h'⟩)
          · exact Or.inl h
          · exact Or.inl h
      · simp only [if_neg h1, if_neg h2, List.mem_cons, ih]
        constructor
        · rintro (h | h)
          · exact Or.inl ⟨h.1, Or.inr h.2⟩
          · exact Or.inr ⟨h.1, Or.inr h.2⟩
        · rintro (⟨h, h' | h'⟩ | ⟨h, h' | h'⟩)
          · exact absurd h'.symm h1
          · exact Or.inl ⟨h, h'⟩
          · exact absurd h'.symm h2
          · exact Or.inr ⟨h, h'⟩

theorem mem_makeValidExtensionList (e : Str) (s : List Str) (hs : s ≠ []) :
    e ∈ makeValidExtensionList (some s) ↔
      e ∈ s ∨ (e = "jpeg".toList ∧ "jpg".toList ∈ s) ∨ (e = "tiff".toList ∧ "tif".toList ∈ s) := by
  cases s with
  | nil => exact absurd rfl hs
  | cons v vs => simp only [makeValidExtensionList, List.mem_append, mem_extensionAliases]

/-- C5: for a non-empty selection `s` the allowed list holds every element
of `s`, holds `jpeg` when `jpg` is selected and `tiff` when `tif` is selected,
and holds `jpg` (`tif`) only when `jpg` (`tif`) itself was selected; for a nil
or empty selection it is exactly jpg, jpeg, png, gif, tif, tiff. -/
theorem makeValidExtensionList_aliases (s : List Str) (hs : s ≠ []) :
    (∀ e ∈ s, e ∈ makeValidExtensionList (some s)) ∧
    ("jpg".toList ∈ s → "jpeg".toList ∈ makeValidExtensionList (some s)) ∧
    ("tif".toList ∈ s → "tiff".toList ∈ makeValidExtensionList (some s)) ∧
    ("jpg".toList ∈ makeValidExtensionList (some s) → "jpg".toList ∈ s) ∧
    ("tif".toList ∈ makeValidExtensionList (some s) → "tif".toList ∈ s) ∧
    makeValidExtensionList none =
      ["jpg".toList, "jpeg".toList, "png".toList, "gif".toList, "tif".toList, "tiff".toList] ∧
    makeValidExtensionList (some []) =
      ["jpg".toList, "jpeg".toList, "png".toList, "gif".toList, "tif".toList, "tiff".toList] := by
  refine ⟨?_, ?_, ?_, ?_, ?_, rfl, rfl⟩
  · intro e he
    exact (mem_makeValidExtensionList e s hs).2 (Or.inl he)
  · intro h
    exact (mem_makeValidExtensionList _ s hs).2 (Or.inr (Or.inl ⟨rfl, h⟩))
  · intro h
    exact (mem_makeValidExtensionList _ s hs).2 (Or.inr (Or.inr ⟨rfl, h⟩))
  · intro h
    rcases (mem_makeValidExtensionList _ s hs).1 h with h | ⟨h, _⟩ | ⟨h, _⟩
    · exact h
    · exact absurd h (by decide)
    · exact absurd h (by decide)
  · intro h
    rcases (mem_makeValidExtensionList _ s hs).1 h with h | ⟨h, _⟩ | ⟨h, _⟩
    · exact h
    · exact absurd h (by decide)
    · exact absurd h (by decide)

/-- Witness for C5: selecting `jpeg` and `tif` allows `tiff` as well and
does not allow `jpg`. -/
theorem makeValidExtensionList_aliases_witness :
    makeValidExtensionList (some ["jpeg".toList, "tif".toList]) =
        ["jpeg".toList, "tif".toList, "tiff".toList] ∧
      "jpg".toList ∉ makeValidExtensionList (some ["jpeg".toList, "tif".toList]) :=
  ⟨by decide,
   fun h => absurd
     ((makeValidExtensionList_aliases ["jpeg".toList, "tif".toList] (by decide)).2.2.2.1 h)
     (by decide)⟩

/-! ## File collector -/

theorem extensionAllowed_iff (value : Str) (extensions : List Str) :
    extensionAllowed value extensions = true ↔
      1 < (filepathExt value).length ∧ (filepathExt value).drop 1 ∈ extensions := by
  simp [extensionAllowed, stringInSlice]

/-- C1: with a non-empty explicit subset `collectFileList` returns either
every requested name joined to the source directory, in subset order (so
exactly `len(subset)` paths), or the error and no list; it succeeds exactly
when every requested name is in the directory listing and has an extension of
at least one character after the dot that is, compared case-sensitively, in
the allowed list (the default list when the allowed list is nil). -/
theorem collectFileList_all_or_nothing (baseList : List Str) (srcDirPath : Str)
    (allowedExtensions : Option (List Str)) (manifestFiles : List Str)
    (hne : manifestFiles ≠ []) :
    ((∀ v ∈ manifestFiles, v ∈ baseList ∧ 1 < (filepathExt v).length ∧
        (filepathExt v).drop 1 ∈ allowedExtensions.getD
          ["jpg".toList, "jpeg".toList, "png".toList, "gif".toList, "tif".toList, "tiff".toList]) →
      collectFileList baseList srcDirPath allowedExtensions manifestFiles =
          .ok (manifestFiles.map (filepathJoin srcDirPath)) ∧
        (manifestFiles.map (filepathJoin srcDirPath)).length = manifestFiles.length) ∧
    (¬ (∀ v ∈ manifestFiles, v ∈ baseList ∧ 1 < (filepathExt v).length ∧
        (filepathExt v).drop 1 ∈ allowedExtensions.getD
          ["jpg".toList, "jpeg".toList, "png".toList, "gif".toList, "tif".toList, "tiff".toList]) →
      collectFileList baseList srcDirPath allowedExtensions manifestFiles =
        .error "Missing files from manifest".toList) := by
  have hlen : manifestFiles.length ≠ 0 := fun h => hne (List.length_eq_zero.mp h)
  have hext : (match allowedExtensions with
      | none => makeValidExtensionList none
      | some e => e) = allowedExtensions.getD
          ["jpg".toList, "jpeg".toList, "png".toList, "gif".toList, "tif".toList, "tiff".toList] := by
    cases allowedExtensions <;> rfl
  have hall : ∀ exts : List Str,
      (manifestFiles.filter
        (fun value => stringInSlice value baseList && extensionAllowed value exts)).length =
        manifestFiles.length ↔
      ∀ v ∈ manifestFiles, v ∈ baseList ∧ 1 < (filepathExt v).length ∧
        (filepathExt v).drop 1 ∈ exts := by
    intro exts
    rw [List.filter_length_eq_length]
    constructor
    · intro h v hv
      have := h v hv
      rw [Bool.and_eq_true, extensionAllowed_iff] at this
      exact ⟨by simpa [stringInSlice] using this.1, this.2⟩
    · intro h v hv
      rw [Bool.and_eq_true, extensionAllowed_iff]
      exact ⟨by simpa [stringInSlice] using (h v hv).1, (h v hv).2⟩
  constructor
  · intro hreq
    have hf := (hall _).2 hreq
    have hfe := List.filter_eq_self.2 ((List.filter_length_eq_length).1 hf)
    refine ⟨?_, List.length_map _ _⟩
    simp only [collectFileList, hext, if_pos hlen, List.length_map, hf, if_true, hfe]
  · intro hreq
    have hf := mt (hall _).1 hreq
    simp only [collectFileList, hext, if_pos hlen, List.length_map, if_neg hf]

/-- Witness for C1: both requested files are in the listing and allowed. -/
theorem collectFileList_all_or_nothing_witness :
    collectFileList ["a.png".toList, "b.jpg".toList, "c.txt".toList] "/in".toList none
        ["b.jpg".toList, "a.png".toList] = .ok ["/in/b.jpg".toList, "/in/a.png".toList] :=
  ((collectFileList_all_or_nothing ["a.png".toList, "b.jpg".toList, "c.txt".toList] "/in".toList
      none ["b.jpg".toList, "a.png".toList] (by decide)).1 (by decide)).1.trans (by decide)

/-! ## Manifest parser -/

theorem stringsHasPrefix_iff (s p : Str) :
    stringsHasPrefix s p = true ↔ ∃ t, s = p ++ t := by
  unfold stringsHasPrefix
  rw [List.isPrefixOf_iff_prefix]
  constructor
  · rintro ⟨t, ht⟩
    exact ⟨t, ht.symm⟩
  · rintro ⟨t, ht⟩
    exact ⟨t, ht.symm⟩

theorem readManifestLine_separator (all : List Manifest) (cur : Manifest) (line : Str)
    (h : stringsHasPrefix line ['-', '-'] = true) :
    readManifestLine (all, cur) line = (all ++ [cur], {}) := by
  obtain ⟨t, rfl⟩ := (stringsHasPrefix_iff _ _).1 h
  simp [readManifestLine, stringsHasPrefix, List.isPrefixOf]

theorem readManifestLine_other (all : List Manifest) (cur : Manifest) (line : Str)
    (h : stringsHasPrefix line ['-', '-'] = false) :
    readManifestLine (all, cur) line =
      (all, { files := cur.files ++ (if isFileLine line then [line] else []),
              settings := cur.settings ++ (settingOfLine line).toList }) := by
  cases line with
  | nil => simp [readManifestLine, isFileLine, settingOfLine, stringsHasPrefix]
  | cons c cs =>
    by_cases h1 : stringsHasPrefix (c :: cs) ['#', ' '] = true
    · obtain ⟨t, ht⟩ := (stringsHasPrefix_iff _ _).1 h1
      rw [ht]
      simp [readManifestLine, isFileLine, settingOfLine, stringsHasPrefix, List.isPrefixOf]
    · rw [Bool.not_eq_true] at h1
      by_cases h2 : stringsHasPrefix (c :: cs) ['=', ' '] = true
      · simp only [readManifestLine, isFileLine, settingOfLine, h1, h2, h, List.length_cons,
          String.toList]
        rcases hs : stringsSplit ',' (List.drop 2 (c :: cs)) with _ | ⟨first, _ | ⟨second, more⟩⟩
          <;> simp
      · rw [Bool.not_eq_true] at h2
        simp [readManifestLine, isFileLine, settingOfLine, h1, h2, h]

theorem manifestSegments_ne_nil (lines : List Str) : manifestSegments lines ≠ [] := by
  cases lines with
  | nil => simp [manifestSegments]
  | cons l ls =>
    unfold manifestSegments
    split
    · simp
    · split <;> simp

theorem manifestSegments_cons_separator (l : Str) (ls : List Str)
    (h : stringsHasPrefix l ['-', '-'] = true) :
    manifestSegments (l :: ls) = [] :: manifestSegments ls := by
  simp [manifestSegments, h]

theorem manifestSegments_cons_other (l : Str) (ls : List Str) (seg : List Str)
    (segs : List (List Str)) (h : stringsHasPrefix l ['-', '-'] = false)
    (hs : manifestSegments ls = seg :: segs) :
    manifestSegments (l :: ls) = (l :: seg) :: segs := by
  simp [manifestSegments, h, hs]

/-- The parser loop from any state, in terms of the segments of the lines. -/
theorem readManifest_foldl (lines : List Str) (all : List Manifest) (cur : Manifest) :
    (fun st : List Manifest × Manifest => st.1 ++ [st.2])
        (lines.foldl readManifestLine (all, cur)) =
      all ++ (match manifestSegments lines with
        | [] => [cur]
        | seg :: segs =>
          { files := cur.files ++ (blockOfSegment seg).files,
            settings := cur.settings ++ (blockOfSegment seg).settings } ::
            segs.map blockOfSegment) := by
  induction lines generalizing all cur with
  | nil => simp [manifestSegments, blockOfSegment]
  | cons l ls ih =>
    rw [List.foldl_cons]
    rcases hs : manifestSegments ls with _ | ⟨seg, segs⟩
    · exact absurd hs (manifestSegments_ne_nil ls)
    · by_cases h : stringsHasPrefix l ['-', '-'] = true
      · rw [readManifestLine_separator all cur l h, ih, manifestSegments_cons_separator l ls h, hs]
        simp [blockOfSegment]
      · rw [Bool.not_eq_true] at h
        rw [readManifestLine_other all cur l h, ih, manifestSegments_cons_other l ls seg segs h hs,
          hs]
        by_cases hf : isFileLine l = true
        · cases hset : settingOfLine l <;>
            simp [blockOfSegment, hf, hset, List.filter_cons, List.filterMap_cons]
        · cases hset : settingOfLine l <;>
            simp [blockOfSegment, hf, hset, List.filter_cons, List.filterMap_cons]

theorem readManifest_eq_segments (lines : List Str) :
    readManifest lines = (manifestSegments lines).map blockOfSegment := by
  have h := readManifest_foldl lines [] {}
  unfold readManifest
  rcases hs : manifestSegments lines with _ | ⟨seg, segs⟩
  · exact absurd hs (manifestSegments_ne_nil lines)
  · rw [hs] at h
    simpa [blockOfSegment] using h

theorem manifestSegments_length (lines : List Str) :
    (manifestSegments lines).length =
      (lines.filter (fun line => stringsHasPrefix line ['-', '-'])).length + 1 := by
  induction lines with
  | nil => simp [manifestSegments]
  | cons l ls ih =>
    rcases hs : manifestSegments ls with _ | ⟨seg, segs⟩
    · exact absurd hs (manifestSegments_ne_nil ls)
    · by_cases h : stringsHasPrefix l ['-', '-'] = true
      · rw [manifestSegments_cons_separator l ls h, List.filter_cons_of_pos (by simpa using h)]
        simp [ih]
      · rw [Bool.not_eq_true] at h
        rw [manifestSegments_cons_other l ls seg segs h hs,
          List.filter_cons_of_neg (by simpa using h), ← ih, hs]
        simp

/-- C3: `readManifest` returns exactly one block more than there are lines
starting with `--`; the empty input gives one empty block, and after a final
separator line an empty last block is still emitted. -/
theorem readManifest_block_count (lines : List Str) :
    (readManifest lines).length =
        (lines.filter (fun line => stringsHasPrefix line "--".toList)).length + 1 ∧
      readManifest [] = [{ files := [], settings := [] }] ∧
      ∀ sep : Str, stringsHasPrefix sep "--".toList = true →
        readManifest (lines ++ [sep]) = readManifest lines ++ [{ files := [], settings := [] }] := by
  refine ⟨?_, rfl, ?_⟩
  · rw [readManifest_eq_segments, List.length_map]
    exact manifestSegments_length lines
  · intro sep hsep
    unfold readManifest
    rw [List.foldl_append]
    rcases List.foldl readManifestLine ([], {}) lines with ⟨all, cur⟩
    simp only [List.foldl_cons, List.foldl_nil]
    rw [readManifestLine_separator all cur sep hsep]

/-- C4: the blocks of `readManifest` are the runs of lines between the lines
starting with `--`, each run giving its literal file lines unchanged and in
order and, in order, one setting per `= ` line that has at least two
comma-separated fields (trimmed first field as key, trimmed other fields as
values); empty lines, `# ` lines and `= ` lines with fewer than two fields
give nothing, and every emitted setting has at least one value. -/
theorem readManifest_block_contents (lines : List Str) :
    readManifest lines =
        (manifestSegments lines).map
          (fun seg => { files := seg.filter isFileLine, settings := seg.filterMap settingOfLine }) ∧
      (∀ b ∈ readManifest lines, ∀ s ∈ b.settings, s.values ≠ []) ∧
      (isFileLine [] = false ∧ settingOfLine [] = none) ∧
      (∀ t : Str, isFileLine ("# ".toList ++ t) = false ∧ settingOfLine ("# ".toList ++ t) = none) ∧
      (∀ t : Str, isFileLine ("= ".toList ++ t) = false ∧
        ((stringsSplit ',' t).length < 2 → settingOfLine ("= ".toList ++ t) = none) ∧
        (2 ≤ (stringsSplit ',' t).length → settingOfLine ("= ".toList ++ t) =
          some { key := stringsTrimSpace ((stringsSplit ',' t).headD []),
                 values := ((stringsSplit ',' t).drop 1).map stringsTrimSpace })) ∧
      (∀ line : Str, line ≠ [] → stringsHasPrefix line "# ".toList = false →
        stringsHasPrefix line "= ".toList = false → stringsHasPrefix line "--".toList = false →
        isFileLine line = true ∧ settingOfLine line = none) := by
  have heq := readManifest_eq_segments lines
  refine ⟨heq, ?_, ⟨rfl, rfl⟩, ?_, ?_, ?_⟩
  · intro b hb s hs
    rw [heq, List.mem_map] at hb
    obtain ⟨seg, _, rfl⟩ := hb
    simp only [blockOfSegment, List.mem_filterMap] at hs
    obtain ⟨line, _, hline⟩ := hs
    unfold settingOfLine at hline
    split at hline
    · split at hline
      · simp only [Option.some.injEq] at hline
        rw [← hline]
        simp
      · exact absurd hline (by simp)
    · exact absurd hline (by simp)
  · intro t
    simp [isFileLine, settingOfLine, stringsHasPrefix, List.isPrefixOf]
  · intro t
    refine ⟨by simp [isFileLine, stringsHasPrefix, List.isPrefixOf], ?_, ?_⟩
    · intro h
      rcases hs : stringsSplit ',' t with _ | ⟨first, _ | ⟨second, more⟩⟩
      · simp [settingOfLine, stringsHasPrefix, List.isPrefixOf, hs]
      · simp [settingOfLine, stringsHasPrefix, List.isPrefixOf, hs]
      · rw [hs] at h
        simp only [List.length_cons] at h
        omega
    · intro h
      rcases hs : stringsSplit ',' t with _ | ⟨first, _ | ⟨second, more⟩⟩
      · rw [hs] at h
        simp at h
      · rw [hs] at h
        simp at h
      · simp [settingOfLine, stringsHasPrefix, List.isPrefixOf, hs]
  · intro line hne h1 h2 h3
    have h1' : stringsHasPrefix line ['#', ' '] = false := h1
    have h2' : stringsHasPrefix line ['=', ' '] = false := h2
    have h3' : stringsHasPrefix line ['-', '-'] = false := h3
    simp [isFileLine, settingOfLine, hne, h1', h2', h3']

/-! ## Preset plan compiler -/

/-- C6: the plans of every preset other than none are those of the fixed
table, in order; each plan carries the package kind of the base plan, and in
each plan the scale or both box dimensions are zero. -/
theorem planPreset_table (base : ProcessPlan) :
    planPreset base presetSmallSticker =
        [{ scale := 0, boxWidth := 300, boxHeight := 300, outputFormat := formatPNG,
           outputPackage := base.outputPackage, requiredSuffix := [], removeSuffix := [],
           addSuffix := [] }] ∧
      planPreset base presetMediumSticker =
        [{ scale := 0, boxWidth := 408, boxHeight := 408, outputFormat := formatPNG,
           outputPackage := base.outputPackage, requiredSuffix := [], removeSuffix := [],
           addSuffix := [] }] ∧
      planPreset base presetLargeSticker =
        [{ scale := 0, boxWidth := 618, boxHeight := 618, outputFormat := formatPNG,
           outputPackage := base.outputPackage, requiredSuffix := [], removeSuffix := [],
           addSuffix := [] }] ∧
      planPreset base presetThumb256 =
        [{ scale := 0, boxWidth := 256, boxHeight := 256, outputFormat := base.outputFormat,
           outputPackage := base.outputPackage, requiredSuffix := [], removeSuffix := [],
           addSuffix := [] }] ∧
      planPreset base presetImageSet =
        [{ scale := 1.0, boxWidth := 0, boxHeight := 0, outputFormat := base.outputFormat,
           outputPackage := base.outputPackage, requiredSuffix := "@3x".toList,
           removeSuffix := [], addSuffix := [] },
         { scale := 0.666666, boxWidth := 0, boxHeight := 0, outputFormat := base.outputFormat,
           outputPackage := base.outputPackage, requiredSuffix := "@3x".toList,
           removeSuffix := "@3x".toList, addSuffix := "@2x".toList },
         { scale := 0.333333, boxWidth := 0, boxHeight := 0, outputFormat := base.outputFormat,
           outputPackage := base.outputPackage, requiredSuffix := "@3x".toList,
           removeSuffix := "@3x".toList, addSuffix := [] }] ∧
      planPreset base presetImageSetForLargeSticker =
        [{ scale := 0, boxWidth := 618, boxHeight := 618, outputFormat := formatPNG,
           outputPackage := base.outputPackage, requiredSuffix := [], removeSuffix := [],
           addSuffix := [] }] ∧
      planPreset base presetLargeStickerWithImageSet =
        [{ scale := 0, boxWidth := 206, boxHeight := 206, outputFormat := formatPNG,
           outputPackage := base.outputPackage, requiredSuffix := [], removeSuffix := [],
           addSuffix := "@1x".toList },
         { scale := 0, boxWidth := 618, boxHeight := 618, outputFormat := formatPNG,
           outputPackage := base.outputPackage, requiredSuffix := [], removeSuffix := [],
           addSuffix := "@3x".toList }] ∧
      ∀ preset : PresetType, preset ≠ presetNone → ∀ p ∈ planPreset base preset,
        p.outputPackage = base.outputPackage ∧
          (p.scale = 0 ∨ (p.boxWidth = 0 ∧ p.boxHeight = 0)) := by
  refine ⟨rfl, rfl, rfl, rfl, rfl, rfl, rfl, ?_⟩
  intro preset hne p hp
  cases preset with
  | presetNone => exact absurd rfl hne
  | presetImageSet =>
    simp only [planPreset, List.mem_cons, List.mem_singleton, List.not_mem_nil, or_false] at hp
    rcases hp with rfl | rfl | rfl <;> exact ⟨rfl, Or.inr ⟨rfl, rfl⟩⟩
  | presetLargeStickerWithImageSet =>
    simp only [planPreset, List.mem_cons, List.mem_singleton, List.not_mem_nil, or_false] at hp
    rcases hp with rfl | rfl <;> exact ⟨rfl, Or.inl rfl⟩
  | _ =>
    simp only [planPreset, List.mem_cons, List.mem_singleton, List.not_mem_nil, or_false] at hp
    subst hp
    exact ⟨rfl, Or.inl rfl⟩

/-! ## Configuration validation -/

theorem validateConfiguration_error_iff (config : Configuration) :
    (validateConfiguration config).2 ≠ none ↔
      (config.srcDirPath = [] ∨ config.dstDirPath = [] ∨
        (config.scale ≠ 0 ∧ (config.maxWidth ≠ 0 ∨ config.maxHeight ≠ 0))) := by
  unfold validateConfiguration
  by_cases h1 : config.srcDirPath = []
  · simp [h1]
  · by_cases h2 : config.dstDirPath = []
    · simp [h1, h2]
    · by_cases h3 : config.scale ≠ 0 ∧ (config.maxWidth ≠ 0 ∨ config.maxHeight ≠ 0)
      · rw [if_neg h1, if_neg h2, if_pos h3]
        simp [h3]
      · rw [if_neg h1, if_neg h2, if_neg h3]
        simp [h1, h2, h3]

/-- C2: `validateConfiguration` returns an error exactly when the source path
is empty, the destination path is empty, or the scale is non-zero together
with a non-zero maximum width or height; flags with a non-zero scale and a
non-zero maximum dimension make `configurationFromArgs` report an error and
leave the configuration not valid, and a configuration that manifest settings
leave with a non-zero scale and a non-zero maximum dimension fails
validation. -/
theorem validateConfiguration_scale_exclusive (lib : Lib) (config : Configuration) :
    ((validateConfiguration config).2 ≠ none ↔
      (config.srcDirPath = [] ∨ config.dstDirPath = [] ∨
        (config.scale ≠ 0 ∧ (config.maxWidth ≠ 0 ∨ config.maxHeight ≠ 0)))) ∧
    (∀ f : Flags, f.scaleFlag ≠ 0 →
      (f.maxPxFlag ≠ 0 ∨ f.maxWidthPxFlag ≠ 0 ∨ f.maxHeightPxFlag ≠ 0) →
      (configurationFromArgs lib f).err ≠ none ∧ (configurationFromArgs lib f).valid = false) ∧
    (∀ (settings : List ManifestSetting) (resolved : Configuration),
      processManifestSettings lib config settings = some resolved →
      resolved.scale ≠ 0 → (resolved.maxWidth ≠ 0 ∨ resolved.maxHeight ≠ 0) →
      (validateConfiguration resolved).2 ≠ none) := by
  refine ⟨validateConfiguration_error_iff config, ?_, ?_⟩
  · intro f hs hm
    unfold configurationFromArgs
    simp only [if_pos (And.intro hs hm)]
    constructor
    · simp
    · split_ifs <;> rfl
  · intro settings resolved _ hs hm
    exact (validateConfiguration_error_iff resolved).2 (Or.inr (Or.inr ⟨hs, hm⟩))

/-- Witness for C2: the manifest lines `= scale, 2` and `= max-width-px, 100`
resolve to a configuration that validation rejects, and the same values
given as flags make `configurationFromArgs` report an error. -/
theorem validateConfiguration_scale_exclusive_witness :
    (readManifest ["= scale, 2".toList, "= max-width-px, 100".toList]).map Manifest.settings =
        [[{ key := "scale".toList, values := ["2".toList] },
          { key := "max-width-px".toList, values := ["100".toList] }]] ∧
      processManifestSettings exampleLib { srcDirPath := "/in".toList, dstDirPath := "/out".toList }
          [{ key := "scale".toList, values := ["2".toList] },
           { key := "max-width-px".toList, values := ["100".toList] }] =
        some { srcDirPath := "/in".toList, dstDirPath := "/out".toList, scale := 2, maxWidth := 100 } ∧
      (validateConfiguration
          { srcDirPath := "/in".toList, dstDirPath := "/out".toList, scale := 2, maxWidth := 100 }).2 ≠
        none ∧
      (configurationFromArgs exampleLib { scaleFlag := 2, maxWidthPxFlag := 100 }).err ≠ none :=
  ⟨by decide, by decide,
   (validateConfiguration_scale_exclusive exampleLib
      { srcDirPath := "/in".toList, dstDirPath := "/out".toList }).2.2
      [{ key := "scale".toList, values := ["2".toList] },
       { key := "max-width-px".toList, values := ["100".toList] }]
      { srcDirPath := "/in".toList, dstDirPath := "/out".toList, scale := 2, maxWidth := 100 }
      (by decide)
      (by decide) (Or.inl (by decide)),
   ((validateConfiguration_scale_exclusive exampleLib {}).2.1
      { scaleFlag := 2, maxWidthPxFlag := 100 } (by decide) (Or.inr (Or.inl (by decide)))).1⟩

/-! ## Transform executor -/

/-- When the source opens, the loop body of `processImage` ends with the save
of the image that the geometry step made. -/
theorem processImagePlan_saves_geometry (w : World) (srcPath : Str) (config : Configuration)
    (results : List ProcessResult) (oneTimeDone : Bool) (log : Log) (plan : ProcessPlan)
    (width height : Int)
    (hsuffix : ¬ (plan.requiredSuffix.length > 0 ∧ hasSuffix srcPath plan.requiredSuffix = false))
    (hformat : formatForPath srcPath ≠ formatUnchanged)
    (hopen : w.imagingOpen log srcPath = .ok (width, height)) :
    ∃ dstPath : Str,
      (processImagePlan w srcPath config (results, oneTimeDone, log) plan).2.2.getLast? =
        some (Call.imagingSave (planGeometry plan srcPath width height) dstPath) := by
  simp only [processImagePlan, if_neg hsuffix, if_neg hformat, hopen]
  by_cases h1 : config.outputPackage = packageStickerPack
  · simp only [if_pos h1]
    cases w.imagingSave _ _ _ <;> exact ⟨_, List.getLast?_concat _⟩
  · by_cases h2 : config.outputPackage = packageImageSet
    · simp only [if_neg h1, if_pos h2]
      cases w.imagingSave _ _ _ <;> exact ⟨_, List.getLast?_concat _⟩
    · simp only [if_neg h1, if_neg h2]
      cases w.imagingSave _ _ _ <;> exact ⟨_, List.getLast?_concat _⟩

/-- C8: the geometry step chooses, in this order: a fit into the box of the
truncated scaled dimensions (the `float64` products of the dimensions and the
scale, converted to `int`) when the scale is neither 0 nor 1; the source
unresized when the scale is 1, whatever the box; with scale 0, the source
unresized when both box dimensions are zero, a resize with the pair as it is
when exactly one is zero, and a fit into the box otherwise; and that image is
the one `processImage` saves once the source has opened. -/
theorem planGeometry_priority (plan : ProcessPlan) (srcPath : Str) (width height : Int) :
    (plan.scale ≠ 0 → plan.scale ≠ 1 →
      planGeometry plan srcPath width height =
        Image.fit (Image.opened srcPath width height)
          (truncate (Float64.mul (Float64.ofInt width) plan.scale))
          (truncate (Float64.mul (Float64.ofInt height) plan.scale))) ∧
    (plan.scale = 1 →
      planGeometry plan srcPath width height = Image.opened srcPath width height) ∧
    (plan.scale = 0 → plan.boxWidth = 0 → plan.boxHeight = 0 →
      planGeometry plan srcPath width height = Image.opened srcPath width height) ∧
    (plan.scale = 0 →
      ((plan.boxWidth = 0 ∧ plan.boxHeight ≠ 0) ∨ (plan.boxWidth ≠ 0 ∧ plan.boxHeight = 0)) →
      planGeometry plan srcPath width height =
        Image.resize (Image.opened srcPath width height) plan.boxWidth plan.boxHeight) ∧
    (plan.scale = 0 → plan.boxWidth ≠ 0 → plan.boxHeight ≠ 0 →
      planGeometry plan srcPath width height =
        Image.fit (Image.opened srcPath width height) plan.boxWidth plan.boxHeight) ∧
    (∀ (w : World) (config : Configuration) (results : List ProcessResult) (oneTimeDone : Bool)
        (log : Log),
      ¬ (plan.requiredSuffix.length > 0 ∧ hasSuffix srcPath plan.requiredSuffix = false) →
      formatForPath srcPath ≠ formatUnchanged →
      w.imagingOpen log srcPath = .ok (width, height) →
      ∃ dstPath : Str,
        (processImagePlan w srcPath config (results, oneTimeDone, log) plan).2.2.getLast? =
          some (Call.imagingSave (planGeometry plan srcPath width height) dstPath)) := by
  refine ⟨?_, ?_, ?_, ?_, ?_, ?_⟩
  · intro h0 h1
    simp only [planGeometry, if_pos h0, if_pos h1]
  · intro h1
    have h0 : plan.scale ≠ 0 := by rw [h1]; decide!
    simp only [planGeometry, if_pos h0, if_neg (not_not.2 h1)]
  · intro h0 hw hh
    simp [planGeometry, h0, hw, hh]
  · intro h0 hbox
    rcases hbox with ⟨hw, hh⟩ | ⟨hw, hh⟩
    · simp [planGeometry, h0, hw, hh]
    · simp [planGeometry, h0, hw, hh]
  · intro h0 hw hh
    simp [planGeometry, h0, hw, hh]
  · intro w config results oneTimeDone log hsuffix hformat hopen
    exact processImagePlan_saves_geometry w srcPath config results oneTimeDone log plan width
      height hsuffix hformat hopen

/-- Examples for C8 on a 300 by 200 source: scale 0.666666 fits into 199 by
133, scale 1 with a box passes the source through, a box of width 100 and
height 0 resizes with (100, 0), and a 256 box fits into (256, 256).  The
products are those of `float64`: scale 0.7 on 10 pixels gives 7, scale
0.3333333333333333 on 300 pixels gives 100, scale 0.29 gives 28 on 100
pixels and 57 on 200, and a product beyond the range of `int` gives the least
`int`. -/
theorem planGeometry_priority_examples :
    planGeometry { scale := 0.666666 } "a.png".toList 300 200 =
        Image.fit (Image.opened "a.png".toList 300 200) 199 133 ∧
      planGeometry { scale := 1, boxWidth := 50, boxHeight := 50 } "a.png".toList 300 200 =
        Image.opened "a.png".toList 300 200 ∧
      planGeometry { boxWidth := 100 } "a.png".toList 300 200 =
        Image.resize (Image.opened "a.png".toList 300 200) 100 0 ∧
      planGeometry { boxWidth := 256, boxHeight := 256 } "a.png".toList 300 200 =
        Image.fit (Image.opened "a.png".toList 300 200) 256 256 ∧
      planGeometry { scale := 0.7 } "a.png".toList 10 300 =
        Image.fit (Image.opened "a.png".toList 10 300) 7 210 ∧
      planGeometry { scale := 0.3333333333333333 } "a.png".toList 300 100 =
        Image.fit (Image.opened "a.png".toList 300 100) 100 33 ∧
      planGeometry { scale := 0.29 } "a.png".toList 100 200 =
        Image.fit (Image.opened "a.png".toList 100 200) 28 57 ∧
      planGeometry { scale := 1e30 } "a.png".toList 300 200 =
        Image.fit (Image.opened "a.png".toList 300 200) (-9223372036854775808)
          (-9223372036854775808) := by
  refine ⟨?_, ?_, ?_, ?_, ?_, ?_, ?_, ?_⟩
  · exact ((planGeometry_priority { scale := 0.666666 } "a.png".toList 300 200).1 (by decide!)
      (by decide!)).trans (by decide!)
  · exact (planGeometry_priority _ _ _ _).2.1 rfl
  · exact (planGeometry_priority _ _ _ _).2.2.2.1 rfl (Or.inr ⟨by decide, rfl⟩)
  · exact (planGeometry_priority _ _ _ _).2.2.2.2.1 rfl (by decide) (by decide)
  · exact ((planGeometry_priority { scale := 0.7 } "a.png".toList 10 300).1 (by decide!)
      (by decide!)).trans (by decide!)
  · exact ((planGeometry_priority { scale := 0.3333333333333333 } "a.png".toList 300 100).1
      (by decide!) (by decide!)).trans (by decide!)
  · exact ((planGeometry_priority { scale := 0.29 } "a.png".toList 100 200).1 (by decide!)
      (by decide!)).trans (by decide!)
  · exact ((planGeometry_priority { scale := 1e30 } "a.png".toList 300 200).1 (by decide!)
      (by decide!)).trans (by decide!)

/-- The loop body of `processImage` on a plan whose required suffix the
source lacks: a non-fatal result with empty destination, and no call. -/
theorem processImagePlan_skip (w : World) (srcPath : Str) (config : Configuration)
    (results : List ProcessResult) (oneTimeDone : Bool) (log : Log) (plan : ProcessPlan)
    (hsuffix : plan.requiredSuffix.length > 0 ∧ hasSuffix srcPath plan.requiredSuffix = false) :
    processImagePlan w srcPath config (results, oneTimeDone, log) plan =
      (results ++ [⟨srcPath, [], false,
        some ("Source does not have required suffix: ".toList ++ plan.requiredSuffix)⟩],
       oneTimeDone, log) := by
  simp only [processImagePlan, if_pos hsuffix]

/-- The loop body of `processImage` on a source of unsupported format: a fatal
result with empty destination, and no call. -/
theorem processImagePlan_unsupported (w : World) (srcPath : Str) (config : Configuration)
    (results : List ProcessResult) (oneTimeDone : Bool) (log : Log) (plan : ProcessPlan)
    (hsuffix : ¬ (plan.requiredSuffix.length > 0 ∧ hasSuffix srcPath plan.requiredSuffix = false))
    (hformat : formatForPath srcPath = formatUnchanged) :
    processImagePlan w srcPath config (results, oneTimeDone, log) plan =
      (results ++ [⟨srcPath, [], true, some "Unsupported source image format".toList⟩],
       oneTimeDone, log) := by
  simp only [processImagePlan, if_neg hsuffix, if_pos hformat]

/-- The loop body of `processImage` when the source cannot be opened: a fatal
result for this plan, and the state goes on to the next plan. -/
theorem processImagePlan_open_failed (w : World) (srcPath : Str) (config : Configuration)
    (results : List ProcessResult) (oneTimeDone : Bool) (log : Log) (plan : ProcessPlan)
    (e : Str)
    (hsuffix : ¬ (plan.requiredSuffix.length > 0 ∧ hasSuffix srcPath plan.requiredSuffix = false))
    (hformat : formatForPath srcPath ≠ formatUnchanged)
    (hopen : w.imagingOpen log srcPath = .error e) :
    processImagePlan w srcPath config (results, oneTimeDone, log) plan =
      (results ++ [⟨srcPath, planDstPath plan config.dstDirPath (filepathBase srcPath), true,
        some ("Open failed: ".toList ++ e)⟩],
       oneTimeDone, log ++ [Call.imagingOpen srcPath]) := by
  simp only [processImagePlan, if_neg hsuffix, if_neg hformat, hopen]

/-- The loop body of `processImage` without packaging, once the source is
open: the image of the geometry step is saved at the destination path of the
plan, and the result is fatal exactly when the save fails. -/
theorem processImagePlan_opened (w : World) (srcPath : Str) (config : Configuration)
    (results : List ProcessResult) (oneTimeDone : Bool) (log : Log) (plan : ProcessPlan)
    (width height : Int)
    (hpkg : config.outputPackage = packageNone)
    (hsuffix : ¬ (plan.requiredSuffix.length > 0 ∧ hasSuffix srcPath plan.requiredSuffix = false))
    (hformat : formatForPath srcPath ≠ formatUnchanged)
    (hopen : w.imagingOpen log srcPath = .ok (width, height)) :
    processImagePlan w srcPath config (results, oneTimeDone, log) plan =
      (results ++ [⟨srcPath, planDstPath plan config.dstDirPath (filepathBase srcPath),
        (w.imagingSave (log ++ [Call.imagingOpen srcPath])
          (planGeometry plan srcPath width height)
          (planDstPath plan config.dstDirPath (filepathBase srcPath))).isSome,
        (w.imagingSave (log ++ [Call.imagingOpen srcPath])
          (planGeometry plan srcPath width height)
          (planDstPath plan config.dstDirPath (filepathBase srcPath))).map
            (fun e => "Save failed: ".toList ++ e)⟩],
       oneTimeDone,
       log ++ [Call.imagingOpen srcPath,
         Call.imagingSave (planGeometry plan srcPath width height)
           (planDstPath plan config.dstDirPath (filepathBase srcPath))]) := by
  have h1 : config.outputPackage ≠ packageStickerPack := by rw [hpkg]; decide
  have h2 : config.outputPackage ≠ packageImageSet := by rw [hpkg]; decide
  simp only [processImagePlan, if_neg hsuffix, if_neg hformat, hopen, if_neg h1, if_neg h2]
  cases w.imagingSave _ _ _ <;> simp

/-- Without packaging, the loop body of `processImage` on a plan that is not
skipped and a source of supported format appends exactly one result, whose
destination is the destination path of the plan. -/
theorem processImagePlan_outPath (w : World) (srcPath : Str) (config : Configuration)
    (results : List ProcessResult) (oneTimeDone : Bool) (log : Log) (plan : ProcessPlan)
    (hpkg : config.outputPackage = packageNone)
    (hsuffix : ¬ (plan.requiredSuffix.length > 0 ∧ hasSuffix srcPath plan.requiredSuffix = false))
    (hformat : formatForPath srcPath ≠ formatUnchanged) :
    ∃ (r : ProcessResult) (log1 : Log),
      processImagePlan w srcPath config (results, oneTimeDone, log) plan =
          (results ++ [r], oneTimeDone, log1) ∧
        r.inPath = srcPath ∧
        r.outPath = planDstPath plan config.dstDirPath (filepathBase srcPath) := by
  rcases hopen : w.imagingOpen log srcPath with e | ⟨width, height⟩
  · exact ⟨_, _, processImagePlan_open_failed w srcPath config results oneTimeDone log plan e
      hsuffix hformat hopen, rfl, rfl⟩
  · exact ⟨_, _, processImagePlan_opened w srcPath config results oneTimeDone log plan width height
      hpkg hsuffix hformat hopen, rfl, rfl⟩

/-- Without packaging and in a world where the source always opens and every
save succeeds, the loop body of `processImage` on a plan that is not skipped
appends a result that is not fatal. -/
theorem processImagePlan_success (w : World) (srcPath : Str) (config : Configuration)
    (results : List ProcessResult) (oneTimeDone : Bool) (log : Log) (plan : ProcessPlan)
    (hpkg : config.outputPackage = packageNone)
    (hsuffix : ¬ (plan.requiredSuffix.length > 0 ∧ hasSuffix srcPath plan.requiredSuffix = false))
    (hformat : formatForPath srcPath ≠ formatUnchanged)
    (hopen : ∀ l, ∃ width height, w.imagingOpen l srcPath = .ok (width, height))
    (hsave : ∀ l img p, w.imagingSave l img p = none) :
    ∃ log1 : Log,
      processImagePlan w srcPath config (results, oneTimeDone, log) plan =
        (results ++ [⟨srcPath, planDstPath plan config.dstDirPath (filepathBase srcPath), false,
          none⟩], oneTimeDone, log1) := by
  obtain ⟨width, height, ho⟩ := hopen log
  rw [processImagePlan_opened w srcPath config results oneTimeDone log plan width height hpkg
    hsuffix hformat ho, hsave]
  exact ⟨_, rfl⟩

/-- C7 (amended): without packaging and with the plans of the image-set
preset, a source of supported format whose name ends in `@3x` before the
extension gives three results, in plan order, whose destinations are, in the
destination folder, the source name (with its extension changed to the output
format of the base plan when it has one), that name with `@3x` replaced by
`@2x`, and that name with `@3x` removed; when every open and save succeeds
none of the three is fatal.  A source whose name lacks the suffix gives three
non-fatal results with empty destination and makes no call at all. -/
theorem processImage_imageSet_names (w : World) (base : ProcessPlan) (srcPath : Str)
    (config : Configuration) (log : Log) (hpkg : config.outputPackage = packageNone) :
    (hasSuffix srcPath "@3x".toList = true → formatForPath srcPath ≠ formatUnchanged →
      (processImage w srcPath config (planPreset base presetImageSet) log).1.map
          (fun r => r.outPath) =
        [filepathJoin config.dstDirPath
           (if base.outputFormat ≠ formatUnchanged then
              changeExtensionForFormat (filepathBase srcPath) base.outputFormat
            else filepathBase srcPath),
         changeSuffix (filepathJoin config.dstDirPath
           (if base.outputFormat ≠ formatUnchanged then
              changeExtensionForFormat (filepathBase srcPath) base.outputFormat
            else filepathBase srcPath)) "@3x".toList "@2x".toList,
         changeSuffix (filepathJoin config.dstDirPath
           (if base.outputFormat ≠ formatUnchanged then
              changeExtensionForFormat (filepathBase srcPath) base.outputFormat
            else filepathBase srcPath)) "@3x".toList []] ∧
      ((∀ l, ∃ width height, w.imagingOpen l srcPath = .ok (width, height)) →
        (∀ l img p, w.imagingSave l img p = none) →
        ∀ r ∈ (processImage w srcPath config (planPreset base presetImageSet) log).1,
          r.failed = false ∧ r.err = none)) ∧
    (hasSuffix srcPath "@3x".toList = false →
      processImage w srcPath config (planPreset base presetImageSet) log =
        ([⟨srcPath, [], false, some "Source does not have required suffix: @3x".toList⟩,
          ⟨srcPath, [], false, some "Source does not have required suffix: @3x".toList⟩,
          ⟨srcPath, [], false, some "Source does not have required suffix: @3x".toList⟩],
         log)) := by
  constructor
  · intro hsuf hformat
    have hs : ∀ plan : ProcessPlan, plan.requiredSuffix = "@3x".toList →
        ¬ (plan.requiredSuffix.length > 0 ∧ hasSuffix srcPath plan.requiredSuffix = false) := by
      intro plan hp h
      rw [hp, hsuf] at h
      exact absurd h.2 (by decide)
    constructor
    · simp only [processImage, planPreset, List.foldl]
      obtain ⟨r1, l1, e1, -, o1⟩ := processImagePlan_outPath w srcPath config [] false log
        { scale := 1.0, requiredSuffix := "@3x".toList, outputFormat := base.outputFormat,
          outputPackage := base.outputPackage } hpkg (hs _ rfl) hformat
      rw [e1]
      obtain ⟨r2, l2, e2, -, o2⟩ := processImagePlan_outPath w srcPath config ([] ++ [r1]) false l1
        { scale := 0.666666, requiredSuffix := "@3x".toList, removeSuffix := "@3x".toList,
          addSuffix := "@2x".toList, outputFormat := base.outputFormat,
          outputPackage := base.outputPackage } hpkg (hs _ rfl) hformat
      rw [e2]
      obtain ⟨r3, l3, e3, -, o3⟩ := processImagePlan_outPath w srcPath config ([] ++ [r1] ++ [r2])
        false l2
        { scale := 0.333333, requiredSuffix := "@3x".toList, removeSuffix := "@3x".toList,
          addSuffix := [], outputFormat := base.outputFormat,
          outputPackage := base.outputPackage } hpkg (hs _ rfl) hformat
      rw [e3]
      simp only [List.nil_append, List.map_append, List.map_cons, List.map_nil, List.singleton_append,
        List.cons_append, o1, o2, o3]
      simp [planDstPath]
    · intro hopen hsave r hr
      simp only [processImage, planPreset, List.foldl] at hr
      obtain ⟨l1, e1⟩ := processImagePlan_success w srcPath config [] false log
        { scale := 1.0, requiredSuffix := "@3x".toList, outputFormat := base.outputFormat,
          outputPackage := base.outputPackage } hpkg (hs _ rfl) hformat hopen hsave
      rw [e1] at hr
      obtain ⟨l2, e2⟩ := processImagePlan_success w srcPath config _ false l1
        { scale := 0.666666, requiredSuffix := "@3x".toList, removeSuffix := "@3x".toList,
          addSuffix := "@2x".toList, outputFormat := base.outputFormat,
          outputPackage := base.outputPackage } hpkg (hs _ rfl) hformat hopen hsave
      rw [e2] at hr
      obtain ⟨l3, e3⟩ := processImagePlan_success w srcPath config _ false l2
        { scale := 0.333333, requiredSuffix := "@3x".toList, removeSuffix := "@3x".toList,
          addSuffix := [], outputFormat := base.outputFormat,
          outputPackage := base.outputPackage } hpkg (hs _ rfl) hformat hopen hsave
      rw [e3] at hr
      simp only [List.nil_append, List.append_assoc, List.singleton_append, List.mem_cons,
        List.mem_singleton, List.not_mem_nil, or_false, List.cons_append] at hr
      rcases hr with rfl | rfl | rfl <;> exact ⟨rfl, rfl⟩
  · intro hsuf
    have hs : ∀ plan : ProcessPlan, plan.requiredSuffix = "@3x".toList →
        (plan.requiredSuffix.length > 0 ∧ hasSuffix srcPath plan.requiredSuffix = false) := by
      intro plan hp
      rw [hp]
      exact ⟨by decide, hsuf⟩
    simp only [processImage, planPreset, List.foldl]
    rw [processImagePlan_skip w srcPath config _ _ _ _ (hs _ rfl),
      processImagePlan_skip w srcPath config _ _ _ _ (hs _ rfl),
      processImagePlan_skip w srcPath config _ _ _ _ (hs _ rfl)]
    rfl

/-- Counterexample to C7 as stated: with the output format PNG on the base
plan the source `photo@3x.jpg`, whose name ends in `@3x`, gives the names
`photo@3x.png`, `photo@2x.png`, `photo.png` and not the source name unchanged;
and the source `photo@3x.bmp` gives three fatal results with no destination. -/
theorem processImage_imageSet_names_counterexample :
    hasSuffix "/in/photo@3x.jpg".toList "@3x".toList = true ∧
      (processImage okWorld "/in/photo@3x.jpg".toList { dstDirPath := "/out".toList }
          (planPreset { outputFormat := formatPNG } presetImageSet) []).1.map
          (fun r => filepathBase r.outPath) =
        ["photo@3x.png".toList, "photo@2x.png".toList, "photo.png".toList] ∧
      (processImage okWorld "/in/photo@3x.jpg".toList { dstDirPath := "/out".toList }
          (planPreset { outputFormat := formatPNG } presetImageSet) []).1.map
          (fun r => filepathBase r.outPath) ≠
        [filepathBase "/in/photo@3x.jpg".toList, "photo@2x.jpg".toList, "photo.jpg".toList] ∧
      hasSuffix "/in/photo@3x.bmp".toList "@3x".toList = true ∧
      (processImage okWorld "/in/photo@3x.bmp".toList { dstDirPath := "/out".toList }
          (planPreset {} presetImageSet) []).1.map (fun r => (r.outPath, r.failed)) =
        [([], true), ([], true), ([], true)] := by
  refine ⟨by decide, ?_, ?_, by decide, ?_⟩
  · decide
  · decide
  · decide

/-- Witness for C7 (amended): `photo@3x.png` gives `photo@3x.png`,
`photo@2x.png` and `photo.png` in the destination folder. -/
theorem processImage_imageSet_names_witness :
    (processImage okWorld "/in/photo@3x.png".toList { dstDirPath := "/out".toList }
        (planPreset {} presetImageSet) []).1.map (fun r => r.outPath) =
      ["/out/photo@3x.png".toList, "/out/photo@2x.png".toList, "/out/photo.png".toList] ∧
    processImage okWorld "/in/photo.png".toList { dstDirPath := "/out".toList }
        (planPreset {} presetImageSet) [] =
      ([⟨"/in/photo.png".toList, [], false,
          some "Source does not have required suffix: @3x".toList⟩,
        ⟨"/in/photo.png".toList, [], false,
          some "Source does not have required suffix: @3x".toList⟩,
        ⟨"/in/photo.png".toList, [], false,
          some "Source does not have required suffix: @3x".toList⟩], []) :=
  ⟨(((processImage_imageSet_names okWorld {} "/in/photo@3x.png".toList
        { dstDirPath := "/out".toList } [] rfl).1 (by decide) (by decide)).1).trans (by decide),
   (processImage_imageSet_names okWorld {} "/in/photo.png".toList
        { dstDirPath := "/out".toList } [] rfl).2 (by decide)⟩

/-- The loop body of `processImage` appends exactly one result, for the
source at hand, whatever happens. -/
theorem processImagePlan_appends_one (w : World) (srcPath : Str) (config : Configuration)
    (results : List ProcessResult) (oneTimeDone : Bool) (log : Log) (plan : ProcessPlan) :
    ∃ r : ProcessResult,
      (processImagePlan w srcPath config (results, oneTimeDone, log) plan).1 = results ++ [r] ∧
        r.inPath = srcPath := by
  by_cases hsuffix : plan.requiredSuffix.length > 0 ∧ hasSuffix srcPath plan.requiredSuffix = false
  · rw [processImagePlan_skip w srcPath config results oneTimeDone log plan hsuffix]
    exact ⟨_, rfl, rfl⟩
  · by_cases hformat : formatForPath srcPath = formatUnchanged
    · rw [processImagePlan_unsupported w srcPath config results oneTimeDone log plan hsuffix hformat]
      exact ⟨_, rfl, rfl⟩
    · rcases hopen : w.imagingOpen log srcPath with e | ⟨width, height⟩
      · rw [processImagePlan_open_failed w srcPath config results oneTimeDone log plan e hsuffix
          hformat hopen]
        exact ⟨_, rfl, rfl⟩
      · simp only [processImagePlan, if_neg hsuffix, if_neg hformat, hopen]
        by_cases h1 : config.outputPackage = packageStickerPack
        · simp only [if_pos h1]
          cases w.imagingSave _ _ _ <;> exact ⟨_, rfl, rfl⟩
        · by_cases h2 : config.outputPackage = packageImageSet
          · simp only [if_neg h1, if_pos h2]
            cases w.imagingSave _ _ _ <;> exact ⟨_, rfl, rfl⟩
          · simp only [if_neg h1, if_neg h2]
            cases w.imagingSave _ _ _ <;> exact ⟨_, rfl, rfl⟩

/-- The loop of `processImage` from any state: one result more per plan. -/
theorem processImage_foldl_length (w : World) (srcPath : Str) (config : Configuration)
    (plans : List ProcessPlan) (results : List ProcessResult) (oneTimeDone : Bool) (log : Log) :
    (plans.foldl (processImagePlan w srcPath config) (results, oneTimeDone, log)).1.length =
        results.length + plans.length ∧
      ((∀ r ∈ results, r.inPath = srcPath) →
        ∀ r ∈ (plans.foldl (processImagePlan w srcPath config) (results, oneTimeDone, log)).1,
          r.inPath = srcPath) := by
  induction plans generalizing results oneTimeDone log with
  | nil => exact ⟨rfl, fun h => h⟩
  | cons plan rest ih =>
    obtain ⟨r, hr, hin⟩ := processImagePlan_appends_one w srcPath config results oneTimeDone log plan
    rw [List.foldl_cons]
    rcases hstep : processImagePlan w srcPath config (results, oneTimeDone, log) plan with
      ⟨results1, oneTimeDone1, log1⟩
    rw [hstep] at hr
    simp only at hr
    subst hr
    obtain ⟨hlen, hmem⟩ := ih (results ++ [r]) oneTimeDone1 log1
    refine ⟨?_, ?_⟩
    · rw [hlen]
      simp only [List.length_append, List.length_cons, List.length_nil]
      omega
    · intro hall
      apply hmem
      intro r' hr'
      rcases List.mem_append.1 hr' with h | h
      · exact hall r' h
      · rw [List.mem_singleton.1 h]
        exact hin

/-- The loop of `processImage` from any state when every plan step is given
by one result function and leaves the flag alone. -/
theorem processImage_foldl_map (w : World) (srcPath : Str) (config : Configuration)
    (f : ProcessPlan → ProcessResult) (g : ProcessPlan → Log → Log)
    (hstep : ∀ results oneTimeDone log plan,
      processImagePlan w srcPath config (results, oneTimeDone, log) plan =
        (results ++ [f plan], oneTimeDone, g plan log))
    (plans : List ProcessPlan) (results : List ProcessResult) (oneTimeDone : Bool) (log : Log) :
    plans.foldl (processImagePlan w srcPath config) (results, oneTimeDone, log) =
      (results ++ plans.map f, oneTimeDone, plans.foldl (fun l plan => g plan l) log) := by
  induction plans generalizing results log with
  | nil => simp
  | cons plan rest ih =>
    rw [List.foldl_cons, hstep, ih]
    simp

/-- The results of the loop of `processImage` from any state when every plan
step appends the value of one result function and leaves the flag alone. -/
theorem processImage_foldl_results (w : World) (srcPath : Str) (config : Configuration)
    (f : ProcessPlan → ProcessResult)
    (hstep : ∀ results oneTimeDone log plan, ∃ log1,
      processImagePlan w srcPath config (results, oneTimeDone, log) plan =
        (results ++ [f plan], oneTimeDone, log1))
    (plans : List ProcessPlan) (results : List ProcessResult) (oneTimeDone : Bool) (log : Log) :
    (plans.foldl (processImagePlan w srcPath config) (results, oneTimeDone, log)).1 =
      results ++ plans.map f := by
  induction plans generalizing results log with
  | nil => simp
  | cons plan rest ih =>
    obtain ⟨log1, h1⟩ := hstep results oneTimeDone log plan
    rw [List.foldl_cons, h1, ih]
    simp

/-- The loop body of `processImage` once the source is open, whatever the
packaging: after the packaging step the image of the geometry step is saved
at the path that step gives, and the one result recorded is fatal exactly
when the save fails. -/
theorem processImagePlan_packaged (w : World) (srcPath : Str) (config : Configuration)
    (results : List ProcessResult) (oneTimeDone : Bool) (log : Log) (plan : ProcessPlan)
    (width height : Int)
    (hsuffix : ¬ (plan.requiredSuffix.length > 0 ∧ hasSuffix srcPath plan.requiredSuffix = false))
    (hformat : formatForPath srcPath ≠ formatUnchanged)
    (hopen : w.imagingOpen log srcPath = .ok (width, height)) :
    processImagePlan w srcPath config (results, oneTimeDone, log) plan =
      (results ++
        [⟨srcPath,
          (planPackaging w config (planDstPath plan config.dstDirPath (filepathBase srcPath))
            oneTimeDone (log ++ [Call.imagingOpen srcPath])).1,
          (w.imagingSave
            (planPackaging w config (planDstPath plan config.dstDirPath (filepathBase srcPath))
              oneTimeDone (log ++ [Call.imagingOpen srcPath])).2.2
            (planGeometry plan srcPath width height)
            (planPackaging w config (planDstPath plan config.dstDirPath (filepathBase srcPath))
              oneTimeDone (log ++ [Call.imagingOpen srcPath])).1).isSome,
          (w.imagingSave
            (planPackaging w config (planDstPath plan config.dstDirPath (filepathBase srcPath))
              oneTimeDone (log ++ [Call.imagingOpen srcPath])).2.2
            (planGeometry plan srcPath width height)
            (planPackaging w config (planDstPath plan config.dstDirPath (filepathBase srcPath))
              oneTimeDone (log ++ [Call.imagingOpen srcPath])).1).map
              (fun e => "Save failed: ".toList ++ e)⟩],
       (planPackaging w config (planDstPath plan config.dstDirPath (filepathBase srcPath))
          oneTimeDone (log ++ [Call.imagingOpen srcPath])).2.1,
       (planPackaging w config (planDstPath plan config.dstDirPath (filepathBase srcPath))
          oneTimeDone (log ++ [Call.imagingOpen srcPath])).2.2 ++
        [Call.imagingSave (planGeometry plan srcPath width height)
          (planPackaging w config (planDstPath plan config.dstDirPath (filepathBase srcPath))
            oneTimeDone (log ++ [Call.imagingOpen srcPath])).1]) := by
  simp only [processImagePlan, if_neg hsuffix, if_neg hformat, hopen, planPackaging]
  by_cases h1 : config.outputPackage = packageStickerPack
  · simp only [if_pos h1]
    cases w.imagingSave _ _ _ <;> simp
  · by_cases h2 : config.outputPackage = packageImageSet
    · simp only [if_neg h1, if_pos h2]
      cases w.imagingSave _ _ _ <;> simp
    · simp only [if_neg h1, if_neg h2]
      cases w.imagingSave _ _ _ <;> simp

/-- The loop of `processImage` from any state keeps the results it starts
with and adds one per plan. -/
theorem processImage_foldl_prefix (w : World) (srcPath : Str) (config : Configuration)
    (plans : List ProcessPlan) (st : List ProcessResult × Bool × Log) :
    ∃ more : List ProcessResult,
      (plans.foldl (processImagePlan w srcPath config) st).1 = st.1 ++ more ∧
        more.length = plans.length := by
  induction plans generalizing st with
  | nil => exact ⟨[], by simp, rfl⟩
  | cons plan rest ih =>
    obtain ⟨results, oneTimeDone, log⟩ := st
    obtain ⟨r, hr, -⟩ := processImagePlan_appends_one w srcPath config results oneTimeDone log plan
    obtain ⟨more, hmore, hlen⟩ := ih (processImagePlan w srcPath config (results, oneTimeDone, log)
      plan)
    refine ⟨r :: more, ?_, by simp [hlen]⟩
    rw [List.foldl_cons, hmore, hr]
    simp

/-- C9 (amended): `processImage` never abandons the remaining plans of a
file.  Every plan of the list yields exactly one result for the file, in plan
order, whatever failed before it: the result of a plan is the one the loop
body records in the state the plans before it left.  The loop body records a
non-fatal result and makes no call when the plan is skipped for its suffix; a
fatal result and no call when the source format is unsupported; a fatal
`Open failed` result when the open fails; and, once the source is open,
whatever the packaging, a result that is fatal exactly when the save fails,
with the `Save failed` error.  So for a source of unsupported format every
plan records its own result and no call is made; for a source that cannot be
opened every plan that is not skipped records its own fatal result and the
open is attempted again for each of them; without packaging, when every save
fails every plan that is not skipped records its own fatal result. -/
theorem processImage_continues_after_failure (w : World) (srcPath : Str)
    (config : Configuration) (plans : List ProcessPlan) (log : Log) :
    (processImage w srcPath config plans log).1.length = plans.length ∧
    (∀ r ∈ (processImage w srcPath config plans log).1, r.inPath = srcPath) ∧
    (formatForPath srcPath = formatUnchanged →
      processImage w srcPath config plans log =
        (plans.map (fun plan =>
          if plan.requiredSuffix.length > 0 ∧ hasSuffix srcPath plan.requiredSuffix = false then
            ⟨srcPath, [], false,
              some ("Source does not have required suffix: ".toList ++ plan.requiredSuffix)⟩
          else ⟨srcPath, [], true, some "Unsupported source image format".toList⟩), log)) ∧
    (∀ e : Str, formatForPath srcPath ≠ formatUnchanged →
      (∀ l, w.imagingOpen l srcPath = .error e) →
      processImage w srcPath config plans log =
        (plans.map (fun plan =>
          if plan.requiredSuffix.length > 0 ∧ hasSuffix srcPath plan.requiredSuffix = false then
            ⟨srcPath, [], false,
              some ("Source does not have required suffix: ".toList ++ plan.requiredSuffix)⟩
          else ⟨srcPath, planDstPath plan config.dstDirPath (filepathBase srcPath), true,
            some ("Open failed: ".toList ++ e)⟩),
         plans.foldl (fun l plan =>
          if plan.requiredSuffix.length > 0 ∧ hasSuffix srcPath plan.requiredSuffix = false then l
          else l ++ [Call.imagingOpen srcPath]) log)) ∧
    (∀ e : Str, config.outputPackage = packageNone → formatForPath srcPath ≠ formatUnchanged →
      (∀ l, ∃ width height, w.imagingOpen l srcPath = .ok (width, height)) →
      (∀ l img p, w.imagingSave l img p = some e) →
      (processImage w srcPath config plans log).1 =
        plans.map (fun plan =>
          if plan.requiredSuffix.length > 0 ∧ hasSuffix srcPath plan.requiredSuffix = false then
            ⟨srcPath, [], false,
              some ("Source does not have required suffix: ".toList ++ plan.requiredSuffix)⟩
          else ⟨srcPath, planDstPath plan config.dstDirPath (filepathBase srcPath), true,
            some ("Save failed: ".toList ++ e)⟩)) ∧
    (∀ (results : List ProcessResult) (oneTimeDone : Bool) (log0 : Log) (plan : ProcessPlan),
      (plan.requiredSuffix.length > 0 ∧ hasSuffix srcPath plan.requiredSuffix = false →
        processImagePlan w srcPath config (results, oneTimeDone, log0) plan =
          (results ++ [⟨srcPath, [], false,
            some ("Source does not have required suffix: ".toList ++ plan.requiredSuffix)⟩],
           oneTimeDone, log0)) ∧
      (¬ (plan.requiredSuffix.length > 0 ∧ hasSuffix srcPath plan.requiredSuffix = false) →
        formatForPath srcPath = formatUnchanged →
        processImagePlan w srcPath config (results, oneTimeDone, log0) plan =
          (results ++ [⟨srcPath, [], true, some "Unsupported source image format".toList⟩],
           oneTimeDone, log0)) ∧
      (¬ (plan.requiredSuffix.length > 0 ∧ hasSuffix srcPath plan.requiredSuffix = false) →
        formatForPath srcPath ≠ formatUnchanged →
        ∀ e : Str, w.imagingOpen log0 srcPath = .error e →
        processImagePlan w srcPath config (results, oneTimeDone, log0) plan =
          (results ++ [⟨srcPath, planDstPath plan config.dstDirPath (filepathBase srcPath), true,
            some ("Open failed: ".toList ++ e)⟩],
           oneTimeDone, log0 ++ [Call.imagingOpen srcPath])) ∧
      (¬ (plan.requiredSuffix.length > 0 ∧ hasSuffix srcPath plan.requiredSuffix = false) →
        formatForPath srcPath ≠ formatUnchanged →
        ∀ width height : Int, w.imagingOpen log0 srcPath = .ok (width, height) →
        processImagePlan w srcPath config (results, oneTimeDone, log0) plan =
          (results ++
            [⟨srcPath,
              (planPackaging w config
                (planDstPath plan config.dstDirPath (filepathBase srcPath))
                oneTimeDone (log0 ++ [Call.imagingOpen srcPath])).1,
              (w.imagingSave
                (planPackaging w config
                  (planDstPath plan config.dstDirPath (filepathBase srcPath))
                  oneTimeDone (log0 ++ [Call.imagingOpen srcPath])).2.2
                (planGeometry plan srcPath width height)
                (planPackaging w config
                  (planDstPath plan config.dstDirPath (filepathBase srcPath))
                  oneTimeDone (log0 ++ [Call.imagingOpen srcPath])).1).isSome,
              (w.imagingSave
                (planPackaging w config
                  (planDstPath plan config.dstDirPath (filepathBase srcPath))
                  oneTimeDone (log0 ++ [Call.imagingOpen srcPath])).2.2
                (planGeometry plan srcPath width height)
                (planPackaging w config
                  (planDstPath plan config.dstDirPath (filepathBase srcPath))
                  oneTimeDone (log0 ++ [Call.imagingOpen srcPath])).1).map
                  (fun e => "Save failed: ".toList ++ e)⟩],
           (planPackaging w config (planDstPath plan config.dstDirPath (filepathBase srcPath))
              oneTimeDone (log0 ++ [Call.imagingOpen srcPath])).2.1,
           (planPackaging w config (planDstPath plan config.dstDirPath (filepathBase srcPath))
              oneTimeDone (log0 ++ [Call.imagingOpen srcPath])).2.2 ++
            [Call.imagingSave (planGeometry plan srcPath width height)
              (planPackaging w config
                (planDstPath plan config.dstDirPath (filepathBase srcPath))
                oneTimeDone (log0 ++ [Call.imagingOpen srcPath])).1]))) ∧
    processImage w srcPath config plans log =
      ((plans.foldl (processImagePlan w srcPath config) ([], false, log)).1,
       (plans.foldl (processImagePlan w srcPath config) ([], false, log)).2.2) ∧
    (∀ (pre : List ProcessPlan) (plan : ProcessPlan) (post : List ProcessPlan),
      plans = pre ++ plan :: post →
      ∃ more : List ProcessResult,
        (processImage w srcPath config plans log).1 =
            (processImagePlan w srcPath config
              (pre.foldl (processImagePlan w srcPath config) ([], false, log)) plan).1 ++ more ∧
          more.length = post.length) := by
  have hfold := processImage_foldl_length w srcPath config plans [] false log
  have hproj : (processImage w srcPath config plans log).1 =
      (plans.foldl (processImagePlan w srcPath config) ([], false, log)).1 := by
    unfold processImage
    rcases List.foldl (processImagePlan w srcPath config) ([], false, log) plans with ⟨a, b, c⟩
    rfl
  refine ⟨?_, ?_, ?_, ?_, ?_, ?_, ?_, ?_⟩
  · rw [hproj, hfold.1]
    simp
  · rw [hproj]
    exact hfold.2 (fun r hr => absurd hr (List.not_mem_nil r))
  · intro hformat
    have key := processImage_foldl_map w srcPath config
      (fun plan =>
        if plan.requiredSuffix.length > 0 ∧ hasSuffix srcPath plan.requiredSuffix = false then
          ⟨srcPath, [], false,
            some ("Source does not have required suffix: ".toList ++ plan.requiredSuffix)⟩
        else ⟨srcPath, [], true, some "Unsupported source image format".toList⟩)
      (fun _ l => l)
      (by
        intro results oneTimeDone log1 plan
        by_cases hs : plan.requiredSuffix.length > 0 ∧
            hasSuffix srcPath plan.requiredSuffix = false
        · rw [processImagePlan_skip w srcPath config results oneTimeDone log1 plan hs]
          simp only [if_pos hs]
        · rw [processImagePlan_unsupported w srcPath config results oneTimeDone log1 plan hs
            hformat]
          simp only [if_neg hs])
      plans [] false log
    unfold processImage
    rw [key]
    have hid : ∀ (ps : List ProcessPlan) (l : Log),
        List.foldl (fun (l : Log) (_ : ProcessPlan) => l) l ps = l := by
      intro ps
      induction ps with
      | nil => intro l; rfl
      | cons p ps ih => intro l; exact ih l
    simp only [List.nil_append, hid]
  · intro e hformat hopen
    have key := processImage_foldl_map w srcPath config
      (fun plan =>
        if plan.requiredSuffix.length > 0 ∧ hasSuffix srcPath plan.requiredSuffix = false then
          ⟨srcPath, [], false,
            some ("Source does not have required suffix: ".toList ++ plan.requiredSuffix)⟩
        else ⟨srcPath, planDstPath plan config.dstDirPath (filepathBase srcPath), true,
          some ("Open failed: ".toList ++ e)⟩)
      (fun plan l =>
        if plan.requiredSuffix.length > 0 ∧ hasSuffix srcPath plan.requiredSuffix = false then l
        else l ++ [Call.imagingOpen srcPath])
      (by
        intro results oneTimeDone log1 plan
        by_cases hs : plan.requiredSuffix.length > 0 ∧
            hasSuffix srcPath plan.requiredSuffix = false
        · rw [processImagePlan_skip w srcPath config results oneTimeDone log1 plan hs]
          simp only [if_pos hs]
        · rw [processImagePlan_open_failed w srcPath config results oneTimeDone log1 plan e hs
            hformat (hopen log1)]
          simp only [if_neg hs])
      plans [] false log
    unfold processImage
    rw [key]
    simp only [List.nil_append]
  · intro e hpkg hformat hopen hsave
    have key := processImage_foldl_results w srcPath config
      (fun plan =>
        if plan.requiredSuffix.length > 0 ∧ hasSuffix srcPath plan.requiredSuffix = false then
          ⟨srcPath, [], false,
            some ("Source does not have required suffix: ".toList ++ plan.requiredSuffix)⟩
        else ⟨srcPath, planDstPath plan config.dstDirPath (filepathBase srcPath), true,
          some ("Save failed: ".toList ++ e)⟩)
      (by
        intro results oneTimeDone log1 plan
        by_cases hs : plan.requiredSuffix.length > 0 ∧
            hasSuffix srcPath plan.requiredSuffix = false
        · rw [processImagePlan_skip w srcPath config results oneTimeDone log1 plan hs]
          simp only [if_pos hs]
          exact ⟨_, rfl⟩
        · obtain ⟨width, height, ho⟩ := hopen log1
          rw [processImagePlan_opened w srcPath config results oneTimeDone log1 plan width height
            hpkg hs hformat ho, hsave]
          simp only [if_neg hs]
          exact ⟨_, rfl⟩)
      plans [] false log
    rw [hproj, key]
    simp only [List.nil_append]
  · intro results oneTimeDone log0 plan
    refine ⟨?_, ?_, ?_, ?_⟩
    · intro hs
      exact processImagePlan_skip w srcPath config results oneTimeDone log0 plan hs
    · intro hs hformat
      exact processImagePlan_unsupported w srcPath config results oneTimeDone log0 plan hs hformat
    · intro hs hformat e hopen
      exact processImagePlan_open_failed w srcPath config results oneTimeDone log0 plan e hs
        hformat hopen
    · intro hs hformat width height hopen
      exact processImagePlan_packaged w srcPath config results oneTimeDone log0 plan width height
        hs hformat hopen
  · unfold processImage
    rcases List.foldl (processImagePlan w srcPath config) ([], false, log) plans with ⟨a, b, c⟩
    rfl
  · intro pre plan post hplans
    obtain ⟨more, hmore, hlen⟩ := processImage_foldl_prefix w srcPath config post
      (processImagePlan w srcPath config
        (pre.foldl (processImagePlan w srcPath config) ([], false, log)) plan)
    refine ⟨more, ?_, hlen⟩
    rw [hproj, hplans, List.foldl_append, List.foldl_cons]
    exact hmore

/-- Counterexample to C9 as stated: with a source that cannot be opened and
the two plans of the large-sticker-with-image-set preset, the second plan is
still run after the first has failed: the source is opened a second time and
a second fatal result is recorded; and a source of unsupported format gets a
fatal result from each of the two plans. -/
theorem processImage_abandons_counterexample :
    processImage openFailWorld "/in/a.png".toList { dstDirPath := "/out".toList }
        (planPreset {} presetLargeStickerWithImageSet) [] =
      ([⟨"/in/a.png".toList, "/out/a@1x.png".toList, true,
          some "Open failed: no such file".toList⟩,
        ⟨"/in/a.png".toList, "/out/a@3x.png".toList, true,
          some "Open failed: no such file".toList⟩],
       [Call.imagingOpen "/in/a.png".toList, Call.imagingOpen "/in/a.png".toList]) ∧
    processImage okWorld "/in/a.bmp".toList { dstDirPath := "/out".toList }
        (planPreset {} presetLargeStickerWithImageSet) [] =
      ([⟨"/in/a.bmp".toList, [], true, some "Unsupported source image format".toList⟩,
        ⟨"/in/a.bmp".toList, [], true, some "Unsupported source image format".toList⟩], []) := by
  constructor <;> decide

/-- Witness for C9 (amended): when no image can be saved, both plans of the
large-sticker-with-image-set preset record their own fatal result; the same
holds when the output goes into a sticker pack. -/
theorem processImage_continues_after_failure_witness :
    (processImage saveFailWorld "/in/a.png".toList { dstDirPath := "/out".toList }
        (planPreset {} presetLargeStickerWithImageSet) []).1 =
      [⟨"/in/a.png".toList, "/out/a@1x.png".toList, true, some "Save failed: disk full".toList⟩,
       ⟨"/in/a.png".toList, "/out/a@3x.png".toList, true, some "Save failed: disk full".toList⟩] ∧
    (processImagePlan saveFailWorld "/in/a.png".toList
        { dstDirPath := "/p.stickerpack".toList, outputPackage := packageStickerPack }
        ([], false, []) { boxWidth := 618, boxHeight := 618, outputFormat := formatPNG }).1 =
      [⟨"/in/a.png".toList, "/p.stickerpack/a.sticker/a.png".toList, true,
        some "Save failed: disk full".toList⟩] :=
  ⟨((processImage_continues_after_failure saveFailWorld "/in/a.png".toList
      { dstDirPath := "/out".toList } (planPreset {} presetLargeStickerWithImageSet) []).2.2.2.2.1
      "disk full".toList rfl (by decide) (fun _ => ⟨300, 200, rfl⟩) (fun _ _ _ => rfl)).trans
    (by decide),
   (congrArg Prod.fst
    (((processImage_continues_after_failure saveFailWorld "/in/a.png".toList
      { dstDirPath := "/p.stickerpack".toList, outputPackage := packageStickerPack }
      [] []).2.2.2.2.2.1 [] false []
      { boxWidth := 618, boxHeight := 618, outputFormat := formatPNG }).2.2.2
      (by decide) (by decide) 300 200 rfl)).trans (by decide)⟩

/-- A configuration that fails validation is dropped by
`processOneConfiguration` before any call is made. -/
theorem processOneConfiguration_invalid (w : World) (lib : Lib) (config : Configuration)
    (manifestFiles : List Str) (log : Log) (h : (validateConfiguration config).2 ≠ none) :
    processOneConfiguration w lib config manifestFiles log = (some (), log) := by
  unfold processOneConfiguration
  rcases hv : validateConfiguration config with ⟨c, _ | e⟩
  · rw [hv] at h
    exact absurd rfl h
  · rfl

/-- C10 at the failing input: the manifest asks for `missing.png`, which the
source directory `/in` does not hold, the replace flag is set and `/out`
holds `old.png`.  The file collector fails, and `processOneConfiguration`
still goes on to `processImages`, which lists `/out` and removes `old.png`. -/
theorem processOneConfiguration_collect_error_clears :
    collectFileList [] "/in".toList none ["missing.png".toList] =
        .error "Missing files from manifest".toList ∧
      (validateConfiguration
        { srcDirPath := "/in".toList, dstDirPath := "/out".toList,
          outputPackageReplace := true }).2 = none ∧
      processOneConfiguration staleWorld exampleLib
          { srcDirPath := "/in".toList, dstDirPath := "/out".toList, outputPackageReplace := true }
          ["missing.png".toList] [] =
        (some (),
         [Call.isDir "/in".toList, Call.shallowDirectory "/in".toList,
          Call.shallowDirectory "/out".toList, Call.osRemoveAll "/out/old.png".toList]) := by
  refine ⟨by decide, by decide, by decide⟩

/-- Whenever the file collector fails on a valid configuration whose source is
a directory, `processOneConfiguration` calls `processImages` with an empty
source list. -/
theorem processOneConfiguration_collect_error (w : World) (lib : Lib) (config : Configuration)
    (manifestFiles : List Str) (log : Log) (e : Str)
    (hvalid : (validateConfiguration config).2 = none)
    (hdir : w.isDir log config.srcDirPath = true)
    (herr : collectFileList
        (w.shallowDirectory (log ++ [Call.isDir config.srcDirPath]) config.srcDirPath)
        config.srcDirPath config.validExtensions manifestFiles = .error e) :
    processOneConfiguration w lib config manifestFiles log =
      match processImages w lib [] config
          (if config.preset ≠ presetNone then
            planPreset
              { scale := config.scale, boxWidth := config.maxWidth, boxHeight := config.maxHeight,
                outputFormat := config.outputFormat, outputPackage := config.outputPackage }
              config.preset
           else
            [{ scale := config.scale, boxWidth := config.maxWidth, boxHeight := config.maxHeight,
               outputFormat := config.outputFormat, outputPackage := config.outputPackage }])
          (log ++ [Call.isDir config.srcDirPath] ++ [Call.shallowDirectory config.srcDirPath]) with
      | (none, log1) => (none, log1)
      | (some _, log1) => (some (), log1) := by
  have hv : validateConfiguration config = (config, none) := by
    unfold validateConfiguration at hvalid ⊢
    split_ifs at hvalid ⊢
    rfl
  unfold processOneConfiguration
  simp only [hv, hdir, Bool.true_eq_false, if_false, herr]

/-! ## Preset names of the command line -/

/-- C11 at the failing input: the preset name `thumb256`, which the `--preset`
flag accepts, is not among the names `presetForString` knows (it knows
`presetThumb256`), so it gives the none preset and `configurationFromArgs`
selects no preset; the four other names of the flag give their presets. -/
theorem presetForString_thumb256 :
    presetForString "thumb256".toList = presetNone ∧
      (configurationFromArgs exampleLib { presetFlag := "thumb256".toList }).preset = presetNone ∧
      presetForString "presetThumb256".toList = presetThumb256 ∧
      presetForString "smallSticker".toList = presetSmallSticker ∧
      presetForString "mediumSticker".toList = presetMediumSticker ∧
      presetForString "largeSticker".toList = presetLargeSticker ∧
      presetForString "imageSet".toList = presetImageSet ∧
      (configurationFromArgs exampleLib { presetFlag := "imageSet".toList }).preset =
        presetImageSet := by
  refine ⟨by decide, by decide, by decide, by decide, by decide, by decide, by decide, by decide⟩

/-! ## Allowed extensions from the manifest -/

/-- C12 at the failing input: the manifest line `= valid-format, jpg` resolves
to the allowed list `jpg` alone, with which `collectFileList` rejects the
listed file `a.jpeg`; the same selection given by the `--valid-format` flag
resolves to `jpg, jpeg` and the file is collected. -/
theorem processManifestSettings_valid_format_no_alias :
    (readManifest ["= valid-format, jpg".toList, "a.jpeg".toList]) =
        [{ files := ["a.jpeg".toList],
           settings := [{ key := "valid-format".toList, values := ["jpg".toList] }] }] ∧
      (processManifestSettings exampleLib (configurationFromArgs exampleLib {})
          [{ key := "valid-format".toList, values := ["jpg".toList] }]).map
          (fun c => c.validExtensions) = some (some ["jpg".toList]) ∧
      collectFileList ["a.jpeg".toList] "/in".toList (some ["jpg".toList]) ["a.jpeg".toList] =
        .error "Missing files from manifest".toList ∧
      collectFileList ["a.jpeg".toList] "/in".toList (some ["jpg".toList]) [] = .ok [] ∧
      (configurationFromArgs exampleLib { validTypesFlag := some ["jpg".toList] }).validExtensions =
        some ["jpg".toList, "jpeg".toList] ∧
      collectFileList ["a.jpeg".toList] "/in".toList (some ["jpg".toList, "jpeg".toList])
          ["a.jpeg".toList] = .ok ["/in/a.jpeg".toList] := by
  refine ⟨by decide, by decide, by decide, by decide, by decide, by decide⟩

/-! ## Manifest settings -/

/-- What one setting with a first value `v` does, key by key. -/
theorem processManifestSetting_effect (lib : Lib) (c : Configuration) (s : ManifestSetting)
    (v : Str) (vs : List Str) (hv : s.values = v :: vs) :
    (s.key = "src".toList →
      processManifestSetting lib c s = some { c with srcDirPath := settingPath lib c v }) ∧
    (s.key = "dst".toList →
      processManifestSetting lib c s = some { c with dstDirPath := settingPath lib c v }) ∧
    (s.key = "preset".toList →
      processManifestSetting lib c s =
        some { c with preset :=
          if presetForString v ≠ presetNone then presetForString v else c.preset }) ∧
    (s.key = "valid-format".toList →
      processManifestSetting lib c s = some { c with validExtensions := some s.values }) ∧
    (s.key = "out-manifest".toList →
      processManifestSetting lib c s = some { c with outManifest := settingPath lib c v }) ∧
    (s.key = "out-format".toList →
      processManifestSetting lib c s =
        some { c with outputFormat :=
          if formatForString v ≠ formatUnchanged then formatForString v else c.outputFormat }) ∧
    (s.key = "out-package".toList →
      processManifestSetting lib c s =
        some { c with outputPackage :=
          if packageForString v ≠ packageNone then packageForString v else c.outputPackage }) ∧
    (s.key = "out-package-replace".toList →
      processManifestSetting lib c s = some { c with outputPackageReplace := lib.parseBool v }) ∧
    (s.key = "scale".toList →
      processManifestSetting lib c s = some { c with scale := lib.parseFloat v }) ∧
    (s.key = "max-px".toList →
      processManifestSetting lib c s = some { c with maxHeight := lib.atoi v }) ∧
    (s.key = "max-width-px".toList →
      processManifestSetting lib c s = some { c with maxWidth := lib.atoi v }) ∧
    (s.key = "max-height-px".toList →
      processManifestSetting lib c s = some { c with maxHeight := lib.atoi v }) := by
  refine ⟨?_, ?_, ?_, ?_, ?_, ?_, ?_, ?_, ?_, ?_, ?_, ?_⟩ <;> intro hk
  · simp [processManifestSetting, hk, hv]
  · simp [processManifestSetting, hk, hv]
  · by_cases h : presetForString v = presetNone <;> simp [processManifestSetting, hk, hv, h]
  · simp [processManifestSetting, hk, hv]
  · simp [processManifestSetting, hk, hv]
  · by_cases h : formatForString v = formatUnchanged <;> simp [processManifestSetting, hk, hv, h]
  · by_cases h : packageForString v = packageNone <;> simp [processManifestSetting, hk, hv, h]
  · simp [processManifestSetting, hk, hv]
  · simp [processManifestSetting, hk, hv]
  · simp [processManifestSetting, hk, hv]
  · simp [processManifestSetting, hk, hv]
  · simp [processManifestSetting, hk, hv]

/-- A setting with an unrecognised key leaves the configuration as it is. -/
theorem processManifestSetting_unknown (lib : Lib) (c : Configuration) (s : ManifestSetting)
    (hk : s.key ∉ settingKeys) : processManifestSetting lib c s = some c := by
  simp only [settingKeys, List.mem_cons, List.mem_singleton, List.not_mem_nil, or_false,
    not_or] at hk
  obtain ⟨h1, h2, h3, h4, h5, h6, h7, h8, h9, h10, h11, h12⟩ := hk
  simp only [processManifestSetting, if_neg h1, if_neg h2, if_neg h3, if_neg h4, if_neg h5,
    if_neg h6, if_neg h7, if_neg h8, if_neg h9, if_neg h10, if_neg h11, if_neg h12]
  rfl

/-- A setting with at least one value is applied without panic. -/
theorem processManifestSetting_isSome (lib : Lib) (c : Configuration) (s : ManifestSetting)
    (hv : s.values ≠ []) : ∃ c1, processManifestSetting lib c s = some c1 := by
  rcases hvs : s.values with _ | ⟨v, vs⟩
  · exact absurd hvs hv
  · have h := processManifestSetting_effect lib c s v vs hvs
    by_cases hk : s.key ∈ settingKeys
    · simp only [settingKeys, List.mem_cons, List.mem_singleton, List.not_mem_nil, or_false] at hk
      rcases hk with k | k | k | k | k | k | k | k | k | k | k | k
      · exact ⟨_, h.1 k⟩
      · exact ⟨_, h.2.1 k⟩
      · exact ⟨_, h.2.2.1 k⟩
      · exact ⟨_, h.2.2.2.1 k⟩
      · exact ⟨_, h.2.2.2.2.1 k⟩
      · exact ⟨_, h.2.2.2.2.2.1 k⟩
      · exact ⟨_, h.2.2.2.2.2.2.1 k⟩
      · exact ⟨_, h.2.2.2.2.2.2.2.1 k⟩
      · exact ⟨_, h.2.2.2.2.2.2.2.2.1 k⟩
      · exact ⟨_, h.2.2.2.2.2.2.2.2.2.1 k⟩
      · exact ⟨_, h.2.2.2.2.2.2.2.2.2.2.1 k⟩
      · exact ⟨_, h.2.2.2.2.2.2.2.2.2.2.2 k⟩
    · exact ⟨c, processManifestSetting_unknown lib c s hk⟩

/-- The settings are applied one after the other: the last setting of a list
is applied to what the settings before it gave. -/
theorem processManifestSettings_append (lib : Lib) (c : Configuration)
    (pre : List ManifestSetting) (s : ManifestSetting) :
    processManifestSettings lib c (pre ++ [s]) =
      (processManifestSettings lib c pre).bind (fun c1 => processManifestSetting lib c1 s) := by
  induction pre generalizing c with
  | nil =>
    simp only [List.nil_append, processManifestSettings, Option.some_bind]
    cases processManifestSetting lib c s <;> rfl
  | cons p rest ih =>
    simp only [List.cons_append, processManifestSettings]
    cases processManifestSetting lib c p with
    | none => rfl
    | some c1 => exact ih c1

/-- Settings that all have a value are applied without panic. -/
theorem processManifestSettings_isSome (lib : Lib) (c : Configuration)
    (settings : List ManifestSetting) (hv : ∀ s ∈ settings, s.values ≠ []) :
    ∃ c1, processManifestSettings lib c settings = some c1 := by
  induction settings generalizing c with
  | nil => exact ⟨c, rfl⟩
  | cons s rest ih =>
    obtain ⟨c1, h1⟩ := processManifestSetting_isSome lib c s (hv s (List.mem_cons_self _ _))
    obtain ⟨c2, h2⟩ := ih c1 (fun t ht => hv t (List.mem_cons_of_mem _ ht))
    exact ⟨c2, by simp only [processManifestSettings, h1, h2]⟩

/-- Every setting that `readManifest` emits has at least one value. -/
theorem readManifest_values_ne_nil (lines : List Str) :
    ∀ b ∈ readManifest lines, ∀ s ∈ b.settings, s.values ≠ [] := by
  intro b hb s hs
  rw [readManifest_eq_segments, List.mem_map] at hb
  obtain ⟨seg, _, rfl⟩ := hb
  simp only [blockOfSegment, List.mem_filterMap] at hs
  obtain ⟨line, _, hline⟩ := hs
  unfold settingOfLine at hline
  split at hline
  · split at hline
    · simp only [Option.some.injEq] at hline
      rw [← hline]
      simp
    · exact absurd hline (by simp)
  · exact absurd hline (by simp)

/-- Of two settings in a row for the same key, among the keys that assign
their value as it is, the second one decides. -/
theorem processManifestSettings_later_wins (lib : Lib) (c : Configuration)
    (s1 s2 : ManifestSetting) (h1 : s1.values ≠ []) (h2 : s2.values ≠ [])
    (hkey : s1.key = s2.key)
    (hk : s2.key ∈ ["src".toList, "dst".toList, "valid-format".toList, "out-manifest".toList,
      "out-package-replace".toList, "scale".toList, "max-px".toList, "max-width-px".toList,
      "max-height-px".toList]) :
    processManifestSettings lib c [s1, s2] = processManifestSettings lib c [s2] := by
  rcases hv1 : s1.values with _ | ⟨v1, vs1⟩
  · exact absurd hv1 h1
  rcases hv2 : s2.values with _ | ⟨v2, vs2⟩
  · exact absurd hv2 h2
  have e1 := processManifestSetting_effect lib c s1 v1 vs1 hv1
  have e2 := fun c1 => processManifestSetting_effect lib c1 s2 v2 vs2 hv2
  simp only [List.mem_cons, List.mem_singleton, List.not_mem_nil, or_false] at hk
  simp only [processManifestSettings]
  rcases hk with k | k | k | k | k | k | k | k | k
  · simp only [e1.1 (hkey.trans k), fun c1 => (e2 c1).1 k]
    try rfl
  · simp only [e1.2.1 (hkey.trans k), fun c1 => (e2 c1).2.1 k]
    try rfl
  · simp only [e1.2.2.2.1 (hkey.trans k), fun c1 => (e2 c1).2.2.2.1 k]
    try rfl
  · simp only [e1.2.2.2.2.1 (hkey.trans k), fun c1 => (e2 c1).2.2.2.2.1 k]
    try rfl
  · simp only [e1.2.2.2.2.2.2.2.1 (hkey.trans k), fun c1 => (e2 c1).2.2.2.2.2.2.2.1 k]
    try rfl
  · simp only [e1.2.2.2.2.2.2.2.2.1 (hkey.trans k), fun c1 => (e2 c1).2.2.2.2.2.2.2.2.1 k]
    try rfl
  · simp only [e1.2.2.2.2.2.2.2.2.2.1 (hkey.trans k), fun c1 => (e2 c1).2.2.2.2.2.2.2.2.2.1 k]
    try rfl
  · simp only [e1.2.2.2.2.2.2.2.2.2.2.1 (hkey.trans k), fun c1 => (e2 c1).2.2.2.2.2.2.2.2.2.2.1 k]
    try rfl
  · simp only [e1.2.2.2.2.2.2.2.2.2.2.2 (hkey.trans k), fun c1 => (e2 c1).2.2.2.2.2.2.2.2.2.2.2 k]
    try rfl

/-- Two settings in a row for one of the keys `preset`, `out-format` and
`out-package`: the field gets the value of the second when it is a known
name, else the value of the first when that is a known name, else it stays as
it was. -/
theorem processManifestSettings_named_twice (lib : Lib) (c : Configuration)
    (s1 s2 : ManifestSetting) (v1 v2 : Str) (vs1 vs2 : List Str)
    (h1 : s1.values = v1 :: vs1) (h2 : s2.values = v2 :: vs2) (hkey : s1.key = s2.key) :
    (s2.key = "preset".toList →
      processManifestSettings lib c [s1, s2] =
        some { c with preset :=
          if presetForString v2 ≠ presetNone then presetForString v2
          else if presetForString v1 ≠ presetNone then presetForString v1 else c.preset }) ∧
    (s2.key = "out-format".toList →
      processManifestSettings lib c [s1, s2] =
        some { c with outputFormat :=
          if formatForString v2 ≠ formatUnchanged then formatForString v2
          else if formatForString v1 ≠ formatUnchanged then formatForString v1
          else c.outputFormat }) ∧
    (s2.key = "out-package".toList →
      processManifestSettings lib c [s1, s2] =
        some { c with outputPackage :=
          if packageForString v2 ≠ packageNone then packageForString v2
          else if packageForString v1 ≠ packageNone then packageForString v1
          else c.outputPackage }) := by
  have e1 := processManifestSetting_effect lib c s1 v1 vs1 h1
  have e2 := fun c1 => processManifestSetting_effect lib c1 s2 v2 vs2 h2
  refine ⟨?_, ?_, ?_⟩ <;> intro k
  · simp only [processManifestSettings, e1.2.2.1 (hkey.trans k), fun c1 => (e2 c1).2.2.1 k]
  · simp only [processManifestSettings, e1.2.2.2.2.2.1 (hkey.trans k),
      fun c1 => (e2 c1).2.2.2.2.2.1 k]
  · simp only [processManifestSettings, e1.2.2.2.2.2.2.1 (hkey.trans k),
      fun c1 => (e2 c1).2.2.2.2.2.2.1 k]

/-- The keys `max-px` and `max-height-px` assign the same field: of two such
settings in a row the second decides. -/
theorem processManifestSettings_max_height_twice (lib : Lib) (c : Configuration)
    (s1 s2 : ManifestSetting) (v1 v2 : Str) (vs1 vs2 : List Str)
    (h1 : s1.values = v1 :: vs1) (h2 : s2.values = v2 :: vs2)
    (hk1 : s1.key = "max-px".toList ∨ s1.key = "max-height-px".toList)
    (hk2 : s2.key = "max-px".toList ∨ s2.key = "max-height-px".toList) :
    processManifestSettings lib c [s1, s2] = some { c with maxHeight := lib.atoi v2 } := by
  have e1 := processManifestSetting_effect lib c s1 v1 vs1 h1
  have e2 := fun c1 => processManifestSetting_effect lib c1 s2 v2 vs2 h2
  rcases hk1 with k1 | k1 <;> rcases hk2 with k2 | k2
  · simp only [processManifestSettings, e1.2.2.2.2.2.2.2.2.2.1 k1,
      fun c1 => (e2 c1).2.2.2.2.2.2.2.2.2.1 k2]
  · simp only [processManifestSettings, e1.2.2.2.2.2.2.2.2.2.1 k1,
      fun c1 => (e2 c1).2.2.2.2.2.2.2.2.2.2.2 k2]
  · simp only [processManifestSettings, e1.2.2.2.2.2.2.2.2.2.2.2 k1,
      fun c1 => (e2 c1).2.2.2.2.2.2.2.2.2.1 k2]
  · simp only [processManifestSettings, e1.2.2.2.2.2.2.2.2.2.2.2 k1,
      fun c1 => (e2 c1).2.2.2.2.2.2.2.2.2.2.2 k2]

/-- C13 (amended): settings that each have a value (as every setting
emitted by `readManifest` has) are applied in list order, the last one on top
of what the ones before it gave.  Of two settings in a row that assign the
same field the second decides, except that for `preset`, `out-format` and
`out-package` a second value that is not a known name changes nothing, so
that the field keeps what the first gave.  One setting changes at most the
field of its key: `src`, `dst` and `out-manifest` assign the resolved path,
`valid-format` the value list, `out-package-replace`, `scale`, `max-width-px`
and `max-height-px` the parsed value; `preset`, `out-format` and
`out-package` assign the value when it is a known name and change nothing
otherwise; `max-px` assigns the parsed value to `maxHeight` and leaves
`maxWidth` as it was; a setting with any other key leaves the configuration
unchanged. -/
theorem processManifestSettings_frame (lib : Lib) (config : Configuration)
    (settings : List ManifestSetting) (hvalues : ∀ s ∈ settings, s.values ≠ []) :
    (∃ resolved, processManifestSettings lib config settings = some resolved) ∧
    (∀ pre s, settings = pre ++ [s] →
      processManifestSettings lib config settings =
        (processManifestSettings lib config pre).bind
          (fun c1 => processManifestSetting lib c1 s)) ∧
    (∀ (c : Configuration) (s1 s2 : ManifestSetting), s1.values ≠ [] → s2.values ≠ [] →
      s1.key = s2.key →
      s2.key ∈ ["src".toList, "dst".toList, "valid-format".toList, "out-manifest".toList,
        "out-package-replace".toList, "scale".toList, "max-px".toList, "max-width-px".toList,
        "max-height-px".toList] →
      processManifestSettings lib c [s1, s2] = processManifestSettings lib c [s2]) ∧
    (∀ (c : Configuration) (s1 s2 : ManifestSetting) (v1 v2 : Str) (vs1 vs2 : List Str),
      s1.values = v1 :: vs1 → s2.values = v2 :: vs2 →
      (s1.key = "max-px".toList ∨ s1.key = "max-height-px".toList) →
      (s2.key = "max-px".toList ∨ s2.key = "max-height-px".toList) →
      processManifestSettings lib c [s1, s2] = some { c with maxHeight := lib.atoi v2 }) ∧
    (∀ (c : Configuration) (s1 s2 : ManifestSetting) (v1 v2 : Str) (vs1 vs2 : List Str),
      s1.values = v1 :: vs1 → s2.values = v2 :: vs2 → s1.key = s2.key →
      (s2.key = "preset".toList →
        processManifestSettings lib c [s1, s2] =
          some { c with preset :=
            if presetForString v2 ≠ presetNone then presetForString v2
            else if presetForString v1 ≠ presetNone then presetForString v1 else c.preset }) ∧
      (s2.key = "out-format".toList →
        processManifestSettings lib c [s1, s2] =
          some { c with outputFormat :=
            if formatForString v2 ≠ formatUnchanged then formatForString v2
            else if formatForString v1 ≠ formatUnchanged then formatForString v1
            else c.outputFormat }) ∧
      (s2.key = "out-package".toList →
        processManifestSettings lib c [s1, s2] =
          some { c with outputPackage :=
            if packageForString v2 ≠ packageNone then packageForString v2
            else if packageForString v1 ≠ packageNone then packageForString v1
            else c.outputPackage })) ∧
    (∀ (c : Configuration) (s : ManifestSetting) (v : Str) (vs : List Str), s.values = v :: vs →
      (s.key = "src".toList →
        processManifestSetting lib c s = some { c with srcDirPath := settingPath lib c v }) ∧
      (s.key = "dst".toList →
        processManifestSetting lib c s = some { c with dstDirPath := settingPath lib c v }) ∧
      (s.key = "preset".toList →
        processManifestSetting lib c s =
          some { c with preset :=
            if presetForString v ≠ presetNone then presetForString v else c.preset }) ∧
      (s.key = "valid-format".toList →
        processManifestSetting lib c s = some { c with validExtensions := some s.values }) ∧
      (s.key = "out-manifest".toList →
        processManifestSetting lib c s = some { c with outManifest := settingPath lib c v }) ∧
      (s.key = "out-format".toList →
        processManifestSetting lib c s =
          some { c with outputFormat :=
            if formatForString v ≠ formatUnchanged then formatForString v else c.outputFormat }) ∧
      (s.key = "out-package".toList →
        processManifestSetting lib c s =
          some { c with outputPackage :=
            if packageForString v ≠ packageNone then packageForString v else c.outputPackage }) ∧
      (s.key = "out-package-replace".toList →
        processManifestSetting lib c s = some { c with outputPackageReplace := lib.parseBool v }) ∧
      (s.key = "scale".toList →
        processManifestSetting lib c s = some { c with scale := lib.parseFloat v }) ∧
      (s.key = "max-px".toList →
        processManifestSetting lib c s = some { c with maxHeight := lib.atoi v }) ∧
      (s.key = "max-width-px".toList →
        processManifestSetting lib c s = some { c with maxWidth := lib.atoi v }) ∧
      (s.key = "max-height-px".toList →
        processManifestSetting lib c s = some { c with maxHeight := lib.atoi v })) ∧
    (∀ (c : Configuration) (s : ManifestSetting), s.key ∉ settingKeys →
      processManifestSetting lib c s = some c) := by
  refine ⟨processManifestSettings_isSome lib config settings hvalues, ?_, ?_, ?_, ?_, ?_, ?_⟩
  · intro pre s hs
    rw [hs]
    exact processManifestSettings_append lib config pre s
  · intro c s1 s2 h1 h2 hkey hk
    exact processManifestSettings_later_wins lib c s1 s2 h1 h2 hkey hk
  · intro c s1 s2 v1 v2 vs1 vs2 h1 h2 hk1 hk2
    exact processManifestSettings_max_height_twice lib c s1 s2 v1 v2 vs1 vs2 h1 h2 hk1 hk2
  · intro c s1 s2 v1 v2 vs1 vs2 h1 h2 hkey
    exact processManifestSettings_named_twice lib c s1 s2 v1 v2 vs1 vs2 h1 h2 hkey
  · intro c s v vs hv
    exact processManifestSetting_effect lib c s v vs hv
  · intro c s hk
    exact processManifestSetting_unknown lib c s hk

/-- Counterexample to C13 as stated: the manifest lines `= preset, imageSet`
and `= preset, bogus` give two settings for the preset field, and the
resolved preset is the one of the first: the later setting does not win, it
changes nothing, as it does on its own.  And a setting `src` without a value,
which a settings list may hold, makes `processManifestSettings` panic. -/
theorem processManifestSettings_later_loses_counterexample :
    (readManifest ["= preset, imageSet".toList, "= preset, bogus".toList]).map
        Manifest.settings =
      [[{ key := "preset".toList, values := ["imageSet".toList] },
        { key := "preset".toList, values := ["bogus".toList] }]] ∧
    processManifestSettings exampleLib {}
        [{ key := "preset".toList, values := ["imageSet".toList] },
         { key := "preset".toList, values := ["bogus".toList] }] =
      some { preset := presetImageSet } ∧
    processManifestSettings exampleLib {}
        [{ key := "preset".toList, values := ["bogus".toList] }] = some {} ∧
    processManifestSettings exampleLib {} [{ key := "src".toList, values := [] }] = none := by
  refine ⟨by decide, by decide!, by decide!, by decide⟩

/-- Witness for C13 (amended): the settings of the manifest lines `= max-px, 100`,
`= colour, red` and `= scale, 2` change `maxHeight` and `scale` only, and
`maxWidth` stays 0. -/
theorem processManifestSettings_frame_witness :
    (readManifest ["= max-px, 100".toList, "= colour, red".toList, "= scale, 2".toList]).map
        Manifest.settings =
      [[{ key := "max-px".toList, values := ["100".toList] },
        { key := "colour".toList, values := ["red".toList] },
        { key := "scale".toList, values := ["2".toList] }]] ∧
    processManifestSettings exampleLib { srcDirPath := "/in".toList, dstDirPath := "/out".toList }
        [{ key := "max-px".toList, values := ["100".toList] },
         { key := "colour".toList, values := ["red".toList] },
         { key := "scale".toList, values := ["2".toList] }] =
      some { srcDirPath := "/in".toList, dstDirPath := "/out".toList, maxHeight := 100, maxWidth := 0,
             scale := 2 } :=
  ⟨by decide,
   ((processManifestSettings_frame exampleLib
      { srcDirPath := "/in".toList, dstDirPath := "/out".toList }
      [{ key := "max-px".toList, values := ["100".toList] },
       { key := "colour".toList, values := ["red".toList] },
       { key := "scale".toList, values := ["2".toList] }]
      (by decide)).2.1
      [{ key := "max-px".toList, values := ["100".toList] },
       { key := "colour".toList, values := ["red".toList] }]
      { key := "scale".toList, values := ["2".toList] } rfl).trans (by decide)⟩

/-! ## Destination container names -/

/-- C14 (amended): `processImages` returns the error, with no results and
without any call (nothing is cleared, no image is processed), when the kind
is stickerpack and the destination does not end in `.stickerpack`, when it is
iconset and the destination ends in neither `.stickersiconset` nor
`.appiconset`, when it is icns and the destination does not end in `.icns`,
and when it is catalog with the image-set-for-large-sticker preset and the
destination does not end in `.xcassets`. -/
theorem processImages_destination_contract (w : World) (lib : Lib) (srcPaths : List Str)
    (config : Configuration) (plans : List ProcessPlan) (log : Log) :
    (config.outputPackage = packageStickerPack →
      stringsHasSuffix config.dstDirPath ".stickerpack".toList = false →
      processImages w lib srcPaths config plans log =
        (some (.error ("Destination (".toList ++ config.dstDirPath ++
          ") is not a .stickerpack directory".toList)), log)) ∧
    (config.outputPackage = packageIconSet →
      stringsHasSuffix config.dstDirPath ".stickersiconset".toList = false →
      stringsHasSuffix config.dstDirPath ".appiconset".toList = false →
      processImages w lib srcPaths config plans log =
        (some (.error ("Destination (".toList ++ config.dstDirPath ++
          ") is not a .stickersiconset or .appiconset directory".toList)), log)) ∧
    (config.outputPackage = packageIcns →
      stringsHasSuffix config.dstDirPath ".icns".toList = false →
      processImages w lib srcPaths config plans log =
        (some (.error ("Destination (".toList ++ config.dstDirPath ++
          ") is not a .icns directory".toList)), log)) ∧
    (config.outputPackage = packageCatalog → config.preset = presetImageSetForLargeSticker →
      stringsHasSuffix config.dstDirPath ".xcassets".toList = false →
      processImages w lib srcPaths config plans log =
        (some (.error ("Destination (".toList ++ config.dstDirPath ++
          ") is not a .xcassets directory".toList)), log)) := by
  refine ⟨?_, ?_, ?_, ?_⟩
  · intro hp hs
    simp only [processImages, if_pos hp, if_pos hs]
  · intro hp hs1 hs2
    have h1 : config.outputPackage ≠ packageStickerPack := by rw [hp]; decide
    simp only [processImages, if_neg h1, if_pos hp, if_pos (And.intro hs1 hs2)]
  · intro hp hs
    have h1 : config.outputPackage ≠ packageStickerPack := by rw [hp]; decide
    have h2 : config.outputPackage ≠ packageIconSet := by rw [hp]; decide
    simp only [processImages, if_neg h1, if_neg h2, if_pos hp, if_pos hs]
  · intro hp hpre hs
    have h1 : config.outputPackage ≠ packageStickerPack := by rw [hp]; decide
    have h2 : config.outputPackage ≠ packageIconSet := by rw [hp]; decide
    have h3 : config.outputPackage ≠ packageIcns := by rw [hp]; decide
    simp only [processImages, if_neg h1, if_neg h2, if_neg h3, if_pos (And.intro hp hpre),
      if_pos hs]

/-- Counterexample to C14 as stated: with the kind catalog, no preset, the
replace flag and the destination `/out`, which does not end in `.xcassets`,
`processImages` returns no error: it clears `/out` (removing `old.png`) and
processes the source. -/
theorem processImages_catalog_counterexample :
    stringsHasSuffix "/out".toList ".xcassets".toList = false ∧
      processImages staleWorld exampleLib ["/in/a.png".toList]
          { dstDirPath := "/out".toList, outputPackage := packageCatalog,
            outputPackageReplace := true }
          [{ outputPackage := packageCatalog }] [] =
        (some (.ok [⟨"/in/a.png".toList, "/out/a.png".toList, false, none⟩]),
         [Call.shallowDirectory "/out".toList, Call.osRemoveAll "/out/old.png".toList,
          Call.imagingOpen "/in/a.png".toList,
          Call.imagingSave (Image.opened "/in/a.png".toList 300 200) "/out/a.png".toList]) := by
  constructor
  · decide
  · decide

/-- Witness for C14 (amended): a sticker pack destination named `/out` is
refused before anything is done. -/
theorem processImages_destination_contract_witness :
    processImages staleWorld exampleLib ["/in/a.png".toList]
        { dstDirPath := "/out".toList, outputPackage := packageStickerPack,
          outputPackageReplace := true }
        [{ outputPackage := packageStickerPack }] [] =
      (some (.error "Destination (/out) is not a .stickerpack directory".toList), []) :=
  ((processImages_destination_contract staleWorld exampleLib ["/in/a.png".toList]
      { dstDirPath := "/out".toList, outputPackage := packageStickerPack,
        outputPackageReplace := true }
      [{ outputPackage := packageStickerPack }] []).1 rfl (by decide)).trans (by decide)

/-! ## Sticker pack -/

theorem PackFiles.replay_append (fs : PackFiles) (l1 l2 : Log) :
    fs.replay (l1 ++ l2) = (fs.replay l1).replay l2 := by
  simp [PackFiles.replay, List.foldl_append]

/-- The calls of `insertStickerToPack` when the sidecar of the pack is read
without error, and the path it returns. -/
theorem insertStickerToPack_calls (w : World) (log : Log)
    (newStickerPath packDirPath filename : Str) (contents : StickerpackContents)
    (hsplit : filepathSplit newStickerPath = (packDirPath, filename))
    (hread : w.readStickerpackContents log (filepathJoin packDirPath "Contents.json".toList) =
      (contents, none)) :
    insertStickerToPack w newStickerPath log =
      (filepathJoin (filepathJoin packDirPath (changeExtension filename ".sticker".toList))
          filename,
       log ++
        [Call.readStickerpackContents (filepathJoin packDirPath "Contents.json".toList),
         Call.osMkdir (filepathJoin packDirPath (changeExtension filename ".sticker".toList)),
         Call.writeStickerContents
           (filepathJoin (filepathJoin packDirPath (changeExtension filename ".sticker".toList))
             "Contents.json".toList)
           { Info := { Version := 1, Author := "xcode".toList },
             Properties := { Filename := filename } },
         Call.writeStickerpackContents (filepathJoin packDirPath "Contents.json".toList)
           { contents with
             Stickers := contents.Stickers ++
               [{ Filename := changeExtension filename ".sticker".toList }] }]) := by
  simp only [insertStickerToPack, hsplit, hread, List.append_assoc, List.singleton_append,
    List.cons_append, List.nil_append]

/-- The calls of `insertStickerToPack` when the sidecar of the pack cannot be
read: nothing is made or written and the empty path is returned. -/
theorem insertStickerToPack_unreadable (w : World) (log : Log)
    (newStickerPath packDirPath filename : Str) (contents : StickerpackContents) (e : Str)
    (hsplit : filepathSplit newStickerPath = (packDirPath, filename))
    (hread : w.readStickerpackContents log (filepathJoin packDirPath "Contents.json".toList) =
      (contents, some e)) :
    insertStickerToPack w newStickerPath log =
      ([], log ++
        [Call.readStickerpackContents (filepathJoin packDirPath "Contents.json".toList)]) := by
  simp only [insertStickerToPack, hsplit, hread]

/-- The state that the four calls of `insertStickerToPack` leave. -/
theorem PackFiles.replay_insert (fs : PackFiles) (contentsPath stickerDirPath : Str)
    (stickerContentsPath : Str) (stickerContents : StickerContents)
    (newContents : StickerpackContents) :
    fs.replay
        [Call.readStickerpackContents contentsPath, Call.osMkdir stickerDirPath,
         Call.writeStickerContents stickerContentsPath stickerContents,
         Call.writeStickerpackContents contentsPath newContents] =
      { dirs := if stickerDirPath ∈ fs.dirs then fs.dirs else fs.dirs ++ [stickerDirPath],
        packSidecars := (contentsPath, newContents) ::
          fs.packSidecars.filter (fun e => e.1 ≠ contentsPath),
        stickerSidecars := (stickerContentsPath, stickerContents) ::
          fs.stickerSidecars.filter (fun e => e.1 ≠ stickerContentsPath) } := by
  by_cases h : stickerDirPath ∈ fs.dirs <;> simp [PackFiles.replay, PackFiles.apply, h]

/-- The number of records of a sub-container after one record is appended. -/
theorem recordCount_append (packDirPath : Str) (stickers : List StickerpackContentsSticker)
    (record : Str) (d : Str) :
    ((stickers ++ [({ Filename := record } : StickerpackContentsSticker)]).filter
        (fun s => decide (filepathJoin packDirPath s.Filename = d))).length =
      (stickers.filter (fun s => decide (filepathJoin packDirPath s.Filename = d))).length +
        (if filepathJoin packDirPath record = d then 1 else 0) := by
  rw [List.filter_append, List.length_append]
  by_cases h : filepathJoin packDirPath record = d
  · simp [List.filter_cons, h]
  · simp [List.filter_cons, h]

/-- C15 (amended): when the sidecar of the pack can be read,
`insertStickerToPack` makes the sub-container `<name>.sticker`, writes its
sidecar with the image name as filename property and appends the record
`<name>.sticker` to the sidecar of the pack; in the state this leaves, the
sub-container exists and both sidecars hold what was written.  When the pack
was consistent and held no sub-container of that name, it is consistent
again; when it held one already, the record is appended all the same and that
sub-container then has two records. -/
theorem insertStickerToPack_consistent (fs0 : PackFiles) (log : Log)
    (newStickerPath packDirPath filename : Str) (contents : StickerpackContents)
    (hsplit : filepathSplit newStickerPath = (packDirPath, filename))
    (hread : (fs0.replay log).packSidecars.lookup
      (filepathJoin packDirPath "Contents.json".toList) = some contents) :
    insertStickerToPack (packWorld fs0) newStickerPath log =
      (filepathJoin (filepathJoin packDirPath (changeExtension filename ".sticker".toList))
          filename,
       log ++
        [Call.readStickerpackContents (filepathJoin packDirPath "Contents.json".toList),
         Call.osMkdir (filepathJoin packDirPath (changeExtension filename ".sticker".toList)),
         Call.writeStickerContents
           (filepathJoin (filepathJoin packDirPath (changeExtension filename ".sticker".toList))
             "Contents.json".toList)
           { Info := { Version := 1, Author := "xcode".toList },
             Properties := { Filename := filename } },
         Call.writeStickerpackContents (filepathJoin packDirPath "Contents.json".toList)
           { contents with
             Stickers := contents.Stickers ++
               [{ Filename := changeExtension filename ".sticker".toList }] }]) ∧
    (fs0.replay (insertStickerToPack (packWorld fs0) newStickerPath log).2).packSidecars.lookup
        (filepathJoin packDirPath "Contents.json".toList) =
      some { contents with
        Stickers := contents.Stickers ++
          [{ Filename := changeExtension filename ".sticker".toList }] } ∧
    filepathJoin packDirPath (changeExtension filename ".sticker".toList) ∈
      (fs0.replay (insertStickerToPack (packWorld fs0) newStickerPath log).2).dirs ∧
    (fs0.replay (insertStickerToPack (packWorld fs0) newStickerPath log).2).stickerSidecars.lookup
        (filepathJoin (filepathJoin packDirPath (changeExtension filename ".sticker".toList))
          "Contents.json".toList) =
      some { Info := { Version := 1, Author := "xcode".toList },
             Properties := { Filename := filename } } ∧
    (packConsistent (fs0.replay log) packDirPath →
      filepathJoin packDirPath (changeExtension filename ".sticker".toList) ∉
        (fs0.replay log).dirs →
      packConsistent (fs0.replay (insertStickerToPack (packWorld fs0) newStickerPath log).2)
        packDirPath) ∧
    (packConsistent (fs0.replay log) packDirPath →
      filepathJoin packDirPath (changeExtension filename ".sticker".toList) ∈
        (fs0.replay log).dirs →
      ((contents.Stickers ++
          [({ Filename := changeExtension filename ".sticker".toList } :
            StickerpackContentsSticker)]).filter
        (fun s => decide (filepathJoin packDirPath s.Filename =
          filepathJoin packDirPath (changeExtension filename ".sticker".toList)))).length = 2) := by
  have hw : (packWorld fs0).readStickerpackContents log
      (filepathJoin packDirPath "Contents.json".toList) = (contents, none) := by
    simp only [packWorld, PackFiles.readPack, hread]
  have hcalls := insertStickerToPack_calls (packWorld fs0) log newStickerPath packDirPath filename
    contents hsplit hw
  have hafter := PackFiles.replay_insert (fs0.replay log)
    (filepathJoin packDirPath "Contents.json".toList)
    (filepathJoin packDirPath (changeExtension filename ".sticker".toList))
    (filepathJoin (filepathJoin packDirPath (changeExtension filename ".sticker".toList))
      "Contents.json".toList)
    { Info := { Version := 1, Author := "xcode".toList }, Properties := { Filename := filename } }
    { contents with
      Stickers := contents.Stickers ++
        [{ Filename := changeExtension filename ".sticker".toList }] }
  rw [hcalls]
  simp only [PackFiles.replay_append, hafter]
  refine ⟨trivial, ?_, ?_, ?_, ?_, ?_⟩
  · simp [List.lookup]
  · by_cases h : filepathJoin packDirPath (changeExtension filename ".sticker".toList) ∈
        (fs0.replay log).dirs
    · rw [if_pos h]
      exact h
    · rw [if_neg h]
      exact List.mem_append_right _ (List.mem_singleton.2 rfl)
  · simp [List.lookup]
  · rintro ⟨c0, hc0, hone, hall⟩ hfresh
    rw [hread] at hc0
    cases hc0
    refine ⟨{ contents with
      Stickers := contents.Stickers ++
        [{ Filename := changeExtension filename ".sticker".toList }] },
      by simp [List.lookup], ?_, ?_⟩
    · intro d hd
      rw [if_neg hfresh, List.mem_append, List.mem_singleton] at hd
      rw [recordCount_append]
      rcases hd with hd | hd
      · have hne : filepathJoin packDirPath (changeExtension filename ".sticker".toList) ≠ d := by
          intro h
          exact hfresh (h ▸ hd)
        rw [hone d hd, if_neg hne]
      · subst hd
        have hzero : (contents.Stickers.filter (fun s => decide (filepathJoin packDirPath
            s.Filename = filepathJoin packDirPath
              (changeExtension filename ".sticker".toList)))).length = 0 := by
          rw [List.length_eq_zero, List.filter_eq_nil_iff]
          intro s hs h
          exact hfresh ((of_decide_eq_true h) ▸ hall s hs)
        rw [hzero, if_pos rfl]
    · intro s hs
      rw [if_neg hfresh]
      rcases List.mem_append.1 hs with h | h
      · exact List.mem_append_left _ (hall s h)
      · rw [List.mem_singleton.1 h]
        exact List.mem_append_right _ (List.mem_singleton.2 rfl)
  · rintro ⟨c0, hc0, hone, -⟩ hold
    rw [hread] at hc0
    cases hc0
    rw [recordCount_append, hone _ hold, if_pos rfl]

/-- The example pack is consistent. -/
theorem examplePack_consistent : packConsistent examplePack "/p.stickerpack/".toList :=
  ⟨{ Stickers := [{ Filename := "a.sticker".toList }],
     Info := { Version := 1, Author := "xcode".toList },
     Properties := { GridSize := "regular".toList } },
   by decide, by decide, by decide⟩

/-- Counterexample to C15 as stated: the example pack is consistent and holds
the sticker `a`; inserting the image `a.png` again appends a second record
`a.sticker`, so that the sub-container `a.sticker` has two records and the
pack is not consistent any more. -/
theorem insertStickerToPack_duplicate_counterexample :
    packConsistent examplePack "/p.stickerpack/".toList ∧
      (examplePack.replay
          (insertStickerToPack (packWorld examplePack) "/p.stickerpack/a.png".toList []).2
        ).packSidecars.lookup "/p.stickerpack/Contents.json".toList =
        some { Stickers := [{ Filename := "a.sticker".toList }, { Filename := "a.sticker".toList }],
               Info := { Version := 1, Author := "xcode".toList },
               Properties := { GridSize := "regular".toList } } ∧
      ¬ packConsistent
        (examplePack.replay
          (insertStickerToPack (packWorld examplePack) "/p.stickerpack/a.png".toList []).2)
        "/p.stickerpack/".toList := by
  refine ⟨examplePack_consistent, by decide, ?_⟩
  rintro ⟨c, hc, hone, -⟩
  have hlook : (examplePack.replay
      (insertStickerToPack (packWorld examplePack) "/p.stickerpack/a.png".toList []).2
        ).packSidecars.lookup (filepathJoin "/p.stickerpack/".toList "Contents.json".toList) =
      some { Stickers := [{ Filename := "a.sticker".toList }, { Filename := "a.sticker".toList }],
             Info := { Version := 1, Author := "xcode".toList },
             Properties := { GridSize := "regular".toList } } := by decide
  rw [hlook] at hc
  cases hc
  have h := hone "/p.stickerpack/a.sticker".toList (by decide)
  revert h
  decide

/-- Witness for C15 (amended): inserting the image `b.png` into the example
pack, which holds no sticker `b`, leaves a consistent pack. -/
theorem insertStickerToPack_consistent_witness :
    packConsistent
      (examplePack.replay
        (insertStickerToPack (packWorld examplePack) "/p.stickerpack/b.png".toList []).2)
      "/p.stickerpack/".toList :=
  (insertStickerToPack_consistent examplePack [] "/p.stickerpack/b.png".toList
      "/p.stickerpack/".toList "b.png".toList
      { Stickers := [{ Filename := "a.sticker".toList }],
        Info := { Version := 1, Author := "xcode".toList },
        Properties := { GridSize := "regular".toList } }
      (by decide) (by decide)).2.2.2.2.1 examplePack_consistent (by decide)

/-- The loop of `clearFolder`, `clearCatalog` and `clearStickerPack` makes one
`os.RemoveAll` call per listed name, in order. -/
theorem removeListed_eq (dirPath : Str) (names : List Str) (log : Log) :
    removeListed dirPath names log =
      log ++ names.map (fun name => Call.osRemoveAll (filepathJoin dirPath name)) := by
  induction names generalizing log with
  | nil => simp [removeListed]
  | cons name rest ih => simp [removeListed, ih]

/-- The state after a run of `os.RemoveAll` calls: what lies under none of the
removed paths is kept, in the order it had. -/
theorem PackFiles.replay_removeAll (fs : PackFiles) (paths : List Str) :
    fs.replay (paths.map Call.osRemoveAll) =
      { dirs := fs.dirs.filter (fun d => paths.all (fun p => !isUnder p d)),
        packSidecars := fs.packSidecars.filter (fun e => paths.all (fun p => !isUnder p e.1)),
        stickerSidecars :=
          fs.stickerSidecars.filter (fun e => paths.all (fun p => !isUnder p e.1)) } := by
  induction paths generalizing fs with
  | nil => simp [PackFiles.replay]
  | cons p rest ih =>
    have hstep : fs.replay ((p :: rest).map Call.osRemoveAll) =
        (fs.apply (Call.osRemoveAll p)).replay (rest.map Call.osRemoveAll) := rfl
    rw [hstep, ih]
    simp only [PackFiles.apply, List.filter_filter, List.all_cons]
    congr 1 <;> exact List.filter_congr (fun _ _ => Bool.and_comm _ _)

/-- The calls of `clearStickerPack` when the sidecar of the pack is read
without error: one `os.RemoveAll` per record, then the sidecar written back
with an empty sticker list. -/
theorem clearStickerPack_calls (w : World) (dirPath : Str) (log : Log)
    (contents : StickerpackContents)
    (hread : w.readStickerpackContents log (filepathJoin dirPath "Contents.json".toList) =
      (contents, none)) :
    clearStickerPack w dirPath log =
      log ++ [Call.readStickerpackContents (filepathJoin dirPath "Contents.json".toList)] ++
        contents.Stickers.map
          (fun sticker => Call.osRemoveAll (filepathJoin dirPath sticker.Filename)) ++
        [Call.writeStickerpackContents (filepathJoin dirPath "Contents.json".toList)
          { contents with Stickers := [] }] := by
  simp only [clearStickerPack, hread, removeListed_eq, List.map_map]
  rfl

/-- When the sidecar of the pack cannot be read `clearStickerPack` removes and
writes nothing. -/
theorem clearStickerPack_unreadable (w : World) (dirPath : Str) (log : Log)
    (contents : StickerpackContents) (e : Str)
    (hread : w.readStickerpackContents log (filepathJoin dirPath "Contents.json".toList) =
      (contents, some e)) :
    clearStickerPack w dirPath log =
      log ++ [Call.readStickerpackContents (filepathJoin dirPath "Contents.json".toList)] := by
  simp only [clearStickerPack, hread]

/-- The state that the calls of `clearStickerPack` leave. -/
theorem PackFiles.replay_clear (fs : PackFiles) (dirPath contentPath : Str)
    (contents : StickerpackContents) :
    fs.replay
        ([Call.readStickerpackContents contentPath] ++
          contents.Stickers.map
            (fun sticker => Call.osRemoveAll (filepathJoin dirPath sticker.Filename)) ++
          [Call.writeStickerpackContents contentPath { contents with Stickers := [] }]) =
      { dirs := fs.dirs.filter (fun d =>
          (contents.Stickers.map (fun sticker => filepathJoin dirPath sticker.Filename)).all
            (fun p => !isUnder p d)),
        packSidecars := (contentPath, { contents with Stickers := [] }) ::
          (fs.packSidecars.filter (fun e =>
            (contents.Stickers.map (fun sticker => filepathJoin dirPath sticker.Filename)).all
              (fun p => !isUnder p e.1))).filter (fun e => e.1 ≠ contentPath),
        stickerSidecars := fs.stickerSidecars.filter (fun e =>
          (contents.Stickers.map (fun sticker => filepathJoin dirPath sticker.Filename)).all
            (fun p => !isUnder p e.1)) } := by
  have hmap : contents.Stickers.map
      (fun sticker => Call.osRemoveAll (filepathJoin dirPath sticker.Filename)) =
      (contents.Stickers.map (fun sticker => filepathJoin dirPath sticker.Filename)).map
        Call.osRemoveAll := by
    rw [List.map_map]
    rfl
  rw [PackFiles.replay_append, PackFiles.replay_append, hmap]
  have hread : fs.replay [Call.readStickerpackContents contentPath] = fs := rfl
  rw [hread, PackFiles.replay_removeAll]
  rfl

/-- C16: when the sidecar of the pack can be read, `clearStickerPack` makes
one `os.RemoveAll` call for the sub-container of every record and no other
removal, and writes the sidecar back with an empty sticker list and the same
info and properties.  In the state this leaves, the sidecar holds that
content (the listed sub-containers not containing the sidecar itself), none
of the listed sub-containers exists, and every sub-container and sidecar
that lies under none of the listed ones is still there. -/
theorem clearStickerPack_clears (fs0 : PackFiles) (log : Log) (dirPath : Str)
    (contents : StickerpackContents)
    (hread : (fs0.replay log).packSidecars.lookup
      (filepathJoin dirPath "Contents.json".toList) = some contents) :
    clearStickerPack (packWorld fs0) dirPath log =
      log ++ [Call.readStickerpackContents (filepathJoin dirPath "Contents.json".toList)] ++
        contents.Stickers.map
          (fun sticker => Call.osRemoveAll (filepathJoin dirPath sticker.Filename)) ++
        [Call.writeStickerpackContents (filepathJoin dirPath "Contents.json".toList)
          { Stickers := [], Info := contents.Info, Properties := contents.Properties }] ∧
    ((∀ s ∈ contents.Stickers,
        isUnder (filepathJoin dirPath s.Filename)
          (filepathJoin dirPath "Contents.json".toList) = false) →
      (fs0.replay (clearStickerPack (packWorld fs0) dirPath log)).packSidecars.lookup
          (filepathJoin dirPath "Contents.json".toList) =
        some { Stickers := [], Info := contents.Info, Properties := contents.Properties }) ∧
    (∀ s ∈ contents.Stickers,
      filepathJoin dirPath s.Filename ∉
        (fs0.replay (clearStickerPack (packWorld fs0) dirPath log)).dirs) ∧
    (∀ d ∈ (fs0.replay log).dirs,
      (∀ s ∈ contents.Stickers, isUnder (filepathJoin dirPath s.Filename) d = false) →
      d ∈ (fs0.replay (clearStickerPack (packWorld fs0) dirPath log)).dirs) ∧
    (∀ e ∈ (fs0.replay log).stickerSidecars,
      (∀ s ∈ contents.Stickers, isUnder (filepathJoin dirPath s.Filename) e.1 = false) →
      e ∈ (fs0.replay (clearStickerPack (packWorld fs0) dirPath log)).stickerSidecars) := by
  have hw : (packWorld fs0).readStickerpackContents log
      (filepathJoin dirPath "Contents.json".toList) = (contents, none) := by
    simp only [packWorld, PackFiles.readPack, hread]
  have hcalls := clearStickerPack_calls (packWorld fs0) dirPath log contents hw
  have hafter := PackFiles.replay_clear (fs0.replay log) dirPath
    (filepathJoin dirPath "Contents.json".toList) contents
  rw [hcalls]
  simp only [List.append_assoc] at hafter ⊢
  rw [PackFiles.replay_append, hafter]
  refine ⟨trivial, ?_, ?_, ?_, ?_⟩
  · intro _
    simp [List.lookup]
  · intro s hs hmem
    simp only [List.mem_filter, List.all_eq_true, List.mem_map, forall_exists_index, and_imp,
      forall_apply_eq_imp_iff₂] at hmem
    have h := hmem.2 s hs
    simp [isUnder] at h
  · intro d hd hkeep
    simp only [List.mem_filter, List.all_eq_true, List.mem_map, forall_exists_index, and_imp,
      forall_apply_eq_imp_iff₂]
    refine ⟨hd, fun s hs => ?_⟩
    rw [hkeep s hs]
    rfl
  · intro e he hkeep
    simp only [List.mem_filter, List.all_eq_true, List.mem_map, forall_exists_index, and_imp,
      forall_apply_eq_imp_iff₂]
    refine ⟨he, fun s hs => ?_⟩
    rw [hkeep s hs]
    rfl

/-- Witness for C16: clearing the example pack removes its one sub-container
and leaves the sidecar with an empty sticker list. -/
theorem clearStickerPack_clears_witness :
    examplePack.replay (clearStickerPack (packWorld examplePack) "/p.stickerpack".toList []) =
      { dirs := [],
        packSidecars :=
          [("/p.stickerpack/Contents.json".toList,
            { Stickers := [],
              Info := { Version := 1, Author := "xcode".toList },
              Properties := { GridSize := "regular".toList } })],
        stickerSidecars := [] } ∧
    clearStickerPack (packWorld examplePack) "/p.stickerpack".toList [] =
      [Call.readStickerpackContents "/p.stickerpack/Contents.json".toList,
       Call.osRemoveAll "/p.stickerpack/a.sticker".toList,
       Call.writeStickerpackContents "/p.stickerpack/Contents.json".toList
         { Stickers := [],
           Info := { Version := 1, Author := "xcode".toList },
           Properties := { GridSize := "regular".toList } }] :=
  ⟨by decide,
   ((clearStickerPack_clears examplePack [] "/p.stickerpack".toList
      { Stickers := [{ Filename := "a.sticker".toList }],
        Info := { Version := 1, Author := "xcode".toList },
        Properties := { GridSize := "regular".toList } } (by decide)).1).trans (by decide)⟩

/-- Lines 938-940 and 1000-1002: with the kind stickerpack, a destination
ending in `.stickerpack` and the replace flag, `processImages` calls
`clearStickerPack` and then `clearFolder` on the destination before it
processes the sources. -/
theorem processImages_stickerpack_replace (w : World) (lib : Lib) (srcPaths : List Str)
    (config : Configuration) (plans : List ProcessPlan) (log : Log)
    (hkind : config.outputPackage = packageStickerPack)
    (hname : stringsHasSuffix config.dstDirPath ".stickerpack".toList = true)
    (hreplace : config.outputPackageReplace = true) :
    processImages w lib srcPaths config plans log =
      (some (.ok (processImagesLoop w config plans srcPaths []
          (clearFolder w config.dstDirPath (clearStickerPack w config.dstDirPath log))).1),
        (processImagesLoop w config plans srcPaths []
          (clearFolder w config.dstDirPath (clearStickerPack w config.dstDirPath log))).2) := by
  have hs : ¬ (stringsHasSuffix config.dstDirPath ".stickerpack".toList = false) := by
    rw [hname]
    decide
  simp only [processImages, if_pos hkind, if_neg hs, hreplace, if_true]

/-! ## Icon set -/

/-- `strings.Split` always gives at least one field. -/
theorem stringsSplit_ne_nil (sep : Char) (s : Str) : stringsSplit sep s ≠ [] := by
  cases s with
  | nil => simp [stringsSplit]
  | cons c cs =>
    unfold stringsSplit
    split
    · simp
    · split <;> simp

/-- An entry without size ends `processIconSet` with a fatal result before
any call is made for it. -/
theorem processIconSetLoop_missing_size (w : World) (lib : Lib) (srcPath : Str)
    (config : Configuration) (plan : ProcessPlan) (element : ImagesetContentsImage)
    (rest : List ImagesetContentsImage) (idx : Nat) (images : List ImagesetContentsImage)
    (results : List ProcessResult) (log : Log) (hsize : element.Size = []) :
    processIconSetLoop w lib srcPath config plan (element :: rest) idx images results log =
      (some (.returned (results ++ [⟨srcPath, [], true, some "Missing Size".toList⟩])), log) := by
  simp [processIconSetLoop, hsize]

/-- An entry without scale ends `processIconSet` with a fatal result before
any call is made for it. -/
theorem processIconSetLoop_missing_scale (w : World) (lib : Lib) (srcPath : Str)
    (config : Configuration) (plan : ProcessPlan) (element : ImagesetContentsImage)
    (rest : List ImagesetContentsImage) (idx : Nat) (images : List ImagesetContentsImage)
    (results : List ProcessResult) (log : Log) (hsize : element.Size ≠ [])
    (hscale : element.Scale = []) :
    processIconSetLoop w lib srcPath config plan (element :: rest) idx images results log =
      (some (.returned (results ++ [⟨srcPath, [], true, some "Missing Scale".toList⟩])), log) := by
  simp [processIconSetLoop, hsize, hscale]

/-- One entry of the icon set with size `WxH` and a scale, for a source that
opens: the source is fill-cropped to `W*S` by `H*S` (truncated) and saved
under the output name of the entry; when the save succeeds the filename of
the entry at `idx` becomes that name, and the loop goes on to the next
entry. -/
theorem processIconSetLoop_entry (w : World) (lib : Lib) (srcPath : Str)
    (config : Configuration) (plan : ProcessPlan) (element : ImagesetContentsImage)
    (rest : List ImagesetContentsImage) (idx : Nat) (images : List ImagesetContentsImage)
    (results : List ProcessResult) (log : Log)
    (widthStr heightStr scaleStr : Str) (sizeMore scaleMore : List Str)
    (srcWidth srcHeight : Int)
    (hsize : stringsSplit 'x' element.Size = widthStr :: heightStr :: sizeMore)
    (hscale : stringsSplit 'x' element.Scale = scaleStr :: scaleMore)
    (hscale0 : element.Scale ≠ [])
    (hsuffix : ¬ (plan.requiredSuffix.length > 0 ∧ hasSuffix srcPath plan.requiredSuffix = false))
    (hformat : formatForPath srcPath ≠ formatUnchanged)
    (hopen : w.imagingOpen (iconEntryLog config element log) srcPath =
      .ok (srcWidth, srcHeight)) :
    processIconSetLoop w lib srcPath config plan (element :: rest) idx images results log =
      processIconSetLoop w lib srcPath config plan rest (idx + 1)
        (if w.imagingSave (iconEntryLog config element log ++ [Call.imagingOpen srcPath])
            (Image.fill (Image.opened srcPath srcWidth srcHeight)
              (truncate (Float64.mul (lib.parseFloat widthStr) (lib.parseFloat scaleStr)))
              (truncate (Float64.mul (lib.parseFloat heightStr) (lib.parseFloat scaleStr))))
            (filepathJoin config.dstDirPath (iconEntryName plan srcPath element)) = none then
          images.set idx { element with Filename := iconEntryName plan srcPath element }
         else images)
        (results ++
          [⟨srcPath, filepathJoin config.dstDirPath (iconEntryName plan srcPath element),
            (w.imagingSave (iconEntryLog config element log ++ [Call.imagingOpen srcPath])
              (Image.fill (Image.opened srcPath srcWidth srcHeight)
                (truncate (Float64.mul (lib.parseFloat widthStr) (lib.parseFloat scaleStr)))
                (truncate (Float64.mul (lib.parseFloat heightStr) (lib.parseFloat scaleStr))))
              (filepathJoin config.dstDirPath (iconEntryName plan srcPath element))).isSome,
            (w.imagingSave (iconEntryLog config element log ++ [Call.imagingOpen srcPath])
              (Image.fill (Image.opened srcPath srcWidth srcHeight)
                (truncate (Float64.mul (lib.parseFloat widthStr) (lib.parseFloat scaleStr)))
                (truncate (Float64.mul (lib.parseFloat heightStr) (lib.parseFloat scaleStr))))
              (filepathJoin config.dstDirPath (iconEntryName plan srcPath element))).map
                (fun e => "Save failed: ".toList ++ e)⟩])
        (iconEntryLog config element log ++
          [Call.imagingOpen srcPath,
           Call.imagingSave
             (Image.fill (Image.opened srcPath srcWidth srcHeight)
               (truncate (Float64.mul (lib.parseFloat widthStr) (lib.parseFloat scaleStr)))
               (truncate (Float64.mul (lib.parseFloat heightStr) (lib.parseFloat scaleStr))))
             (filepathJoin config.dstDirPath (iconEntryName plan srcPath element))]) := by
  have hsize0 : element.Size ≠ [] := by
    intro h
    rw [h] at hsize
    simp [stringsSplit] at hsize
  have hl1 : ¬ (element.Size.length = 0) := fun h => hsize0 (List.length_eq_zero.1 h)
  have hl2 : ¬ (element.Scale.length = 0) := fun h => hscale0 (List.length_eq_zero.1 h)
  rw [processIconSetLoop]
  simp only [if_neg hl1, if_neg hl2, hsize, hscale, List.getElem?_cons_zero,
    List.getElem?_cons_succ, if_neg hsuffix, if_neg hformat]
  unfold iconEntryLog iconEntryName at *
  simp only [hopen]
  cases hsave : w.imagingSave _ _ _ <;> simp [hsave]

/-- An entry whose size has no `x` makes `processIconSet` panic: the second
element of the split size is out of range. -/
theorem processIconSetLoop_panics (w : World) (lib : Lib) (srcPath : Str)
    (config : Configuration) (plan : ProcessPlan) (element : ImagesetContentsImage)
    (rest : List ImagesetContentsImage) (idx : Nat) (images : List ImagesetContentsImage)
    (results : List ProcessResult) (log : Log) (widthStr : Str)
    (hsize0 : element.Size ≠ []) (hscale0 : element.Scale ≠ [])
    (hsize : stringsSplit 'x' element.Size = [widthStr]) :
    processIconSetLoop w lib srcPath config plan (element :: rest) idx images results log =
      (none, log) := by
  have hl1 : ¬ (element.Size.length = 0) := fun h => hsize0 (List.length_eq_zero.1 h)
  have hl2 : ¬ (element.Scale.length = 0) := fun h => hscale0 (List.length_eq_zero.1 h)
  rw [processIconSetLoop]
  simp only [if_neg hl1, if_neg hl2, hsize]
  rcases stringsSplit 'x' element.Scale with _ | ⟨scaleStr, scaleMore⟩ <;>
    simp only [List.getElem?_cons_zero, List.getElem?_cons_succ, List.getElem?_nil]

/-- An entry reached with a source that lacks the required suffix ends
`processIconSet` with a non-fatal result. -/
theorem processIconSetLoop_suffix (w : World) (lib : Lib) (srcPath : Str)
    (config : Configuration) (plan : ProcessPlan) (element : ImagesetContentsImage)
    (rest : List ImagesetContentsImage) (idx : Nat) (images : List ImagesetContentsImage)
    (results : List ProcessResult) (log : Log)
    (widthStr heightStr scaleStr : Str) (sizeMore scaleMore : List Str)
    (hsize : stringsSplit 'x' element.Size = widthStr :: heightStr :: sizeMore)
    (hscale : stringsSplit 'x' element.Scale = scaleStr :: scaleMore)
    (hscale0 : element.Scale ≠ [])
    (hsuffix : plan.requiredSuffix.length > 0 ∧ hasSuffix srcPath plan.requiredSuffix = false) :
    processIconSetLoop w lib srcPath config plan (element :: rest) idx images results log =
      (some (.returned (results ++ [⟨srcPath, [], false,
        some ("Source does not have required suffix: ".toList ++ plan.requiredSuffix)⟩])),
       iconEntryLog config element log) := by
  have hsize0 : element.Size ≠ [] := by
    intro h
    rw [h] at hsize
    simp [stringsSplit] at hsize
  have hl1 : ¬ (element.Size.length = 0) := fun h => hsize0 (List.length_eq_zero.1 h)
  have hl2 : ¬ (element.Scale.length = 0) := fun h => hscale0 (List.length_eq_zero.1 h)
  rw [processIconSetLoop]
  simp only [if_neg hl1, if_neg hl2, hsize, hscale, List.getElem?_cons_zero,
    List.getElem?_cons_succ, if_pos hsuffix]
  rfl

/-- An entry reached with a source of unsupported format ends `processIconSet`
with a fatal result. -/
theorem processIconSetLoop_unsupported (w : World) (lib : Lib) (srcPath : Str)
    (config : Configuration) (plan : ProcessPlan) (element : ImagesetContentsImage)
    (rest : List ImagesetContentsImage) (idx : Nat) (images : List ImagesetContentsImage)
    (results : List ProcessResult) (log : Log)
    (widthStr heightStr scaleStr : Str) (sizeMore scaleMore : List Str)
    (hsize : stringsSplit 'x' element.Size = widthStr :: heightStr :: sizeMore)
    (hscale : stringsSplit 'x' element.Scale = scaleStr :: scaleMore)
    (hscale0 : element.Scale ≠ [])
    (hsuffix : ¬ (plan.requiredSuffix.length > 0 ∧ hasSuffix srcPath plan.requiredSuffix = false))
    (hformat : formatForPath srcPath = formatUnchanged) :
    processIconSetLoop w lib srcPath config plan (element :: rest) idx images results log =
      (some (.returned (results ++
        [⟨srcPath, [], true, some "Unsupported source image format".toList⟩])),
       iconEntryLog config element log) := by
  have hsize0 : element.Size ≠ [] := by
    intro h
    rw [h] at hsize
    simp [stringsSplit] at hsize
  have hl1 : ¬ (element.Size.length = 0) := fun h => hsize0 (List.length_eq_zero.1 h)
  have hl2 : ¬ (element.Scale.length = 0) := fun h => hscale0 (List.length_eq_zero.1 h)
  rw [processIconSetLoop]
  simp only [if_neg hl1, if_neg hl2, hsize, hscale, List.getElem?_cons_zero,
    List.getElem?_cons_succ, if_neg hsuffix, if_pos hformat]
  rfl

/-- An entry reached with a source that cannot be opened ends `processIconSet`
with a fatal result. -/
theorem processIconSetLoop_open_failed (w : World) (lib : Lib) (srcPath : Str)
    (config : Configuration) (plan : ProcessPlan) (element : ImagesetContentsImage)
    (rest : List ImagesetContentsImage) (idx : Nat) (images : List ImagesetContentsImage)
    (results : List ProcessResult) (log : Log)
    (widthStr heightStr scaleStr : Str) (sizeMore scaleMore : List Str) (e : Str)
    (hsize : stringsSplit 'x' element.Size = widthStr :: heightStr :: sizeMore)
    (hscale : stringsSplit 'x' element.Scale = scaleStr :: scaleMore)
    (hscale0 : element.Scale ≠ [])
    (hsuffix : ¬ (plan.requiredSuffix.length > 0 ∧ hasSuffix srcPath plan.requiredSuffix = false))
    (hformat : formatForPath srcPath ≠ formatUnchanged)
    (hopen : w.imagingOpen (iconEntryLog config element log) srcPath = .error e) :
    processIconSetLoop w lib srcPath config plan (element :: rest) idx images results log =
      (some (.returned (results ++
        [⟨srcPath, filepathJoin config.dstDirPath (iconEntryName plan srcPath element), true,
          some ("Open failed: ".toList ++ e)⟩])),
       iconEntryLog config element log ++ [Call.imagingOpen srcPath]) := by
  have hsize0 : element.Size ≠ [] := by
    intro h
    rw [h] at hsize
    simp [stringsSplit] at hsize
  have hl1 : ¬ (element.Size.length = 0) := fun h => hsize0 (List.length_eq_zero.1 h)
  have hl2 : ¬ (element.Scale.length = 0) := fun h => hscale0 (List.length_eq_zero.1 h)
  rw [processIconSetLoop]
  simp only [if_neg hl1, if_neg hl2, hsize, hscale, List.getElem?_cons_zero,
    List.getElem?_cons_succ, if_neg hsuffix, if_neg hformat]
  unfold iconEntryLog iconEntryName at *
  simp only [hopen]

/-- One round of the loop of `processIconSet`: it returns, or panics, or goes
on to the next entry with the entry list as it was or with the filename of
the entry at `idx` replaced. -/
theorem processIconSetLoop_cons_cases (w : World) (lib : Lib) (srcPath : Str)
    (config : Configuration) (plan : ProcessPlan) (element : ImagesetContentsImage)
    (rest : List ImagesetContentsImage) (idx : Nat) (images : List ImagesetContentsImage)
    (results : List ProcessResult) (log : Log) :
    (∃ r l, processIconSetLoop w lib srcPath config plan (element :: rest) idx images results
        log = (some (.returned r), l)) ∨
    (∃ l, processIconSetLoop w lib srcPath config plan (element :: rest) idx images results
        log = (none, l)) ∨
    (∃ images1 results1 log1,
      processIconSetLoop w lib srcPath config plan (element :: rest) idx images results log =
        processIconSetLoop w lib srcPath config plan rest (idx + 1) images1 results1 log1 ∧
      (images1 = images ∨ ∃ n, images1 = images.set idx { element with Filename := n })) := by
  by_cases hsize0 : element.Size = []
  · exact Or.inl ⟨_, _, processIconSetLoop_missing_size w lib srcPath config plan element rest idx
      images results log hsize0⟩
  by_cases hscale0 : element.Scale = []
  · exact Or.inl ⟨_, _, processIconSetLoop_missing_scale w lib srcPath config plan element rest idx
      images results log hsize0 hscale0⟩
  rcases hscale : stringsSplit 'x' element.Scale with _ | ⟨scaleStr, scaleMore⟩
  · exact absurd hscale (stringsSplit_ne_nil _ _)
  rcases hsize : stringsSplit 'x' element.Size with _ | ⟨widthStr, _ | ⟨heightStr, sizeMore⟩⟩
  · exact absurd hsize (stringsSplit_ne_nil _ _)
  · exact Or.inr (Or.inl ⟨_, processIconSetLoop_panics w lib srcPath config plan element rest idx
      images results log widthStr hsize0 hscale0 hsize⟩)
  by_cases hsuffix : plan.requiredSuffix.length > 0 ∧ hasSuffix srcPath plan.requiredSuffix = false
  · exact Or.inl ⟨_, _, processIconSetLoop_suffix w lib srcPath config plan element rest idx images
      results log widthStr heightStr scaleStr sizeMore scaleMore hsize hscale hscale0 hsuffix⟩
  by_cases hformat : formatForPath srcPath = formatUnchanged
  · exact Or.inl ⟨_, _, processIconSetLoop_unsupported w lib srcPath config plan element rest idx
      images results log widthStr heightStr scaleStr sizeMore scaleMore hsize hscale hscale0
      hsuffix hformat⟩
  rcases hopen : w.imagingOpen (iconEntryLog config element log) srcPath with e | ⟨sw, sh⟩
  · exact Or.inl ⟨_, _, processIconSetLoop_open_failed w lib srcPath config plan element rest idx
      images results log widthStr heightStr scaleStr sizeMore scaleMore e hsize hscale hscale0
      hsuffix hformat hopen⟩
  · refine Or.inr (Or.inr ⟨_, _, _, processIconSetLoop_entry w lib srcPath config plan element
      rest idx images results log widthStr heightStr scaleStr sizeMore scaleMore sw sh hsize
      hscale hscale0 hsuffix hformat hopen, ?_⟩)
    split
    · exact Or.inr ⟨_, rfl⟩
    · exact Or.inl rfl

/-- When the loop of `processIconSet` runs to its end, the entry list it
leaves differs from the one it started with in filename fields only, and not
at all below the index it started at. -/
theorem processIconSetLoop_finished (w : World) (lib : Lib) (srcPath : Str)
    (config : Configuration) (plan : ProcessPlan) (elements : List ImagesetContentsImage) :
    ∀ (idx : Nat) (images : List ImagesetContentsImage) (results : List ProcessResult) (log : Log)
      (images1 : List ImagesetContentsImage) (results1 : List ProcessResult) (log1 : Log),
      (∀ k, (elements[k]?).map eraseFilename = (images[idx + k]?).map eraseFilename) →
      processIconSetLoop w lib srcPath config plan elements idx images results log =
        (some (.finished (images1, results1)), log1) →
      images1.map eraseFilename = images.map eraseFilename ∧
        ∀ j, j < idx → images1[j]? = images[j]? := by
  induction elements with
  | nil =>
    intro idx images results log images1 results1 log1 _ h
    simp only [processIconSetLoop, Prod.mk.injEq, Option.some.injEq, LoopExit.finished.injEq] at h
    obtain ⟨⟨rfl, -⟩, -⟩ := h
    exact ⟨rfl, fun _ _ => rfl⟩
  | cons element rest ih =>
    intro idx images results log images1 results1 log1 helems h
    rcases processIconSetLoop_cons_cases w lib srcPath config plan element rest idx images results
        log with ⟨r, l, hr⟩ | ⟨l, hl⟩ | ⟨images2, results2, log2, hstep, himg⟩
    · rw [hr] at h
      simp at h
    · rw [hl] at h
      simp at h
    · rw [hstep] at h
      have hrest : ∀ k, (rest[k]?).map eraseFilename = (images[idx + 1 + k]?).map eraseFilename := by
        intro k
        have := helems (k + 1)
        simp only [List.getElem?_cons_succ] at this
        rw [this]
        congr 2
        omega
      rcases himg with rfl | ⟨n, rfl⟩
      · obtain ⟨h1, h2⟩ := ih (idx + 1) images2 results2 log2 images1 results1 log1 hrest h
        exact ⟨h1, fun j hj => h2 j (by omega)⟩
      · have hrest2 : ∀ k, (rest[k]?).map eraseFilename =
            ((images.set idx { element with Filename := n })[idx + 1 + k]?).map eraseFilename := by
          intro k
          rw [hrest k, List.getElem?_set_ne (by omega)]
        obtain ⟨h1, h2⟩ := ih (idx + 1) _ results2 log2 images1 results1 log1 hrest2 h
        refine ⟨?_, ?_⟩
        · rw [h1]
          apply List.ext_getElem?
          intro j
          simp only [List.getElem?_map]
          by_cases hj : idx = j
          · subst hj
            have h0 := helems 0
            simp only [List.getElem?_cons_zero, Nat.add_zero, Option.map_some'] at h0
            by_cases hlt : idx < images.length
            · rw [List.getElem?_set_self hlt, ← h0]
              rfl
            · rw [List.getElem?_eq_none (by simpa using hlt)] at h0
              simp at h0
          · rw [List.getElem?_set_ne hj]
        · intro j hj
          rw [h2 j (by omega), List.getElem?_set_ne (by omega)]

/-- When the loop of `processIconSet` runs to its end after an entry has been
saved, the filename of that entry in the list it leaves is the output name. -/
theorem processIconSetLoop_keeps_filename (w : World) (lib : Lib) (srcPath : Str)
    (config : Configuration) (plan : ProcessPlan) (element : ImagesetContentsImage)
    (rest : List ImagesetContentsImage) (idx : Nat) (images : List ImagesetContentsImage)
    (name : Str) (results : List ProcessResult) (log : Log)
    (images1 : List ImagesetContentsImage) (results1 : List ProcessResult) (log1 : Log)
    (hidx : idx < images.length)
    (helems : ∀ k, ((element :: rest)[k]?).map eraseFilename =
      (images[idx + k]?).map eraseFilename)
    (h : processIconSetLoop w lib srcPath config plan rest (idx + 1)
        (images.set idx { element with Filename := name }) results log =
      (some (.finished (images1, results1)), log1)) :
    images1[idx]? = some { element with Filename := name } ∧
      images1.map eraseFilename = images.map eraseFilename := by
  have hrest : ∀ k, (rest[k]?).map eraseFilename =
      ((images.set idx { element with Filename := name })[idx + 1 + k]?).map eraseFilename := by
    intro k
    have := helems (k + 1)
    simp only [List.getElem?_cons_succ] at this
    rw [this, List.getElem?_set_ne (by omega)]
    congr 2
    omega
  obtain ⟨h1, h2⟩ := processIconSetLoop_finished w lib srcPath config plan rest (idx + 1) _ results
    log images1 results1 log1 hrest h
  refine ⟨?_, ?_⟩
  · rw [h2 idx (by omega), List.getElem?_set_self hidx]
  · rw [h1]
    apply List.ext_getElem?
    intro j
    simp only [List.getElem?_map]
    by_cases hj : idx = j
    · subst hj
      have h0 := helems 0
      simp only [List.getElem?_cons_zero, Nat.add_zero, Option.map_some'] at h0
      rw [List.getElem?_set_self hidx, ← h0]
      rfl
    · rw [List.getElem?_set_ne hj]

/-- The run of `processIconSet` when its loop runs to the end: the sidecar it
read is written back with the entry list the loop leaves, and the results are
those of the loop, followed by a fatal one when the write fails. -/
theorem processIconSet_rewrites (w : World) (lib : Lib) (srcPath : Str)
    (config : Configuration) (plan : ProcessPlan) (log : Log) (contents : ImagesetContents)
    (images1 : List ImagesetContentsImage) (results1 : List ProcessResult) (log1 : Log)
    (hread : w.readImagesetContents log (filepathJoin config.dstDirPath "Contents.json".toList) =
      (contents, none))
    (hloop : processIconSetLoop w lib srcPath config plan contents.Images 0 contents.Images []
        (log ++ [Call.readImagesetContents
          (filepathJoin config.dstDirPath "Contents.json".toList)]) =
      (some (.finished (images1, results1)), log1)) :
    processIconSet w lib srcPath config plan log =
      (some (results1 ++
        (match w.writeImagesetContents log1
            (filepathJoin config.dstDirPath "Contents.json".toList)
            { contents with Images := images1 } with
          | some e => [⟨srcPath, [], true, some e⟩]
          | none => [])),
       log1 ++ [Call.writeImagesetContents
        (filepathJoin config.dstDirPath "Contents.json".toList)
        { contents with Images := images1 }]) := by
  simp only [processIconSet, hread, hloop]
  cases w.writeImagesetContents _ _ _ <;> simp

/-- The run of `processIconSet` when its loop returns early: the results are
those of the loop and the sidecar is not written. -/
theorem processIconSet_returns (w : World) (lib : Lib) (srcPath : Str)
    (config : Configuration) (plan : ProcessPlan) (log : Log) (contents : ImagesetContents)
    (results1 : List ProcessResult) (log1 : Log)
    (hread : w.readImagesetContents log (filepathJoin config.dstDirPath "Contents.json".toList) =
      (contents, none))
    (hloop : processIconSetLoop w lib srcPath config plan contents.Images 0 contents.Images []
        (log ++ [Call.readImagesetContents
          (filepathJoin config.dstDirPath "Contents.json".toList)]) =
      (some (.returned results1), log1)) :
    processIconSet w lib srcPath config plan log = (some results1, log1) := by
  simp only [processIconSet, hread, hloop]

/-- C17: for a sidecar entry with size `WxH` and a scale `Sx`, reached with a
source of supported format that opens, `processIconSet` saves the source
fill-cropped to `W*S` by `H*S` pixels (the `float64` products of the parsed
numbers, converted to `int`, which are exactly `W*S` and `H*S` when `W`, `H`
and `S` are whole numbers and the products are below `2 ^ 53`) under the name
`<source base>-<size>-<scale>` plus extension, and records a result for that file, fatal exactly when the
save fails; when the save succeeds and the loop runs to its end, the entry
has that name as filename in the entry list that is written back, this list
differs from the one read in filename fields only (no entry is added or
removed), and `processIconSet` returns the results of the loop.  An entry
whose size or scale is empty makes the loop record a fatal result and return
without any call for that entry, and `processIconSet` returns the results of
a loop that returns, without writing the sidecar. -/
theorem processIconSet_entry_output (w : World) (lib : Lib) (srcPath : Str)
    (config : Configuration) (plan : ProcessPlan) (element : ImagesetContentsImage)
    (rest : List ImagesetContentsImage) (idx : Nat) (images : List ImagesetContentsImage)
    (results : List ProcessResult) (log : Log)
    (widthStr heightStr scaleStr : Str) (sizeMore scaleMore : List Str)
    (srcWidth srcHeight : Int)
    (hsize : stringsSplit 'x' element.Size = widthStr :: heightStr :: sizeMore)
    (hscale : stringsSplit 'x' element.Scale = scaleStr :: scaleMore)
    (hscale0 : element.Scale ≠ [])
    (hsuffix : ¬ (plan.requiredSuffix.length > 0 ∧ hasSuffix srcPath plan.requiredSuffix = false))
    (hformat : formatForPath srcPath ≠ formatUnchanged)
    (hopen : w.imagingOpen (iconEntryLog config element log) srcPath =
      .ok (srcWidth, srcHeight)) :
    processIconSetLoop w lib srcPath config plan (element :: rest) idx images results log =
      processIconSetLoop w lib srcPath config plan rest (idx + 1)
        (if w.imagingSave (iconEntryLog config element log ++ [Call.imagingOpen srcPath])
            (Image.fill (Image.opened srcPath srcWidth srcHeight)
              (truncate (Float64.mul (lib.parseFloat widthStr) (lib.parseFloat scaleStr)))
              (truncate (Float64.mul (lib.parseFloat heightStr) (lib.parseFloat scaleStr))))
            (filepathJoin config.dstDirPath (iconEntryName plan srcPath element)) = none then
          images.set idx { element with Filename := iconEntryName plan srcPath element }
         else images)
        (results ++
          [⟨srcPath, filepathJoin config.dstDirPath (iconEntryName plan srcPath element),
            (w.imagingSave (iconEntryLog config element log ++ [Call.imagingOpen srcPath])
              (Image.fill (Image.opened srcPath srcWidth srcHeight)
                (truncate (Float64.mul (lib.parseFloat widthStr) (lib.parseFloat scaleStr)))
                (truncate (Float64.mul (lib.parseFloat heightStr) (lib.parseFloat scaleStr))))
              (filepathJoin config.dstDirPath (iconEntryName plan srcPath element))).isSome,
            (w.imagingSave (iconEntryLog config element log ++ [Call.imagingOpen srcPath])
              (Image.fill (Image.opened srcPath srcWidth srcHeight)
                (truncate (Float64.mul (lib.parseFloat widthStr) (lib.parseFloat scaleStr)))
                (truncate (Float64.mul (lib.parseFloat heightStr) (lib.parseFloat scaleStr))))
              (filepathJoin config.dstDirPath (iconEntryName plan srcPath element))).map
                (fun e => "Save failed: ".toList ++ e)⟩])
        (iconEntryLog config element log ++
          [Call.imagingOpen srcPath,
           Call.imagingSave
             (Image.fill (Image.opened srcPath srcWidth srcHeight)
               (truncate (Float64.mul (lib.parseFloat widthStr) (lib.parseFloat scaleStr)))
               (truncate (Float64.mul (lib.parseFloat heightStr) (lib.parseFloat scaleStr))))
             (filepathJoin config.dstDirPath (iconEntryName plan srcPath element))]) ∧
    (∀ (images1 : List ImagesetContentsImage) (results1 : List ProcessResult) (log1 : Log),
      idx < images.length →
      (∀ k, ((element :: rest)[k]?).map eraseFilename = (images[idx + k]?).map eraseFilename) →
      w.imagingSave (iconEntryLog config element log ++ [Call.imagingOpen srcPath])
          (Image.fill (Image.opened srcPath srcWidth srcHeight)
            (truncate (Float64.mul (lib.parseFloat widthStr) (lib.parseFloat scaleStr)))
            (truncate (Float64.mul (lib.parseFloat heightStr) (lib.parseFloat scaleStr))))
          (filepathJoin config.dstDirPath (iconEntryName plan srcPath element)) = none →
      processIconSetLoop w lib srcPath config plan (element :: rest) idx images results log =
        (some (.finished (images1, results1)), log1) →
      images1[idx]? = some { element with Filename := iconEntryName plan srcPath element } ∧
        images1.map eraseFilename = images.map eraseFilename) ∧
    (∀ (log0 : Log) (contents : ImagesetContents) (images1 : List ImagesetContentsImage)
        (results1 : List ProcessResult) (log1 : Log),
      w.readImagesetContents log0 (filepathJoin config.dstDirPath "Contents.json".toList) =
        (contents, none) →
      processIconSetLoop w lib srcPath config plan contents.Images 0 contents.Images []
          (log0 ++ [Call.readImagesetContents
            (filepathJoin config.dstDirPath "Contents.json".toList)]) =
        (some (.finished (images1, results1)), log1) →
      processIconSet w lib srcPath config plan log0 =
          (some (results1 ++
            (match w.writeImagesetContents log1
                (filepathJoin config.dstDirPath "Contents.json".toList)
                { contents with Images := images1 } with
              | some e => [⟨srcPath, [], true, some e⟩]
              | none => [])),
           log1 ++ [Call.writeImagesetContents
            (filepathJoin config.dstDirPath "Contents.json".toList)
            { contents with Images := images1 }]) ∧
        images1.map eraseFilename = contents.Images.map eraseFilename) ∧
    (∀ (log0 : Log) (contents : ImagesetContents) (results1 : List ProcessResult) (log1 : Log),
      w.readImagesetContents log0 (filepathJoin config.dstDirPath "Contents.json".toList) =
        (contents, none) →
      processIconSetLoop w lib srcPath config plan contents.Images 0 contents.Images []
          (log0 ++ [Call.readImagesetContents
            (filepathJoin config.dstDirPath "Contents.json".toList)]) =
        (some (.returned results1), log1) →
      processIconSet w lib srcPath config plan log0 = (some results1, log1)) ∧
    (∀ (entry : ImagesetContentsImage) (rest0 : List ImagesetContentsImage) (idx0 : Nat)
        (images0 : List ImagesetContentsImage) (results0 : List ProcessResult) (log0 : Log),
      entry.Size = [] →
      processIconSetLoop w lib srcPath config plan (entry :: rest0) idx0 images0 results0 log0 =
        (some (.returned (results0 ++ [⟨srcPath, [], true, some "Missing Size".toList⟩])),
         log0)) ∧
    (∀ (entry : ImagesetContentsImage) (rest0 : List ImagesetContentsImage) (idx0 : Nat)
        (images0 : List ImagesetContentsImage) (results0 : List ProcessResult) (log0 : Log),
      entry.Size ≠ [] → entry.Scale = [] →
      processIconSetLoop w lib srcPath config plan (entry :: rest0) idx0 images0 results0 log0 =
        (some (.returned (results0 ++ [⟨srcPath, [], true, some "Missing Scale".toList⟩])),
         log0)) ∧
    (∀ width height scale : Nat,
      lib.parseFloat widthStr = Float64.ofInt (width : Int) →
      lib.parseFloat heightStr = Float64.ofInt (height : Int) →
      lib.parseFloat scaleStr = Float64.ofInt (scale : Int) →
      width < 2 ^ 53 → height < 2 ^ 53 → scale < 2 ^ 53 →
      width * scale < 2 ^ 53 → height * scale < 2 ^ 53 →
      truncate (Float64.mul (lib.parseFloat widthStr) (lib.parseFloat scaleStr)) =
          ((width * scale : Nat) : Int) ∧
        truncate (Float64.mul (lib.parseFloat heightStr) (lib.parseFloat scaleStr)) =
          ((height * scale : Nat) : Int)) := by
  have hstep := processIconSetLoop_entry w lib srcPath config plan element rest idx images results
    log widthStr heightStr scaleStr sizeMore scaleMore srcWidth srcHeight hsize hscale hscale0
    hsuffix hformat hopen
  refine ⟨hstep, ?_, ?_, ?_, ?_, ?_, ?_⟩
  · intro images1 results1 log1 hidx helems hsave hfin
    rw [hstep, if_pos hsave] at hfin
    exact processIconSetLoop_keeps_filename w lib srcPath config plan element rest idx images _ _ _
      images1 results1 log1 hidx helems hfin
  · intro log0 contents images1 results1 log1 hread hloop
    refine ⟨processIconSet_rewrites w lib srcPath config plan log0 contents images1 results1 log1
      hread hloop, ?_⟩
    exact (processIconSetLoop_finished w lib srcPath config plan contents.Images 0 contents.Images
      [] _ images1 results1 log1 (fun k => by rw [Nat.zero_add]) hloop).1
  · intro log0 contents results1 log1 hread hloop
    exact processIconSet_returns w lib srcPath config plan log0 contents results1 log1 hread hloop
  · intro entry rest0 idx0 images0 results0 log0 h
    exact processIconSetLoop_missing_size w lib srcPath config plan entry rest0 idx0 images0
      results0 log0 h
  · intro entry rest0 idx0 images0 results0 log0 h1 h2
    exact processIconSetLoop_missing_scale w lib srcPath config plan entry rest0 idx0 images0
      results0 log0 h1 h2
  · intro width height scale hw hh hs hwlt hhlt hslt hws hhs
    rw [hw, hh, hs]
    exact ⟨truncate_mul_ofInt width scale hwlt hslt hws,
      truncate_mul_ofInt height scale hhlt hslt hhs⟩

/-- Witness for C17: the entry of size `32x32` and scale `2x` gives a 64 by
64 fill-crop of the source, saved as `icon-32x32-2x.png`, after the file
`old.png` that the entry named has been removed; the entry then names the new
file, which is what the sidecar written back holds, and the run returns the
one result without error.  A sidecar whose entry has no size gives the fatal
result `Missing Size` and is not written back. -/
theorem processIconSet_entry_output_witness :
    processIconSetLoop iconWorld iconLib "/in/icon.png".toList
        { dstDirPath := "/x.appiconset".toList } {}
        [{ Filename := "old.png".toList, Idiom := "mac".toList, Scale := "2x".toList,
           Size := "32x32".toList }] 0
        [{ Filename := "old.png".toList, Idiom := "mac".toList, Scale := "2x".toList,
           Size := "32x32".toList }] []
        [Call.readImagesetContents "/x.appiconset/Contents.json".toList] =
      (some (.finished
        ([{ Filename := "icon-32x32-2x.png".toList, Idiom := "mac".toList, Scale := "2x".toList,
            Size := "32x32".toList }],
         [⟨"/in/icon.png".toList, "/x.appiconset/icon-32x32-2x.png".toList, false, none⟩])),
       [Call.readImagesetContents "/x.appiconset/Contents.json".toList,
        Call.osRemove "/x.appiconset/old.png".toList,
        Call.imagingOpen "/in/icon.png".toList,
        Call.imagingSave (Image.fill (Image.opened "/in/icon.png".toList 300 200) 64 64)
          "/x.appiconset/icon-32x32-2x.png".toList]) ∧
    processIconSet iconWorld iconLib "/in/icon.png".toList
        { dstDirPath := "/x.appiconset".toList } {} [] =
      (some [⟨"/in/icon.png".toList, "/x.appiconset/icon-32x32-2x.png".toList, false, none⟩],
       [Call.readImagesetContents "/x.appiconset/Contents.json".toList,
        Call.osRemove "/x.appiconset/old.png".toList,
        Call.imagingOpen "/in/icon.png".toList,
        Call.imagingSave (Image.fill (Image.opened "/in/icon.png".toList 300 200) 64 64)
          "/x.appiconset/icon-32x32-2x.png".toList,
        Call.writeImagesetContents "/x.appiconset/Contents.json".toList
          { Images := [{ Filename := "icon-32x32-2x.png".toList, Idiom := "mac".toList,
                         Scale := "2x".toList, Size := "32x32".toList }],
            Info := { Version := 1, Author := "xcode".toList } }]) ∧
    processIconSet noSizeWorld iconLib "/in/icon.png".toList
        { dstDirPath := "/x.appiconset".toList } {} [] =
      (some [⟨"/in/icon.png".toList, [], true, some "Missing Size".toList⟩],
       [Call.readImagesetContents "/x.appiconset/Contents.json".toList]) ∧
    truncate (Float64.mul (iconLib.parseFloat "32".toList) (iconLib.parseFloat "2".toList)) =
      64 := by
  have h := processIconSet_entry_output iconWorld iconLib "/in/icon.png".toList
    { dstDirPath := "/x.appiconset".toList } {}
    { Filename := "old.png".toList, Idiom := "mac".toList, Scale := "2x".toList,
      Size := "32x32".toList } [] 0
    [{ Filename := "old.png".toList, Idiom := "mac".toList, Scale := "2x".toList,
       Size := "32x32".toList }] []
    [Call.readImagesetContents "/x.appiconset/Contents.json".toList]
    "32".toList "32".toList "2".toList [] [[]] 300 200
    (by decide) (by decide) (by decide) (by decide) (by decide) (by decide)
  have h0 := processIconSet_entry_output noSizeWorld iconLib "/in/icon.png".toList
    { dstDirPath := "/x.appiconset".toList } {}
    { Filename := "old.png".toList, Idiom := "mac".toList, Scale := "2x".toList,
      Size := "32x32".toList } [] 0
    [{ Filename := "old.png".toList, Idiom := "mac".toList, Scale := "2x".toList,
       Size := "32x32".toList }] []
    [Call.readImagesetContents "/x.appiconset/Contents.json".toList]
    "32".toList "32".toList "2".toList [] [[]] 300 200
    (by decide) (by decide) (by decide) (by decide) (by decide) (by decide)
  refine ⟨h.1.trans (by decide!), ?_, ?_,
    (h.2.2.2.2.2.2 32 32 2 rfl rfl rfl (by decide) (by decide) (by decide) (by decide)
      (by decide)).1⟩
  · exact (h.2.2.1 []
      { Images := [{ Filename := "old.png".toList, Idiom := "mac".toList, Scale := "2x".toList,
                     Size := "32x32".toList }],
        Info := { Version := 1, Author := "xcode".toList } }
      [{ Filename := "icon-32x32-2x.png".toList, Idiom := "mac".toList, Scale := "2x".toList,
         Size := "32x32".toList }]
      [⟨"/in/icon.png".toList, "/x.appiconset/icon-32x32-2x.png".toList, false, none⟩]
      [Call.readImagesetContents "/x.appiconset/Contents.json".toList,
       Call.osRemove "/x.appiconset/old.png".toList,
       Call.imagingOpen "/in/icon.png".toList,
       Call.imagingSave (Image.fill (Image.opened "/in/icon.png".toList 300 200) 64 64)
         "/x.appiconset/icon-32x32-2x.png".toList]
      (by decide) (by decide!)).1.trans (by decide)
  · exact h0.2.2.2.1 []
      { Images := [{ Idiom := "mac".toList, Scale := "1x".toList }],
        Info := { Version := 1, Author := "xcode".toList } }
      [⟨"/in/icon.png".toList, [], true, some "Missing Size".toList⟩]
      [Call.readImagesetContents "/x.appiconset/Contents.json".toList]
      (by decide) (by decide)

/-- C19 at the failing input: the sidecar entry with size `32` and scale
`1x` has both strings non-empty, so it passes the two checks; the size split
on `x` has the single element `32`, its second element is out of range, and
`processIconSet` panics right after reading the sidecar. -/
theorem processIconSet_plain_size_panics :
    ("32".toList ≠ [] ∧ "1x".toList ≠ []) ∧
      stringsSplit 'x' "32".toList = ["32".toList] ∧
      (stringsSplit 'x' "32".toList)[1]? = none ∧
      processIconSet plainSizeWorld iconLib "/in/icon.png".toList
          { dstDirPath := "/x.appiconset".toList } {} [] =
        (none, [Call.readImagesetContents "/x.appiconset/Contents.json".toList]) := by
  refine ⟨⟨by decide, by decide⟩, by decide, by decide, by decide⟩

/-- The accesses of `processIconSet` to the first element of a split string
are always in range, and the access to the second element of the split size
is in range exactly when the size holds an `x`. -/
theorem stringsSplit_index_range (s : Str) :
    (stringsSplit 'x' s)[0]? ≠ none ∧ ((stringsSplit 'x' s)[1]? ≠ none ↔ 'x' ∈ s) := by
  constructor
  · rcases h : stringsSplit 'x' s with _ | ⟨a, l⟩
    · exact absurd h (stringsSplit_ne_nil _ _)
    · simp
  · induction s with
    | nil => simp [stringsSplit]
    | cons c cs ih =>
      by_cases hc : c = 'x'
      · subst hc
        rcases h : stringsSplit 'x' cs with _ | ⟨a, l⟩
        · exact absurd h (stringsSplit_ne_nil _ _)
        · simp [stringsSplit, h]
      · rcases h : stringsSplit 'x' cs with _ | ⟨a, l⟩
        · exact absurd h (stringsSplit_ne_nil _ _)
        · rw [h] at ih
          have hne : ¬ ('x' = c) := fun h' => hc h'.symm
          simp only [stringsSplit, if_neg hc, h, List.mem_cons, hne, false_or]
          simpa using ih

/-! ## Icns -/

/-- One row of the table of `processIcns`, for a source that opens: the
source is fill-cropped to size times scale in both dimensions and saved under
the name of the row, and the loop goes on to the next row whether the save
succeeds or not. -/
theorem processIcnsLoop_row (w : World) (srcPath : Str) (plan : ProcessPlan)
    (dstFolderPath : Str) (row : Nat × Nat) (rest : List (Nat × Nat))
    (results : List ProcessResult) (log : Log) (srcWidth srcHeight : Int)
    (hsuffix : ¬ (plan.requiredSuffix.length > 0 ∧ hasSuffix srcPath plan.requiredSuffix = false))
    (hformat : formatForPath srcPath ≠ formatUnchanged)
    (hopen : w.imagingOpen log srcPath = .ok (srcWidth, srcHeight)) :
    processIcnsLoop w srcPath plan dstFolderPath (row :: rest) results log =
      processIcnsLoop w srcPath plan dstFolderPath rest
        (results ++
          [⟨srcPath, filepathJoin dstFolderPath (icnsVariantName plan srcPath row),
            (w.imagingSave (log ++ [Call.imagingOpen srcPath])
              (Image.fill (Image.opened srcPath srcWidth srcHeight)
                (icnsPixels row) (icnsPixels row))
              (filepathJoin dstFolderPath (icnsVariantName plan srcPath row))).isSome,
            (w.imagingSave (log ++ [Call.imagingOpen srcPath])
              (Image.fill (Image.opened srcPath srcWidth srcHeight)
                (icnsPixels row) (icnsPixels row))
              (filepathJoin dstFolderPath (icnsVariantName plan srcPath row))).map
                (fun e => "Save failed: ".toList ++ e)⟩])
        (log ++
          [Call.imagingOpen srcPath,
           Call.imagingSave
             (Image.fill (Image.opened srcPath srcWidth srcHeight)
               (icnsPixels row) (icnsPixels row))
             (filepathJoin dstFolderPath (icnsVariantName plan srcPath row))]) := by
  obtain ⟨scale, size⟩ := row
  rw [processIcnsLoop]
  simp only [if_neg hsuffix, if_neg hformat, hopen]
  unfold icnsVariantName icnsPixels
  by_cases h2 : scale = 2
  · simp only [h2, if_true]
    cases hsave : w.imagingSave _ _ _ <;> simp [hsave]
  · simp only [if_neg h2]
    cases hsave : w.imagingSave _ _ _ <;> simp [hsave]

/-- One row of the table of `processIcns` for a source that cannot be opened:
the run ends with a fatal result. -/
theorem processIcnsLoop_open_failed (w : World) (srcPath : Str) (plan : ProcessPlan)
    (dstFolderPath : Str) (row : Nat × Nat) (rest : List (Nat × Nat))
    (results : List ProcessResult) (log : Log) (e : Str)
    (hsuffix : ¬ (plan.requiredSuffix.length > 0 ∧ hasSuffix srcPath plan.requiredSuffix = false))
    (hformat : formatForPath srcPath ≠ formatUnchanged)
    (hopen : w.imagingOpen log srcPath = .error e) :
    processIcnsLoop w srcPath plan dstFolderPath (row :: rest) results log =
      (.returned (results ++
        [⟨srcPath, filepathJoin dstFolderPath (icnsVariantName plan srcPath row), true,
          some ("Open failed: ".toList ++ e)⟩]),
       log ++ [Call.imagingOpen srcPath]) := by
  obtain ⟨scale, size⟩ := row
  rw [processIcnsLoop]
  simp only [if_neg hsuffix, if_neg hformat, hopen]
  unfold icnsVariantName
  by_cases h2 : scale = 2
  · simp only [h2, if_true]
  · simp only [if_neg h2]

/-- A source that lacks the required suffix ends `processIcns` at the first
row, with no call. -/
theorem processIcnsLoop_suffix (w : World) (srcPath : Str) (plan : ProcessPlan)
    (dstFolderPath : Str) (row : Nat × Nat) (rest : List (Nat × Nat))
    (results : List ProcessResult) (log : Log)
    (hsuffix : plan.requiredSuffix.length > 0 ∧ hasSuffix srcPath plan.requiredSuffix = false) :
    processIcnsLoop w srcPath plan dstFolderPath (row :: rest) results log =
      (.returned (results ++ [⟨srcPath, [], false,
        some ("Source does not have required suffix: ".toList ++ plan.requiredSuffix)⟩]),
       log) := by
  obtain ⟨scale, size⟩ := row
  rw [processIcnsLoop]
  simp only [if_pos hsuffix]

/-- A source of unsupported format ends `processIcns` at the first row, with
no call. -/
theorem processIcnsLoop_unsupported (w : World) (srcPath : Str) (plan : ProcessPlan)
    (dstFolderPath : Str) (row : Nat × Nat) (rest : List (Nat × Nat))
    (results : List ProcessResult) (log : Log)
    (hsuffix : ¬ (plan.requiredSuffix.length > 0 ∧ hasSuffix srcPath plan.requiredSuffix = false))
    (hformat : formatForPath srcPath = formatUnchanged) :
    processIcnsLoop w srcPath plan dstFolderPath (row :: rest) results log =
      (.returned (results ++
        [⟨srcPath, [], true, some "Unsupported source image format".toList⟩]), log) := by
  obtain ⟨scale, size⟩ := row
  rw [processIcnsLoop]
  simp only [if_neg hsuffix, if_pos hformat]

/-- The loop of `processIcns` over any rows, for a source that passes the
suffix and format checks: either it runs to its end, and then the calls it
made are opens of the source and one save per row, in the order of the rows,
of a fill-crop of the pixel size of the row in both dimensions under the name
of the row; or it returns early, having made only opens and saves. -/
theorem processIcnsLoop_cases (w : World) (srcPath : Str) (plan : ProcessPlan)
    (dstFolderPath : Str)
    (hsuffix : ¬ (plan.requiredSuffix.length > 0 ∧ hasSuffix srcPath plan.requiredSuffix = false))
    (hformat : formatForPath srcPath ≠ formatUnchanged)
    (rows : List (Nat × Nat)) :
    ∀ (results : List ProcessResult) (log : Log),
      (∃ results1 steps,
        processIcnsLoop w srcPath plan dstFolderPath rows results log =
            (.finished results1, log ++ steps) ∧
          steps.filterMap savedVariant =
            rows.map (fun row =>
              (filepathJoin dstFolderPath (icnsVariantName plan srcPath row),
               icnsPixels row, icnsPixels row)) ∧
          (∀ c ∈ steps, c = Call.imagingOpen srcPath ∨ (savedVariant c).isSome = true)) ∨
      (∃ results1 steps,
        processIcnsLoop w srcPath plan dstFolderPath rows results log =
            (.returned results1, log ++ steps) ∧
          (∀ c ∈ steps, c = Call.imagingOpen srcPath ∨ (savedVariant c).isSome = true)) := by
  induction rows with
  | nil =>
    intro results log
    exact Or.inl ⟨results, [], by simp [processIcnsLoop], rfl, by simp⟩
  | cons row rest ih =>
    intro results log
    cases hopen : w.imagingOpen log srcPath with
    | error e =>
      refine Or.inr ⟨_, [Call.imagingOpen srcPath],
        processIcnsLoop_open_failed w srcPath plan dstFolderPath row rest results log e hsuffix
          hformat hopen, ?_⟩
      intro c hc
      exact Or.inl (List.mem_singleton.1 hc)
    | ok dims =>
      obtain ⟨srcWidth, srcHeight⟩ := dims
      have hstep := processIcnsLoop_row w srcPath plan dstFolderPath row rest results log
        srcWidth srcHeight hsuffix hformat hopen
      have hmem : ∀ (steps : List Call),
          (∀ c ∈ steps, c = Call.imagingOpen srcPath ∨ (savedVariant c).isSome = true) →
          ∀ c ∈ [Call.imagingOpen srcPath,
              Call.imagingSave
                (Image.fill (Image.opened srcPath srcWidth srcHeight)
                  (icnsPixels row) (icnsPixels row))
                (filepathJoin dstFolderPath (icnsVariantName plan srcPath row))] ++ steps,
            c = Call.imagingOpen srcPath ∨ (savedVariant c).isSome = true := by
        intro steps hsteps c hc
        rcases List.mem_append.1 hc with h | h
        · simp only [List.mem_cons, List.mem_singleton, List.not_mem_nil, or_false] at h
          rcases h with h | h
          · exact Or.inl h
          · exact Or.inr (by rw [h]; rfl)
        · exact hsteps c h
      rcases ih _ _ with ⟨results1, steps, hrun, hsaved, hsteps⟩ | ⟨results1, steps, hrun, hsteps⟩
      · refine Or.inl ⟨results1, _ ++ steps, ?_, ?_, hmem steps hsteps⟩
        · rw [hstep, hrun, List.append_assoc]
        · rw [List.filterMap_append, hsaved]
          rfl
      · refine Or.inr ⟨results1, _ ++ steps, ?_, hmem steps hsteps⟩
        rw [hstep, hrun, List.append_assoc]

/-- The loop of `processIcns` in a world in which every open of the source
and every save succeeds: it runs to its end with one result without error
per row. -/
theorem processIcnsLoop_all_saved (w : World) (srcPath : Str) (plan : ProcessPlan)
    (dstFolderPath : Str)
    (hsuffix : ¬ (plan.requiredSuffix.length > 0 ∧ hasSuffix srcPath plan.requiredSuffix = false))
    (hformat : formatForPath srcPath ≠ formatUnchanged)
    (hopen : ∀ log, ∃ dims, w.imagingOpen log srcPath = .ok dims)
    (hsave : ∀ log image path, w.imagingSave log image path = none)
    (rows : List (Nat × Nat)) :
    ∀ (results : List ProcessResult) (log : Log),
      (processIcnsLoop w srcPath plan dstFolderPath rows results log).1 =
        .finished (results ++ rows.map (fun row =>
          ⟨srcPath, filepathJoin dstFolderPath (icnsVariantName plan srcPath row), false,
            none⟩)) := by
  induction rows with
  | nil =>
    intro results log
    simp [processIcnsLoop]
  | cons row rest ih =>
    intro results log
    obtain ⟨⟨srcWidth, srcHeight⟩, ho⟩ := hopen log
    rw [processIcnsLoop_row w srcPath plan dstFolderPath row rest results log srcWidth srcHeight
      hsuffix hformat ho, ih, hsave]
    simp

/-- The loop of `processIcns` over at least one row returns early, with no
call, for a source that fails the suffix or the format check. -/
theorem processIcnsLoop_rejected (w : World) (srcPath : Str) (plan : ProcessPlan)
    (dstFolderPath : Str) (row : Nat × Nat) (rest : List (Nat × Nat))
    (results : List ProcessResult) (log : Log)
    (h : (plan.requiredSuffix.length > 0 ∧ hasSuffix srcPath plan.requiredSuffix = false) ∨
      formatForPath srcPath = formatUnchanged) :
    ∃ results1, processIcnsLoop w srcPath plan dstFolderPath (row :: rest) results log =
      (.returned results1, log) := by
  by_cases hsuffix : plan.requiredSuffix.length > 0 ∧ hasSuffix srcPath plan.requiredSuffix = false
  · exact ⟨_, processIcnsLoop_suffix w srcPath plan dstFolderPath row rest results log hsuffix⟩
  · rcases h with h | h
    · exact absurd h hsuffix
    · exact ⟨_, processIcnsLoop_unsupported w srcPath plan dstFolderPath row rest results log
        hsuffix h⟩

/-- The run of `processIcns` when its loop runs to the end: the conversion
command is invoked, a fatal result is appended when it fails, and the
temporary directory is removed last. -/
theorem processIcns_finished (w : World) (srcPath : Str) (config : Configuration)
    (plan : ProcessPlan) (log : Log) (results1 : List ProcessResult) (log1 : Log)
    (hloop : processIcnsLoop w srcPath plan (changeExtension config.dstDirPath ".iconset".toList)
        icnsSizes [] (log ++ [Call.osMkdir (changeExtension config.dstDirPath ".iconset".toList)]) =
      (.finished results1, log1)) :
    processIcns w srcPath config plan log =
      (results1 ++
        (match w.runCommand log1
            (icnsCommand config.dstDirPath
              (changeExtension config.dstDirPath ".iconset".toList)) with
          | some e => [⟨srcPath, [], true, some ("Convert failed: ".toList ++ e)⟩]
          | none => []),
       log1 ++
        [Call.runCommand (icnsCommand config.dstDirPath
           (changeExtension config.dstDirPath ".iconset".toList)),
         Call.osRemoveAll (changeExtension config.dstDirPath ".iconset".toList)]) := by
  simp only [processIcns, hloop, icnsCommand, List.append_assoc, List.cons_append,
    List.nil_append]
  cases w.runCommand _ _ <;> simp

/-- The calls of a run of `processIcns` after the creation of the temporary
directory: either opens and saves for all rows, the conversion command and
the removal, or opens and saves only. -/
theorem processIcns_calls (w : World) (srcPath : Str) (config : Configuration)
    (plan : ProcessPlan) (log : Log) :
    (∃ steps,
      (processIcns w srcPath config plan log).2 =
          log ++ Call.osMkdir (changeExtension config.dstDirPath ".iconset".toList) ::
            (steps ++
              [Call.runCommand (icnsCommand config.dstDirPath
                 (changeExtension config.dstDirPath ".iconset".toList)),
               Call.osRemoveAll (changeExtension config.dstDirPath ".iconset".toList)]) ∧
        steps.filterMap savedVariant =
          icnsSizes.map (fun row =>
            (filepathJoin (changeExtension config.dstDirPath ".iconset".toList)
               (icnsVariantName plan srcPath row), icnsPixels row, icnsPixels row)) ∧
        (∀ c ∈ steps, c = Call.imagingOpen srcPath ∨ (savedVariant c).isSome = true)) ∨
    (∃ steps,
      (processIcns w srcPath config plan log).2 =
          log ++ Call.osMkdir (changeExtension config.dstDirPath ".iconset".toList) :: steps ∧
        (∀ c ∈ steps, c = Call.imagingOpen srcPath ∨ (savedVariant c).isSome = true)) := by
  by_cases hrej : (plan.requiredSuffix.length > 0 ∧
      hasSuffix srcPath plan.requiredSuffix = false) ∨ formatForPath srcPath = formatUnchanged
  · obtain ⟨results1, hrun⟩ := processIcnsLoop_rejected w srcPath plan
      (changeExtension config.dstDirPath ".iconset".toList) (1, 16)
      [(2, 16), (1, 32), (2, 32), (1, 128), (2, 128), (1, 256), (2, 256), (1, 512), (2, 512)]
      [] (log ++ [Call.osMkdir (changeExtension config.dstDirPath ".iconset".toList)]) hrej
    refine Or.inr ⟨[], ?_, by simp⟩
    simp only [processIcns, icnsSizes, hrun]
  · have hsuffix := fun h => hrej (Or.inl h)
    have hformat : formatForPath srcPath ≠ formatUnchanged := fun h => hrej (Or.inr h)
    rcases processIcnsLoop_cases w srcPath plan
        (changeExtension config.dstDirPath ".iconset".toList) hsuffix hformat icnsSizes []
        (log ++ [Call.osMkdir (changeExtension config.dstDirPath ".iconset".toList)]) with
      ⟨results1, steps, hrun, hsaved, hsteps⟩ | ⟨results1, steps, hrun, hsteps⟩
    · refine Or.inl ⟨steps, ?_, hsaved, hsteps⟩
      rw [processIcns_finished w srcPath config plan log results1 _ hrun]
      simp only [List.append_assoc, List.cons_append, List.nil_append]
    · refine Or.inr ⟨steps, ?_, hsteps⟩
      simp only [processIcns, hrun, List.append_assoc, List.cons_append, List.nil_append]

/-- C18 (amended): the table of `processIcns` has the 10 rows of sizes 16,
32, 128, 256 and 512 at scales 1 and 2, with pixel sizes size times scale.
For each row, once the source has opened, a fill-crop of that pixel size is
saved into the temporary `.iconset` directory and one result is recorded,
fatal exactly when the save fails; the loop then goes on to the next row.
Whenever the conversion command is invoked, the calls before it are the
creation of the temporary directory, opens of the source and exactly one
save attempt per row, in table order, and the removal of the temporary
directory is the last call of the run, whatever the conversion answers.  When
every open and every save succeeds the conversion is invoked and the results
are the 10 written variants, followed by the conversion failure if there is
one. -/
theorem processIcns_conversion (w : World) (srcPath : Str) (config : Configuration)
    (plan : ProcessPlan) (log : Log) :
    icnsSizes.map (fun row => (row.2, row.1, icnsPixels row)) =
        [(16, 1, 16), (16, 2, 32), (32, 1, 32), (32, 2, 64), (128, 1, 128), (128, 2, 256),
         (256, 1, 256), (256, 2, 512), (512, 1, 512), (512, 2, 1024)] ∧
    (∀ (dstFolderPath : Str) (row : Nat × Nat) (rest : List (Nat × Nat))
        (results : List ProcessResult) (log0 : Log) (srcWidth srcHeight : Int),
      ¬ (plan.requiredSuffix.length > 0 ∧ hasSuffix srcPath plan.requiredSuffix = false) →
      formatForPath srcPath ≠ formatUnchanged →
      w.imagingOpen log0 srcPath = .ok (srcWidth, srcHeight) →
      processIcnsLoop w srcPath plan dstFolderPath (row :: rest) results log0 =
        processIcnsLoop w srcPath plan dstFolderPath rest
          (results ++
            [⟨srcPath, filepathJoin dstFolderPath (icnsVariantName plan srcPath row),
              (w.imagingSave (log0 ++ [Call.imagingOpen srcPath])
                (Image.fill (Image.opened srcPath srcWidth srcHeight)
                  (icnsPixels row) (icnsPixels row))
                (filepathJoin dstFolderPath (icnsVariantName plan srcPath row))).isSome,
              (w.imagingSave (log0 ++ [Call.imagingOpen srcPath])
                (Image.fill (Image.opened srcPath srcWidth srcHeight)
                  (icnsPixels row) (icnsPixels row))
                (filepathJoin dstFolderPath (icnsVariantName plan srcPath row))).map
                  (fun e => "Save failed: ".toList ++ e)⟩])
          (log0 ++
            [Call.imagingOpen srcPath,
             Call.imagingSave
               (Image.fill (Image.opened srcPath srcWidth srcHeight)
                 (icnsPixels row) (icnsPixels row))
               (filepathJoin dstFolderPath (icnsVariantName plan srcPath row))])) ∧
    (∀ (results1 : List ProcessResult) (log1 : Log),
      processIcnsLoop w srcPath plan (changeExtension config.dstDirPath ".iconset".toList)
          icnsSizes []
          (log ++ [Call.osMkdir (changeExtension config.dstDirPath ".iconset".toList)]) =
        (.finished results1, log1) →
      processIcns w srcPath config plan log =
        (results1 ++
          (match w.runCommand log1
              (icnsCommand config.dstDirPath
                (changeExtension config.dstDirPath ".iconset".toList)) with
            | some e => [⟨srcPath, [], true, some ("Convert failed: ".toList ++ e)⟩]
            | none => []),
         log1 ++
          [Call.runCommand (icnsCommand config.dstDirPath
             (changeExtension config.dstDirPath ".iconset".toList)),
           Call.osRemoveAll (changeExtension config.dstDirPath ".iconset".toList)])) ∧
    (∀ calls : List Call, (processIcns w srcPath config plan log).2 = log ++ calls →
      (∃ cmd, Call.runCommand cmd ∈ calls) →
      ∃ steps,
        calls =
            Call.osMkdir (changeExtension config.dstDirPath ".iconset".toList) ::
              (steps ++
                [Call.runCommand (icnsCommand config.dstDirPath
                   (changeExtension config.dstDirPath ".iconset".toList)),
                 Call.osRemoveAll (changeExtension config.dstDirPath ".iconset".toList)]) ∧
          steps.filterMap savedVariant =
            icnsSizes.map (fun row =>
              (filepathJoin (changeExtension config.dstDirPath ".iconset".toList)
                 (icnsVariantName plan srcPath row), icnsPixels row, icnsPixels row)) ∧
          (∀ c ∈ steps, c = Call.imagingOpen srcPath ∨ (savedVariant c).isSome = true)) ∧
    (¬ (plan.requiredSuffix.length > 0 ∧ hasSuffix srcPath plan.requiredSuffix = false) →
      formatForPath srcPath ≠ formatUnchanged →
      (∀ log0, ∃ dims, w.imagingOpen log0 srcPath = .ok dims) →
      (∀ log0 image path, w.imagingSave log0 image path = none) →
      ∃ steps,
        processIcns w srcPath config plan log =
          (icnsSizes.map (fun row =>
              (⟨srcPath,
                filepathJoin (changeExtension config.dstDirPath ".iconset".toList)
                  (icnsVariantName plan srcPath row), false, none⟩ : ProcessResult)) ++
            (match w.runCommand
                (log ++ Call.osMkdir (changeExtension config.dstDirPath ".iconset".toList) ::
                  steps)
                (icnsCommand config.dstDirPath
                  (changeExtension config.dstDirPath ".iconset".toList)) with
              | some e => [⟨srcPath, [], true, some ("Convert failed: ".toList ++ e)⟩]
              | none => []),
           log ++ Call.osMkdir (changeExtension config.dstDirPath ".iconset".toList) ::
             (steps ++
               [Call.runCommand (icnsCommand config.dstDirPath
                  (changeExtension config.dstDirPath ".iconset".toList)),
                Call.osRemoveAll (changeExtension config.dstDirPath ".iconset".toList)]))) := by
  refine ⟨by decide!, ?_, ?_, ?_, ?_⟩
  · intro dstFolderPath row rest results log0 srcWidth srcHeight hsuffix hformat hopen
    exact processIcnsLoop_row w srcPath plan dstFolderPath row rest results log0 srcWidth
      srcHeight hsuffix hformat hopen
  · intro results1 log1 hloop
    exact processIcns_finished w srcPath config plan log results1 log1 hloop
  · intro calls hcalls hconv
    rcases processIcns_calls w srcPath config plan log with
      ⟨steps, hrun, hsaved, hsteps⟩ | ⟨steps, hrun, hsteps⟩
    · refine ⟨steps, ?_, hsaved, hsteps⟩
      rw [hrun] at hcalls
      exact (List.append_cancel_left hcalls).symm
    · exfalso
      rw [hrun] at hcalls
      rw [← List.append_cancel_left hcalls] at hconv
      obtain ⟨cmd, hcmd⟩ := hconv
      rcases List.mem_cons.1 hcmd with h | h
      · exact Call.noConfusion h
      · rcases hsteps _ h with h1 | h1
        · exact Call.noConfusion h1
        · exact Bool.noConfusion h1
  · intro hsuffix hformat hopen hsave
    have hall := processIcnsLoop_all_saved w srcPath plan
      (changeExtension config.dstDirPath ".iconset".toList) hsuffix hformat hopen hsave icnsSizes []
      (log ++ [Call.osMkdir (changeExtension config.dstDirPath ".iconset".toList)])
    rcases processIcnsLoop_cases w srcPath plan
        (changeExtension config.dstDirPath ".iconset".toList) hsuffix hformat icnsSizes []
        (log ++ [Call.osMkdir (changeExtension config.dstDirPath ".iconset".toList)]) with
      ⟨results1, steps, hrun, -, -⟩ | ⟨results1, steps, hrun, -⟩
    · rw [hrun] at hall
      simp only [List.nil_append, LoopExit.finished.injEq] at hall
      refine ⟨steps, ?_⟩
      rw [processIcns_finished w srcPath config plan log results1 _ hrun, hall]
      simp only [List.append_assoc, List.cons_append, List.nil_append]
    · rw [hrun] at hall
      simp at hall

/-- Counterexample to C18 as stated: with a source that opens and saves that
all fail, every one of the 10 results is fatal and no variant has been
written, yet the conversion command is invoked. -/
theorem processIcns_conversion_counterexample :
    (processIcns saveFailWorld "/in/icon.png".toList
          { dstDirPath := "/out/app.icns".toList } {} []).1.map (fun r => (r.outPath, r.failed)) =
        ["/out/app.iconset/icon_16x16.png", "/out/app.iconset/icon_16x16@2x.png",
          "/out/app.iconset/icon_32x32.png", "/out/app.iconset/icon_32x32@2x.png",
          "/out/app.iconset/icon_128x128.png", "/out/app.iconset/icon_128x128@2x.png",
          "/out/app.iconset/icon_256x256.png", "/out/app.iconset/icon_256x256@2x.png",
          "/out/app.iconset/icon_512x512.png", "/out/app.iconset/icon_512x512@2x.png"].map
            (fun name => (name.toList, true)) ∧
      Call.runCommand (icnsCommand "/out/app.icns".toList "/out/app.iconset".toList) ∈
        (processIcns saveFailWorld "/in/icon.png".toList
          { dstDirPath := "/out/app.icns".toList } {} []).2 := by
  refine ⟨by decide!, by decide!⟩

/-- Witness for C18 (amended): in a world where everything succeeds the run
on `/in/icon.png` for `/out/app.icns` gives the ten variants
`icon_16x16.png` to `icon_512x512@2x.png` in `/out/app.iconset` as results
without error, invokes the conversion and removes the directory. -/
theorem processIcns_conversion_witness :
    ∃ steps,
      processIcns okWorld "/in/icon.png".toList { dstDirPath := "/out/app.icns".toList } {} [] =
        (["/out/app.iconset/icon_16x16.png", "/out/app.iconset/icon_16x16@2x.png",
          "/out/app.iconset/icon_32x32.png", "/out/app.iconset/icon_32x32@2x.png",
          "/out/app.iconset/icon_128x128.png", "/out/app.iconset/icon_128x128@2x.png",
          "/out/app.iconset/icon_256x256.png", "/out/app.iconset/icon_256x256@2x.png",
          "/out/app.iconset/icon_512x512.png", "/out/app.iconset/icon_512x512@2x.png"].map
            (fun name => (⟨"/in/icon.png".toList, name.toList, false, none⟩ : ProcessResult)),
         Call.osMkdir "/out/app.iconset".toList ::
           (steps ++
             [Call.runCommand (icnsCommand "/out/app.icns".toList "/out/app.iconset".toList),
              Call.osRemoveAll "/out/app.iconset".toList])) := by
  obtain ⟨steps, h⟩ := (processIcns_conversion okWorld "/in/icon.png".toList
    { dstDirPath := "/out/app.icns".toList } {} []).2.2.2.2 (by decide) (by decide)
    (fun _ => ⟨(300, 200), rfl⟩) (fun _ _ _ => rfl)
  refine ⟨steps, h.trans (Prod.ext ?_ ?_)⟩
  · simp only [okWorld, List.append_nil]
    decide
  · simp only [List.nil_append]
    rfl

/-- A run of `processIcns` on a source that cannot be opened: it ends at the
first row, after the temporary directory has been made, and makes no call to
remove it (the `return` of lines 825-828 comes before line 847). -/
theorem processIcns_open_failed_keeps_directory :
    processIcns openFailWorld "/in/icon.png".toList
        { dstDirPath := "/out/app.icns".toList } {} [] =
      ([⟨"/in/icon.png".toList, "/out/app.iconset/icon_16x16.png".toList, true,
          some "Open failed: no such file".toList⟩],
       [Call.osMkdir "/out/app.iconset".toList, Call.imagingOpen "/in/icon.png".toList]) := by
  decide

end Imgx
